import Mathlib

/-!
# geojson-vt-cpp: the streaming GeoJSON decoder

A shallow embedding of `src/src/geojson.cpp` (the `GeoJSONReader` handler that
rapidjson drives, and the `GeoJSON` constructor around it) together with the
output model of `include/mapbox/geojsonvt/geojson.hpp`, of the coordinate depth
resolver `CoordinatesReader` of `src/src/geojson2.cpp`, and of the two loops
`calculate_dist` and `calculate_area` of `include/mapbox/geojsonvt/types.hpp`.

Conventions of the embedding:

* `double` values are never inspected by the decoder, only stored, so the
  number type is a parameter `ν`.
* `int` counters are `Int` (they can become negative on ill-formed event
  sequences; nesting depths near 2^31 are out of reach of the tokenizer).
* `std::stack<Expected>` is a `List Expected` whose head is the top.
* A handler `bool H()` that mutates the reader is a function
  `GeoJSONReader ν → Bool × GeoJSONReader ν`.
* A moved-from `std::vector` is empty (the source asserts as much).
* The `uint8_t` counters of `CoordinatesReader` are natural numbers below 256,
  incremented and decremented modulo 256; `size_t` is 64 bits wide.
* An `assert` does nothing (the build with `NDEBUG`); what follows it runs.
* The tokenizer is external. It delivers the events of a text in the order of
  the JSON grammar (`grammarStep`), those of a well-formed document being
  `JSON.events`.
-/

namespace Mapbox

/-! ## Enumerations -/

/-- The source's `enum class Expected` (the constructor `Type_` is `Expected::Type`). -/
inductive Expected where
  | None
  | Root
  | RootTypeKey
  | Type_
  | Geometry
  | GeometryTypeKey
  | GeometryType
  | GeometryKey
  | GeometryCoordinates
  | FirstGeometryCoordinate
  | SecondGeometryCoordinate
  | ExcessGeometryCoordinates
  | Ignored
  | CoordinatesKey
  | GeometryDepth1
  | GeometryDepth2
  | GeometryDepth3
  | GeometryDepth4
  deriving DecidableEq, Repr

/-- The text `operator<<(std::ostream&, Expected)` writes. -/
def Expected.describe : Expected → String
  | .None => "nothing"
  | .Root => "a root object"
  | .Type_ => "one of 'Point', 'MultiPoint', 'LineString', 'MultiLineString', 'Polygon', 'MultiPolygon', 'GeometryCollection', 'Feature', or 'FeatureCollection'"
  | .RootTypeKey => "a key 'type' in the root object"
  | .Geometry => "a geometry object"
  | .GeometryTypeKey => "a key 'type' in the geometry object"
  | .GeometryType => "one of 'Point', 'MultiPoint', 'LineString', 'MultiLineString', 'Polygon', 'MultiPolygon', or 'GeometryCollection'"
  | .GeometryKey => "a 'geometry' key value pair"
  | .GeometryCoordinates => "a coordinate array"
  | .FirstGeometryCoordinate => "a coordinate"
  | .SecondGeometryCoordinate => "a second coordinate"
  | .ExcessGeometryCoordinates => "a closing bracket, or a coordinate"
  | .Ignored => "an ignored value"
  | .CoordinatesKey => "a 'coordinates' key value pair"
  | .GeometryDepth1 => "'Point'"
  | .GeometryDepth2 => "'LineString', or 'MultiPoint'"
  | .GeometryDepth3 => "'Polygon', or 'MultiLineString'"
  | .GeometryDepth4 => "'MultiPolygon'"

/-- The source's `enum class Actual` (the constructor `String_` is `Actual::String`). -/
inductive Actual where
  | None
  | Object
  | ObjectEnded
  | Array
  | ArrayEnded
  | Key
  | Keyword
  | String_
  | Number
  | Null
  | Boolean
  | KeywordPoint
  | KeywordLineString
  | KeywordPolygon
  | KeywordMultiPoint
  | KeywordMultiLineString
  | KeywordMultiPolygon
  | KeywordGeometryCollection
  deriving DecidableEq, Repr

/-- The text `operator<<(std::ostream&, Actual)` writes. -/
def Actual.describe : Actual → String
  | .None => "nothing"
  | .Object => "an object"
  | .ObjectEnded => "a prematurely closed object"
  | .Array => "an array"
  | .ArrayEnded => "a prematurely closed array"
  | .Key => "an object key"
  | .Keyword => "an invalid keyword"
  | .String_ => "a string"
  | .Number => "a number"
  | .Null => "a null object"
  | .Boolean => "a boolean"
  | .KeywordPoint => "'Point'"
  | .KeywordLineString => "'LineString'"
  | .KeywordPolygon => "'Polygon'"
  | .KeywordMultiPoint => "'MultiPoint'"
  | .KeywordMultiLineString => "'MultiLineString'"
  | .KeywordMultiPolygon => "'MultiPolygon'"
  | .KeywordGeometryCollection => "'GeometryCollection'"

/-- The source's `enum class GeometryType`. -/
inductive GeometryType where
  | None
  | Point
  | LineString
  | Polygon
  | MultiPoint
  | MultiLineString
  | MultiPolygon
  | GeometryCollection
  deriving DecidableEq, Repr

/-- The source's `enum class RootType`. -/
inductive RootType where
  | None
  | Point
  | LineString
  | Polygon
  | MultiPoint
  | MultiLineString
  | MultiPolygon
  | GeometryCollection
  | Feature
  | FeatureCollection
  deriving DecidableEq, Repr

/-! ## Output model (`geojson.hpp`) -/

/-- `using Point = std::array<double, 2>`. -/
abbrev Point (ν : Type) := ν × ν

/-- `using Points = std::vector<Point>` (also `Line`). -/
abbrev Points (ν : Type) := List (Point ν)

/-- `using Polygon = std::vector<Points>` (also `Lines`). -/
abbrev Polygon (ν : Type) := List (Points ν)

/-- The tagged union `class Geometry`: the tag `Geometry::Type` together with
the one active member of the union. -/
inductive Geometry (ν : Type) where
  | None
  | Point (points : Points ν)
  | Line (lines : Polygon ν)
  | Polygon (polygon : Polygon ν)
  deriving DecidableEq, Repr

/-- `class Feature`: owns exactly one `Geometry`. -/
structure Feature (ν : Type) where
  geometry : Geometry ν
  deriving DecidableEq, Repr

/-! ## The event stream -/

/-- The events rapidjson delivers to the handler. `Int`, `Uint`, `Int64`,
`Uint64` and `Double` all forward to `handleNumber(double)`, so they are one
event here; the `SizeType` counts of `EndObject` / `EndArray` and the `copy`
flags are ignored by the handler and left out. -/
inductive Event (ν : Type) where
  | startObject
  | endObject
  | startArray
  | endArray
  | key (str : String)
  | string (str : String)
  | number (n : ν)
  | null
  | bool (b : Bool)
  deriving DecidableEq, Repr

/-! ## The handler state -/

/-- The data members of `struct GeoJSONReader`. `inserter` is the vector `f`
behind the `std::back_insert_iterator`. -/
structure GeoJSONReader (ν : Type) where
  inserter : List (Feature ν)
  expect : List Expected
  geometryType : GeometryType
  rootType : RootType
  ignoredDepth : Int
  geometryDepth : Int
  deducedGeometryDepth : Int
  pointOffset : Int
  x : ν
  points : Points ν
  polygon : Polygon ν
  coordinates : Option (Polygon ν)
  geometry : Option (List (Geometry ν))
  error : Expected × Actual
  parsedCoordinates : Bool
  speculative : Bool
  deriving DecidableEq, Repr

/-- The reader as constructed by `GeoJSONReader handler(std::back_inserter(f))`.
The member `x` has no initialiser in the source; `x0` stands for whatever it
holds. -/
def GeoJSONReader.init {ν : Type} (x0 : ν) : GeoJSONReader ν :=
  { inserter := []
    expect := [Expected.Root]
    geometryType := GeometryType.None
    rootType := RootType.None
    ignoredDepth := 0
    geometryDepth := 0
    deducedGeometryDepth := 0
    pointOffset := 0
    x := x0
    points := []
    polygon := []
    coordinates := none
    geometry := none
    error := (Expected.None, Actual.None)
    parsedCoordinates := false
    speculative := false }

/-- `expect.top()`. On an empty stack the source is undefined; the embedding
answers `Expected.None` there. -/
def top : List Expected → Expected
  | [] => Expected.None
  | e :: _ => e

/-- `expect.pop()`. -/
def pop : List Expected → List Expected
  | [] => []
  | _ :: es => es

/-- `expect.top() = e`. -/
def setTop (e : Expected) : List Expected → List Expected
  | [] => []
  | _ :: es => e :: es

/-- `coordinates->front()`, moved out. On an empty vector the source is
undefined; the embedding answers the empty point list there. -/
def front {ν : Type} : Polygon ν → Points ν
  | [] => []
  | p :: _ => p

/-- `Geometry(Geometry&& f)`: what is left in `f` after its payload was moved
out (the tag stays, the vector is empty). -/
def Geometry.movedFrom {ν : Type} : Geometry ν → Geometry ν
  | .None => .None
  | .Point _ => .Point []
  | .Line _ => .Line []
  | .Polygon _ => .Polygon []

namespace GeoJSONReader

variable {ν : Type}

/-- `error = { e, a }; return false;` -/
def fail (s : GeoJSONReader ν) (e : Expected) (a : Actual) : Bool × GeoJSONReader ν :=
  (false, { s with error := (e, a) })

/-- `bool StartObject()` (the `fprintf` to stderr is left out). -/
def StartObject (s : GeoJSONReader ν) : Bool × GeoJSONReader ν :=
  match top s.expect with
  | .Ignored => (true, { s with ignoredDepth := s.ignoredDepth + 1 })
  | .Geometry => (true, s)
  | .Root => (true, s)
  | e => s.fail e Actual.Object

/-- `bool endRootObject()`. The `Geometry` constructors copy from their
rvalue-reference parameter, so `coordinates` keeps its contents; the loop over
`*geometry` moves each element into the output. -/
def endRootObject (s : GeoJSONReader ν) : Bool × GeoJSONReader ν :=
  match s.rootType with
  | .None => s.fail Expected.RootTypeKey Actual.ObjectEnded
  | .Point | .MultiPoint =>
    match s.coordinates with
    | none => s.fail Expected.CoordinatesKey Actual.ObjectEnded
    | some c => (true, { s with inserter := s.inserter ++ [⟨Geometry.Point (front c)⟩] })
  | .LineString | .MultiLineString =>
    match s.coordinates with
    | none => s.fail Expected.CoordinatesKey Actual.ObjectEnded
    | some c => (true, { s with inserter := s.inserter ++ [⟨Geometry.Line c⟩] })
  | .Polygon | .MultiPolygon =>
    match s.coordinates with
    | none => s.fail Expected.CoordinatesKey Actual.ObjectEnded
    | some c => (true, { s with inserter := s.inserter ++ [⟨Geometry.Polygon c⟩] })
  | .GeometryCollection => (true, s)
  | .Feature =>
    match s.geometry with
    | none => s.fail Expected.GeometryKey Actual.ObjectEnded
    | some g =>
      (true, { s with inserter := s.inserter ++ g.map (fun geom => ⟨geom⟩)
                      geometry := some (g.map Geometry.movedFrom) })
  | .FeatureCollection => (true, s)

/-- `bool endGeometryObject()`: the pop comes first, whatever follows. -/
def endGeometryObject (s : GeoJSONReader ν) : Bool × GeoJSONReader ν :=
  let s := { s with expect := pop s.expect }
  match s.geometryType with
  | .None => s.fail Expected.GeometryTypeKey Actual.ObjectEnded
  | .Point | .MultiPoint =>
    match s.coordinates with
    | none => s.fail Expected.CoordinatesKey Actual.ObjectEnded
    | some c => (true, { s with geometry := some [Geometry.Point (front c)], coordinates := none })
  | .LineString | .MultiLineString => (true, s)
  | .Polygon | .MultiPolygon =>
    match s.coordinates with
    | none => s.fail Expected.CoordinatesKey Actual.ObjectEnded
    | some c => (true, { s with geometry := some [Geometry.Polygon c], coordinates := none })
  | .GeometryCollection => (true, s)

/-- `bool endIgnored()`. -/
def endIgnored (s : GeoJSONReader ν) : Bool × GeoJSONReader ν :=
  let s := if s.ignoredDepth > 0 then { s with ignoredDepth := s.ignoredDepth - 1 } else s
  let s := if s.ignoredDepth = 0 then { s with expect := pop s.expect } else s
  (true, s)

/-- `bool EndObject(rapidjson::SizeType)`. -/
def EndObject (s : GeoJSONReader ν) : Bool × GeoJSONReader ν :=
  match top s.expect with
  | .Ignored => s.endIgnored
  | .Geometry => s.endGeometryObject
  | .Root => s.endRootObject
  | _ => s.fail Expected.None Actual.ObjectEnded

/-- `int getExpectedGeometryDepth(GeometryType)`. The `default:` branch is
`assert(false)` with no return value; the embedding answers 0 there (no caller
reaches it: both call sites pass one of the six listed types). -/
def getExpectedGeometryDepth : GeometryType → Int
  | .Point => 1
  | .LineString => 2
  | .Polygon => 3
  | .MultiPoint => 2
  | .MultiLineString => 3
  | .MultiPolygon => 4
  | _ => 0

/-- `bool startCoordinatesArray()`. -/
def startCoordinatesArray (s : GeoJSONReader ν) : Bool × GeoJSONReader ν :=
  let s := { s with geometryDepth := s.geometryDepth + 1 }
  match s.geometryType with
  | .None | .GeometryCollection => (true, s)
  | t =>
    if s.geometryDepth > getExpectedGeometryDepth t then
      s.fail Expected.FirstGeometryCoordinate Actual.Array
    else (true, s)

/-- `bool StartArray()`. -/
def StartArray (s : GeoJSONReader ν) : Bool × GeoJSONReader ν :=
  match top s.expect with
  | .Ignored => (true, { s with ignoredDepth := s.ignoredDepth + 1 })
  | .GeometryCoordinates => s.startCoordinatesArray
  | e => s.fail e Actual.Array

/-- `bool endCoordinatesArray()`. The `default:` branch of the switch is
`assert(false); return false;`: the handler rejects the event without writing
`error`. -/
def endCoordinatesArray (s : GeoJSONReader ν) : Bool × GeoJSONReader ν :=
  if s.deducedGeometryDepth ≤ s.geometryDepth then
    s.fail Expected.FirstGeometryCoordinate Actual.ArrayEnded
  else
    let s := { s with geometryDepth := s.geometryDepth - 1 }
    let diff := s.deducedGeometryDepth - s.geometryDepth
    if diff = 2 ∨ diff = 3 ∨ diff = 4 then
      let s := if diff = 2 then { s with polygon := s.polygon ++ [s.points], points := [] } else s
      if s.geometryDepth = 0 then
        (true, { s with expect := pop s.expect, coordinates := some s.polygon, polygon := [] })
      else (true, s)
    else (false, s)

/-- `bool EndArray(rapidjson::SizeType)`. -/
def EndArray (s : GeoJSONReader ν) : Bool × GeoJSONReader ν :=
  match top s.expect with
  | .Ignored => s.endIgnored
  | .GeometryCoordinates => s.endCoordinatesArray
  | .ExcessGeometryCoordinates =>
    let s := { s with expect := pop s.expect, geometryDepth := s.geometryDepth - 1 }
    if s.geometryDepth = 0 then
      (true, { s with expect := pop s.expect
                      coordinates := some (s.polygon ++ [s.points])
                      polygon := []
                      points := [] })
    else (true, s)
  | e => s.fail e Actual.ArrayEnded

/-- `GeometryType geometryTypeFromRootType(RootType)`. -/
def geometryTypeFromRootType : RootType → GeometryType
  | .Feature | .FeatureCollection | .None => GeometryType.None
  | .Point => GeometryType.Point
  | .LineString => GeometryType.LineString
  | .Polygon => GeometryType.Polygon
  | .MultiPoint => GeometryType.MultiPoint
  | .MultiLineString => GeometryType.MultiLineString
  | .MultiPolygon => GeometryType.MultiPolygon
  | .GeometryCollection => GeometryType.GeometryCollection

/-- `void parseRootCoordinates()`. -/
def parseRootCoordinates (s : GeoJSONReader ν) : GeoJSONReader ν :=
  match s.rootType with
  | .None =>
    { s with speculative := true, points := [], polygon := []
             expect := Expected.GeometryCoordinates :: s.expect }
  | .GeometryCollection | .Feature | .FeatureCollection =>
    { s with expect := Expected.Ignored :: s.expect }
  | t =>
    { s with geometryType := geometryTypeFromRootType t, points := [], polygon := []
             expect := Expected.GeometryCoordinates :: s.expect }

/-- `void parseGeometryCoordinates()`. -/
def parseGeometryCoordinates (s : GeoJSONReader ν) : GeoJSONReader ν :=
  match s.geometryType with
  | .None =>
    { s with speculative := true, points := [], polygon := []
             expect := Expected.GeometryCoordinates :: s.expect }
  | .GeometryCollection => { s with expect := Expected.Ignored :: s.expect }
  | _ =>
    { s with points := [], polygon := []
             expect := Expected.GeometryCoordinates :: s.expect }

/-- `void parseGeometry()`. -/
def parseGeometry (s : GeoJSONReader ν) : GeoJSONReader ν :=
  match s.rootType with
  | .None => { s with speculative := true, expect := Expected.Geometry :: s.expect }
  | .Feature => { s with expect := Expected.Geometry :: s.expect }
  | _ => { s with expect := Expected.Ignored :: s.expect }

/-- `bool ignored()`. -/
def ignored (s : GeoJSONReader ν) : Bool × GeoJSONReader ν :=
  if s.ignoredDepth = 0 then (true, { s with expect := pop s.expect }) else (true, s)

/-- `bool Key(const char*, SizeType, bool)` (the `fprintf` to stderr is left out). -/
def Key (s : GeoJSONReader ν) (key : String) : Bool × GeoJSONReader ν :=
  match top s.expect with
  | .Root =>
    if key = "type" then (true, { s with expect := Expected.Type_ :: s.expect })
    else if key = "geometry" then (true, s.parseGeometry)
    else if key = "coordinates" then (true, s.parseRootCoordinates)
    else (true, { s with expect := Expected.Ignored :: s.expect })
  | .Geometry =>
    if key = "type" then (true, { s with expect := Expected.GeometryType :: s.expect })
    else if key = "coordinates" then (true, s.parseGeometryCoordinates)
    else (true, { s with expect := Expected.Ignored :: s.expect })
  | .Ignored => (true, s)
  | e => s.fail e Actual.Key

/-- `Expected getExpectedGeometryDepth(int depth)` (the overload on `int`). The
source defines the result for the depths 1 to 4 only: its `default:` branch is
`assert(false)` with no return value, so with assertions compiled out the
function returns nothing there (depths of 5 and more do occur, see C31). The
`Expected.None` of the last line stands for that missing value; statements
about the expectation recorded by `setGeometryType` are made for the depths 1
to 4. -/
def getExpectedGeometryDepthInt (depth : Int) : Expected :=
  if depth = 1 then Expected.GeometryDepth1
  else if depth = 2 then Expected.GeometryDepth2
  else if depth = 3 then Expected.GeometryDepth3
  else if depth = 4 then Expected.GeometryDepth4
  else Expected.None

/-- `Actual getActualGeometryType(GeometryType)`. The `default:` branch is
`assert(false)` with no return value; the embedding answers `Actual.None`. -/
def getActualGeometryType : GeometryType → Actual
  | .Point => Actual.KeywordPoint
  | .LineString => Actual.KeywordLineString
  | .Polygon => Actual.KeywordPolygon
  | .MultiPoint => Actual.KeywordMultiPoint
  | .MultiLineString => Actual.KeywordMultiLineString
  | .MultiPolygon => Actual.KeywordMultiPolygon
  | .GeometryCollection => Actual.KeywordGeometryCollection
  | .None => Actual.None

/-- `bool setGeometryType(GeometryType)`. -/
def setGeometryType (s : GeoJSONReader ν) (type : GeometryType) : Bool × GeoJSONReader ν :=
  let expectedGeometryDepth := getExpectedGeometryDepth type
  if s.deducedGeometryDepth > 0 ∧ s.deducedGeometryDepth ≠ expectedGeometryDepth then
    s.fail (getExpectedGeometryDepthInt s.deducedGeometryDepth) (getActualGeometryType type)
  else
    (true, { s with geometryType := type, deducedGeometryDepth := expectedGeometryDepth })

/-- `bool setRootType(RootType)`. -/
def setRootType (s : GeoJSONReader ν) (type : RootType) : Bool × GeoJSONReader ν :=
  (true, { s with rootType := type })

/-- `setRootType(r) && setGeometryType(g)`. -/
def setRootAndGeometryType (s : GeoJSONReader ν) (r : RootType) (g : GeometryType) :
    Bool × GeoJSONReader ν :=
  let (ok, s) := s.setRootType r
  if ok then s.setGeometryType g else (false, s)

/-- `bool rootTypeString(const std::string&)`: the keyword is processed, then
`Type` is popped and `success` returned. -/
def rootTypeString (s : GeoJSONReader ν) (value : String) : Bool × GeoJSONReader ν :=
  let (success, s) :=
    if value = "Feature" then s.setRootType RootType.Feature
    else if value = "Point" then s.setRootAndGeometryType RootType.Point GeometryType.Point
    else if value = "LineString" then
      s.setRootAndGeometryType RootType.LineString GeometryType.LineString
    else if value = "Polygon" then s.setRootAndGeometryType RootType.Polygon GeometryType.Polygon
    else if value = "MultiPoint" then
      s.setRootAndGeometryType RootType.MultiPoint GeometryType.MultiPoint
    else if value = "MultiLineString" then
      s.setRootAndGeometryType RootType.MultiLineString GeometryType.MultiLineString
    else if value = "MultiPolygon" then
      s.setRootAndGeometryType RootType.MultiPolygon GeometryType.MultiPolygon
    else if value = "FeatureCollection" then
      let (success, s) := s.setRootType RootType.FeatureCollection
      (success, { s with error := (top s.expect, Actual.Keyword) })
    else (false, { s with error := (top s.expect, Actual.Keyword) })
  (success, { s with expect := pop s.expect })

/-- `bool geometryTypeString(const std::string&)`. -/
def geometryTypeString (s : GeoJSONReader ν) (value : String) : Bool × GeoJSONReader ν :=
  let (success, s) :=
    if value = "Point" then s.setGeometryType GeometryType.Point
    else if value = "LineString" then s.setGeometryType GeometryType.LineString
    else if value = "Polygon" then s.setGeometryType GeometryType.Polygon
    else if value = "MultiPoint" then s.setGeometryType GeometryType.MultiPoint
    else if value = "MultiLineString" then s.setGeometryType GeometryType.MultiLineString
    else if value = "MultiPolygon" then s.setGeometryType GeometryType.MultiPolygon
    else if value = "GeometryCollection" then
      (false, { s with geometryType := GeometryType.GeometryCollection
                       error := (top s.expect, Actual.Keyword) })
    else (false, { s with error := (top s.expect, Actual.Keyword) })
  (success, { s with expect := pop s.expect })

/-- `bool String(const char*, SizeType, bool)`. -/
def String_ (s : GeoJSONReader ν) (str : String) : Bool × GeoJSONReader ν :=
  match top s.expect with
  | .Ignored => s.ignored
  | .Type_ => s.rootTypeString str
  | .GeometryType => s.geometryTypeString str
  | .GeometryCoordinates =>
    (true, { s with expect := setTop Expected.Ignored s.expect
                    ignoredDepth := s.geometryDepth
                    geometryDepth := 0 })
  | e => s.fail e Actual.String_

/-- `bool handleNumber(double)`. -/
def handleNumber (s : GeoJSONReader ν) (number : ν) : Bool × GeoJSONReader ν :=
  match top s.expect with
  | .Ignored => if s.ignoredDepth = 0 then (true, { s with expect := pop s.expect }) else (true, s)
  | .GeometryCoordinates =>
    let s := if s.deducedGeometryDepth = 0 then
      { s with deducedGeometryDepth := s.geometryDepth } else s
    if s.geometryDepth < s.deducedGeometryDepth then
      s.fail (top s.expect) Actual.Number
    else
      (true, { s with x := number, expect := Expected.SecondGeometryCoordinate :: s.expect })
  | .FirstGeometryCoordinate =>
    (true, { s with x := number, expect := setTop Expected.SecondGeometryCoordinate s.expect })
  | .SecondGeometryCoordinate =>
    (true, { s with points := s.points ++ [(s.x, number)]
                    expect := setTop Expected.ExcessGeometryCoordinates s.expect })
  | .ExcessGeometryCoordinates => (true, s)
  | e => s.fail e Actual.Number

/-- `bool Null()`. -/
def Null (s : GeoJSONReader ν) : Bool × GeoJSONReader ν :=
  match top s.expect with
  | .Ignored => if s.ignoredDepth = 0 then (true, { s with expect := pop s.expect }) else (true, s)
  | e => s.fail e Actual.Null

/-- `bool Bool(bool)`. -/
def Bool_ (s : GeoJSONReader ν) : Bool × GeoJSONReader ν :=
  match top s.expect with
  | .Ignored => if s.ignoredDepth = 0 then (true, { s with expect := pop s.expect }) else (true, s)
  | e => s.fail e Actual.Boolean

/-- The handler call rapidjson makes for one event. -/
def handle (s : GeoJSONReader ν) : Event ν → Bool × GeoJSONReader ν
  | .startObject => s.StartObject
  | .endObject => s.EndObject
  | .startArray => s.StartArray
  | .endArray => s.EndArray
  | .key str => s.Key str
  | .string str => s.String_ str
  | .number n => s.handleNumber n
  | .null => s.Null
  | .bool _ => s.Bool_

/-- The events are handed to the handler one by one; the first handler call
that returns `false` stops the parse. Returns whether every event was accepted
and the handler as it then stands. -/
def feed (s : GeoJSONReader ν) : List (Event ν) → Bool × GeoJSONReader ν
  | [] => (true, s)
  | e :: es =>
    match s.handle e with
    | (true, s1) => feed s1 es
    | (false, s1) => (false, s1)

/-- Number of events the handler accepted before parsing stopped (the index of
the rejected event, or the length of the stream). -/
def accepted (s : GeoJSONReader ν) : List (Event ν) → Nat
  | [] => 0
  | e :: es =>
    match s.handle e with
    | (true, s1) => accepted s1 es + 1
    | (false, _) => 0

end GeoJSONReader

/-! ## The `GeoJSON` constructor -/

/-- `std::pair<size_t, size_t> offsetToRowAndCol(const std::string&, size_t)`:
the loop makes `offset` steps, from `json.begin()` to `json.begin() + offset`,
and reads one byte at each. The byte at index `json.size()` is the NUL that
terminates the string's buffer, which the loop reads when `offset` is
`json.size() + 1` (the offset of a syntax error at the end of the text, test
`PolygonNoClosingBrace`). Beyond that the source reads outside the buffer; the
embedding reads NUL there as well, and nothing is stated about such offsets. -/
def offsetToRowAndCol (json : List Char) (offset : Nat) : Nat × Nat :=
  (List.range offset).foldl
    (fun lc it => if json.getD it (Char.ofNat 0) = Char.ofNat 10 then (lc.1 + 1, 0)
      else (lc.1, lc.2 + 1)) (0, 0)

/-- `struct GeoJSON::Error`. -/
structure Error where
  message : String
  row : Nat
  column : Nat
  deriving DecidableEq, Repr

/-- The data members of `class GeoJSON`. -/
structure GeoJSON (ν : Type) where
  error : Option Error
  features : List (Feature ν)
  deriving DecidableEq, Repr

/-- `size()`. -/
def GeoJSON.size {ν : Type} (g : GeoJSON ν) : Nat := g.features.length

/-- `isValid()`. -/
def GeoJSON.isValid {ν : Type} (g : GeoJSON ν) : Bool := g.error.isNone

/-- Modelled from the spec: the external tokenizer (`rapidjson::Reader`), at its
interface. It turns the text into `events`; `syntaxError` is its own message
when the text is malformed (raised after `events` were delivered),
`terminationMessage` its message for a parse a handler stopped, and
`errorOffset i` the byte offset it reports when parsing stops at event `i`
(`i = events.length` for its own syntax error). -/
structure Tokenizer (ν : Type) where
  events : List (Event ν)
  syntaxError : Option String
  terminationMessage : String
  errorOffset : Nat → Nat

/-- The constructor `GeoJSON::GeoJSON(const std::string& json)`, the tokenizer's
reading of `json` being `tk`. -/
def GeoJSON.new {ν : Type} (x0 : ν) (json : List Char) (tk : Tokenizer ν) : GeoJSON ν :=
  let (handlersOk, handler) := (GeoJSONReader.init x0).feed tk.events
  let parseOk := handlersOk && tk.syntaxError.isNone
  let error : Option Error :=
    if parseOk then none
    else
      let rc := offsetToRowAndCol json (tk.errorOffset ((GeoJSONReader.init x0).accepted tk.events))
      if handler.error.1 = Expected.None then
        let code := if handlersOk then tk.syntaxError.getD "" else tk.terminationMessage
        some ⟨code, rc.1, rc.2⟩
      else
        some ⟨"Expected " ++ handler.error.1.describe ++ ", but got " ++
          handler.error.2.describe ++ " instead.", rc.1, rc.2⟩
  { error := error
    features := if error.isNone then handler.inserter else [] }

/-! ## JSON documents and their event streams -/

/-- A well-formed JSON value (what the text of a document denotes). -/
inductive JSON (ν : Type) where
  | null
  | bool (b : Bool)
  | num (n : ν)
  | str (s : String)
  | arr (elements : List (JSON ν))
  | obj (members : List (String × JSON ν))

mutual
/-- The events the tokenizer delivers for a value, in document order. -/
def JSON.events {ν : Type} : JSON ν → List (Event ν)
  | .null => [Event.null]
  | .bool b => [Event.bool b]
  | .num n => [Event.number n]
  | .str s => [Event.string s]
  | .arr elements => Event.startArray :: (JSON.elementEvents elements ++ [Event.endArray])
  | .obj members => Event.startObject :: (JSON.memberEvents members ++ [Event.endObject])
/-- The events of the elements of an array. -/
def JSON.elementEvents {ν : Type} : List (JSON ν) → List (Event ν)
  | [] => []
  | v :: vs => JSON.events v ++ JSON.elementEvents vs
/-- The events of the members of an object. -/
def JSON.memberEvents {ν : Type} : List (String × JSON ν) → List (Event ν)
  | [] => []
  | (k, v) :: ms => Event.key k :: (JSON.events v ++ JSON.memberEvents ms)
end

/-- The tokenizer's reading of the text of a well-formed document `doc`: its
events and no syntax error. -/
def Tokenizer.ofDocument {ν : Type} (doc : JSON ν) (terminationMessage : String)
    (errorOffset : Nat → Nat) : Tokenizer ν :=
  { events := doc.events
    syntaxError := none
    terminationMessage := terminationMessage
    errorOffset := errorOffset }

/-- Decoding the well-formed document `doc`: the constructor run on its text. The
text itself and the tokenizer's offsets only enter the row and column of an
error. -/
def decode {ν : Type} (x0 : ν) (doc : JSON ν) (json : List Char) (terminationMessage : String)
    (errorOffset : Nat → Nat) : GeoJSON ν :=
  GeoJSON.new x0 json (Tokenizer.ofDocument doc terminationMessage errorOffset)

/-- The coordinates value `[a, b]` of a point. -/
def JSON.point {ν : Type} (p : Point ν) : JSON ν := .arr [.num p.1, .num p.2]

/-- The coordinates value `[[x1, y1], ..., [xn, yn]]` of a sequence of points. -/
def JSON.points {ν : Type} (ps : Points ν) : JSON ν := .arr (ps.map JSON.point)

/-- The coordinates value of a list of rings (or lines). -/
def JSON.rings {ν : Type} (rs : Polygon ν) : JSON ν := .arr (rs.map JSON.points)

/-- The coordinates value of a list of polygons, each a list of rings. -/
def JSON.polygons {ν : Type} (gs : List (Polygon ν)) : JSON ν := .arr (gs.map JSON.rings)

/-! ## Auxiliary definitions for the statements and proofs -/

namespace GeoJSONReader

variable {ν : Type}

/-- The depth test of `startCoordinatesArray` lets an array at depth `d` pass. -/
def depthAdmitted (t : GeometryType) (d : Int) : Prop :=
  t = GeometryType.None ∨ t = GeometryType.GeometryCollection ∨ d ≤ getExpectedGeometryDepth t

instance (t : GeometryType) (d : Int) : Decidable (depthAdmitted t d) := by
  unfold depthAdmitted
  infer_instance

/-- The value of `x` after the points `ps` were read. -/
def lastX (x : ν) (ps : Points ν) : ν := ps.foldl (fun _ p => p.1) x

/-- The features a finished parse hands over: those emitted, when every event
was accepted. -/
def emitted (r : Bool × GeoJSONReader ν) : Option (List (Feature ν)) :=
  if r.1 then some r.2.inserter else none

/-- The reader of a Feature whose geometry object has declared the type `t`, on
the `coordinates` key of that geometry object. -/
def atFeatureGeometryCoordinates (x0 : ν) (t : GeometryType) : GeoJSONReader ν :=
  { init x0 with
    expect := [Expected.GeometryCoordinates, Expected.Geometry, Expected.Root]
    rootType := RootType.Feature
    geometryType := t
    deducedGeometryDepth := getExpectedGeometryDepth t }

/-- The reader of a bare geometry root object that has declared the type `r`, on
its `coordinates` key. -/
def atRootCoordinates (x0 : ν) (r : RootType) : GeoJSONReader ν :=
  { init x0 with
    expect := [Expected.GeometryCoordinates, Expected.Root]
    rootType := r
    geometryType := geometryTypeFromRootType r
    deducedGeometryDepth := getExpectedGeometryDepth (geometryTypeFromRootType r) }

end GeoJSONReader

/-- The six geometry types proper (`GeometryType` without `None` and
`GeometryCollection`). -/
def GeometryType.isGeometry : GeometryType → Bool
  | .None | .GeometryCollection => false
  | _ => true

/-- The keyword that `rootTypeString` and `geometryTypeString` read as the
geometry type `t`. -/
def GeometryType.keyword : GeometryType → String
  | .None => ""
  | .Point => "Point"
  | .LineString => "LineString"
  | .Polygon => "Polygon"
  | .MultiPoint => "MultiPoint"
  | .MultiLineString => "MultiLineString"
  | .MultiPolygon => "MultiPolygon"
  | .GeometryCollection => "GeometryCollection"

/-- Two decode results are the same up to the position of the error: the same
features and the same error message (or no error in both). Row and column
follow the text, which differs between two documents. -/
def GeoJSON.sameResult {ν : Type} (g h : GeoJSON ν) : Prop :=
  g.features = h.features ∧ g.error.map Error.message = h.error.map Error.message

instance {ν : Type} [DecidableEq ν] (g h : GeoJSON ν) : Decidable (GeoJSON.sameResult g h) := by
  unfold GeoJSON.sameResult
  infer_instance

/-- A coordinates value nested uniformly to depth 1..4 in which a point is read
before any array closes: `[a, b]`, `[[a, b], ...]`, `[[[a, b], ...], ...]` or
`[[[[a, b], ...], ...], ...]`. -/
inductive LeadingCoordinates (ν : Type) where
  | point (p : Point ν)
  | points (p : Point ν) (ps : Points ν)
  | rings (p : Point ν) (ps : Points ν) (rs : Polygon ν)
  | polygons (p : Point ν) (ps : Points ν) (rs : Polygon ν) (gs : List (Polygon ν))

/-- The JSON value. -/
def LeadingCoordinates.toJSON {ν : Type} : LeadingCoordinates ν → JSON ν
  | .point p => JSON.point p
  | .points p ps => JSON.points (p :: ps)
  | .rings p ps rs => JSON.rings ((p :: ps) :: rs)
  | .polygons p ps rs gs => JSON.polygons (((p :: ps) :: rs) :: gs)

/-- The nesting depth of the value. -/
def LeadingCoordinates.depth {ν : Type} : LeadingCoordinates ν → Int
  | .point _ => 1
  | .points _ _ => 2
  | .rings _ _ _ => 3
  | .polygons _ _ _ _ => 4

/-- The ring list the value stands for, polygons flattened. -/
def LeadingCoordinates.ringList {ν : Type} : LeadingCoordinates ν → Polygon ν
  | .point p => [[p]]
  | .points p ps => [p :: ps]
  | .rings p ps rs => (p :: ps) :: rs
  | .polygons p ps rs gs => ((p :: ps) :: rs) ++ gs.flatten

/-- The geometry `endRootObject` emits for a geometry type and stored `coordinates`. -/
def geometryOf {ν : Type} (t : GeometryType) (c : Polygon ν) : Geometry ν :=
  match t with
  | .Point | .MultiPoint => Geometry.Point (front c)
  | .LineString | .MultiLineString => Geometry.Line c
  | .Polygon | .MultiPolygon => Geometry.Polygon c
  | _ => Geometry.None

/-- The reader inside a root-level coordinates value of depth `d`, after the
closing bracket of its first point `p`; `r` is the root type read so far and
`spec` whether the value is parsed speculatively. -/
def GeoJSONReader.afterFirstPoint {ν : Type} (x0 : ν) (r : RootType) (spec : Bool) (d : Int)
    (p : Point ν) : GeoJSONReader ν :=
  { GeoJSONReader.init x0 with
    expect := [Expected.GeometryCoordinates, Expected.Root]
    rootType := r
    geometryType := GeoJSONReader.geometryTypeFromRootType r
    speculative := spec
    geometryDepth := d - 1
    deducedGeometryDepth := d
    x := p.1
    points := [p] }

/-- The reader after a root-level coordinates value of depth `d` that stands for
the rings `c` and whose last point read has first ordinate `x`. -/
def GeoJSONReader.afterCoordinates {ν : Type} (x0 : ν) (r : RootType) (spec : Bool) (d : Int)
    (x : ν) (c : Polygon ν) : GeoJSONReader ν :=
  { GeoJSONReader.init x0 with
    rootType := r
    geometryType := GeoJSONReader.geometryTypeFromRootType r
    speculative := spec
    deducedGeometryDepth := d
    x := x
    coordinates := some c }

/-- The first point of the value. -/
def LeadingCoordinates.first {ν : Type} : LeadingCoordinates ν → Point ν
  | .point p | .points p _ | .rings p _ _ | .polygons p _ _ _ => p

/-- The events of the value up to the closing bracket of its first point. -/
def LeadingCoordinates.firstPointEvents {ν : Type} (v : LeadingCoordinates ν) : List (Event ν) :=
  List.replicate v.depth.toNat Event.startArray ++
    [Event.number v.first.1, Event.number v.first.2, Event.endArray]

/-- The events of the value after the closing bracket of its first point. -/
def LeadingCoordinates.restEvents {ν : Type} : LeadingCoordinates ν → List (Event ν)
  | .point _ => []
  | .points _ ps => JSON.elementEvents (ps.map JSON.point) ++ [Event.endArray]
  | .rings _ ps rs =>
    JSON.elementEvents (ps.map JSON.point) ++ (Event.endArray ::
      (JSON.elementEvents (rs.map JSON.points) ++ [Event.endArray]))
  | .polygons _ ps rs gs =>
    JSON.elementEvents (ps.map JSON.point) ++ (Event.endArray ::
      (JSON.elementEvents (rs.map JSON.points) ++ (Event.endArray ::
        (JSON.elementEvents (gs.map JSON.rings) ++ [Event.endArray]))))

/-- The first ordinate of the last point of the value. -/
def LeadingCoordinates.finalX {ν : Type} : LeadingCoordinates ν → ν
  | .point p => p.1
  | .points p ps => GeoJSONReader.lastX p.1 ps
  | .rings p ps rs => GeoJSONReader.lastX (GeoJSONReader.lastX p.1 ps) rs.flatten
  | .polygons p ps rs gs =>
    GeoJSONReader.lastX (GeoJSONReader.lastX (GeoJSONReader.lastX p.1 ps) rs.flatten)
      gs.flatten.flatten

/-- The root type `rootTypeString` sets together with the geometry type `t`. -/
def GeometryType.toRootType : GeometryType → RootType
  | .None => RootType.None
  | .Point => RootType.Point
  | .LineString => RootType.LineString
  | .Polygon => RootType.Polygon
  | .MultiPoint => RootType.MultiPoint
  | .MultiLineString => RootType.MultiLineString
  | .MultiPolygon => RootType.MultiPolygon
  | .GeometryCollection => RootType.GeometryCollection

/-- What the scalar handlers and the closing handlers do to an `Ignored` frame. -/
def GeoJSONReader.popIfDone {ν : Type} (s : GeoJSONReader ν) : GeoJSONReader ν :=
  if s.ignoredDepth = 0 then { s with expect := pop s.expect } else s

/-- The reader is inside a coordinates value, `g` arrays deep, that was opened on
top of the stack `rest0`: reading coordinates, in the middle of a point, or
skipping the value after its demotion to `Ignored`. -/
def GeoJSONReader.InCoordinates {ν : Type} (rest0 : List Expected) (g : Int)
    (s : GeoJSONReader ν) : Prop :=
  (s.expect = Expected.GeometryCoordinates :: rest0 ∧ s.geometryDepth = g ∧ s.ignoredDepth = 0) ∨
  (s.expect = Expected.SecondGeometryCoordinate :: Expected.GeometryCoordinates :: rest0 ∧
    s.geometryDepth = g ∧ s.ignoredDepth = 0) ∨
  (s.expect = Expected.ExcessGeometryCoordinates :: Expected.GeometryCoordinates :: rest0 ∧
    s.geometryDepth = g ∧ s.ignoredDepth = 0) ∨
  (s.expect = Expected.Ignored :: rest0 ∧ s.ignoredDepth = g ∧ s.geometryDepth = 0)

/-- The reader is between two members of the object whose frame tops the stack
`rest0`: no value is being skipped and no coordinates array is open. -/
def GeoJSONReader.AtBoundary {ν : Type} (rest0 : List Expected) (s : GeoJSONReader ν) : Prop :=
  s.expect = rest0 ∧ s.ignoredDepth = 0 ∧ s.geometryDepth = 0

/-- The value is a JSON string. -/
def JSON.isStr {ν : Type} : JSON ν → Bool
  | .str _ => true
  | _ => false

/-- The value is a JSON array. -/
def JSON.isArr {ν : Type} : JSON ν → Bool
  | .arr _ => true
  | _ => false

/-- A member of a geometry object whose value has the JSON type GeoJSON gives
it: `type` holds a string and `coordinates` an array; any other member is free. -/
def wellTypedGeometryMember {ν : Type} (m : String × JSON ν) : Bool :=
  if m.1 = "type" then m.2.isStr
  else if m.1 = "coordinates" then m.2.isArr
  else true

/-- A member of the root object whose value has the JSON type GeoJSON gives it:
`type` holds a string, `coordinates` an array and `geometry` an object whose
members are well typed in turn; any other member is free. -/
def wellTypedRootMember {ν : Type} (m : String × JSON ν) : Bool :=
  if m.1 = "type" then m.2.isStr
  else if m.1 = "geometry" then
    match m.2 with
    | .obj members => members.all wellTypedGeometryMember
    | _ => false
  else if m.1 = "coordinates" then m.2.isArr
  else true

/-- The Point objects of the tests on missing and excess ordinals, with the
coordinates value `c`: a bare Point root object with `type` before or after
`coordinates`, and a Feature whose geometry object is that Point object, with
the Feature's `type` before or after `geometry`. Each is paired with the number
of events ahead of the coordinates value. -/
def pointObjectsWith {ν : Type} (c : JSON ν) : List (JSON ν × Nat) :=
  [ (.obj [("type", .str "Point"), ("coordinates", c)], 4),
    (.obj [("coordinates", c), ("type", .str "Point")], 2),
    (.obj [("type", .str "Feature"),
      ("geometry", .obj [("type", .str "Point"), ("coordinates", c)])], 8),
    (.obj [("type", .str "Feature"),
      ("geometry", .obj [("coordinates", c), ("type", .str "Point")])], 6),
    (.obj [("geometry", .obj [("type", .str "Point"), ("coordinates", c)]),
      ("type", .str "Feature")], 6),
    (.obj [("geometry", .obj [("coordinates", c), ("type", .str "Point")]),
      ("type", .str "Feature")], 4) ]

/-- What the events of a coordinates value never write: the root type, the
geometry type, the stored geometry and the output. -/
def GeoJSONReader.frame {ν : Type} (s : GeoJSONReader ν) :
    RootType × GeometryType × Option (List (Geometry ν)) × List (Feature ν) :=
  (s.rootType, s.geometryType, s.geometry, s.inserter)

/-- A well-typed member of the root object that is neither `type` nor
`geometry`: a `coordinates` member holding an array, or a member with any other
key. -/
def plainRootMember {ν : Type} (m : String × JSON ν) : Bool :=
  wellTypedRootMember m && (m.1 != "type" && m.1 != "geometry")

/-- A well-typed member of a geometry object that is not `type`: a `coordinates`
member holding an array, or a member with any other key. -/
def plainGeometryMember {ν : Type} (m : String × JSON ν) : Bool :=
  wellTypedGeometryMember m && m.1 != "type"

/-- The value is the JSON string `x`. -/
def JSON.isTheString {ν : Type} (x : String) : JSON ν → Bool
  | .str y => y == x
  | _ => false

/-- A member of the root object of a Feature other than its `geometry`: the
member `type: "Feature"`, or a plain member. -/
def featureRootMember {ν : Type} (m : String × JSON ν) : Bool :=
  plainRootMember m || (m.1 == "type" && m.2.isTheString "Feature")

/-- A well-typed member of the root object other than `type`. -/
def untypedRootMember {ν : Type} (m : String × JSON ν) : Bool :=
  wellTypedRootMember m && m.1 != "type"

/-- The shape of the expectation stack the handlers rely on: `Root` at the bottom
and nowhere else, `GeometryCoordinates` directly below every
`SecondGeometryCoordinate` and `ExcessGeometryCoordinates` frame, and no
`FirstGeometryCoordinate` frame (no handler pushes one). -/
def wellStacked : List Expected → Bool
  | [] => false
  | [e] => decide (e = Expected.Root)
  | e :: f :: rest =>
    decide (e ≠ Expected.Root ∧ e ≠ Expected.FirstGeometryCoordinate) &&
    (decide (e ≠ Expected.SecondGeometryCoordinate ∧ e ≠ Expected.ExcessGeometryCoordinates) ||
      decide (f = Expected.GeometryCoordinates)) &&
    wellStacked (f :: rest)

/-- The depth bookkeeping of the reader between two accepted events: a stored
geometry type, and a stored root type that is a geometry type, require exactly
the deduced depth; and an empty stored `coordinates` list was closed at the
deduced depth 3 or 4. -/
def GeoJSONReader.DepthsAgree {ν : Type} (s : GeoJSONReader ν) : Prop :=
  (s.geometryType.isGeometry = true →
    s.deducedGeometryDepth = GeoJSONReader.getExpectedGeometryDepth s.geometryType) ∧
  ((GeoJSONReader.geometryTypeFromRootType s.rootType).isGeometry = true →
    s.deducedGeometryDepth =
      GeoJSONReader.getExpectedGeometryDepth (GeoJSONReader.geometryTypeFromRootType s.rootType)) ∧
  (s.coordinates = some [] → s.deducedGeometryDepth = 3 ∨ s.deducedGeometryDepth = 4)

/-- The description `e` names the geometry type `t`: the keyword of `t`, in
single quotes, occurs in the text of `e`. -/
def Expected.names (e : Expected) (t : Mapbox.GeometryType) : Prop :=
  ("'" ++ t.keyword ++ "'").toList <:+: e.describe.toList

instance (e : Expected) (t : Mapbox.GeometryType) : Decidable (e.names t) := by
  unfold Expected.names
  infer_instance

/-! ## The coordinate depth resolver (`src/src/geojson2.cpp`) -/

/-- The source's `enum class ParseError`. -/
inductive ParseError where
  | None
  | LogicError
  | CoordinatesNestedTooDeep
  | CoordinateArrayExpected
  | CoordinateExpected
  deriving DecidableEq, Repr

/-- The data members of `struct CoordinatesReader`. The three counters are
`uint8_t`: natural numbers below 256, every increment and decrement taken
modulo 256. `Points` and `Lines` of `geojson2.cpp` are the types `Points` and
`Polygon` above. -/
structure CoordinatesReader (ν : Type) where
  geometryDepth : Nat
  deducedGeometryDepth : Nat
  coordinateIndex : Nat
  x : ν
  points : Points ν
  lines : Polygon ν
  deriving DecidableEq, Repr

/-- A default-constructed `CoordinatesReader`. The member `x` has no initialiser
in the source; `x0` stands for whatever it holds. -/
def CoordinatesReader.fresh {ν : Type} (x0 : ν) : CoordinatesReader ν :=
  { geometryDepth := 0
    deducedGeometryDepth := 0
    coordinateIndex := 0
    x := x0
    points := []
    lines := [] }

/-- A call of one of the six event handlers of `CoordinatesReader`. -/
inductive CoordinatesCall (ν : Type) where
  | startArray
  | endArray
  | number (n : ν)
  | startObject
  | endObject
  | string (str : String)
  deriving DecidableEq, Repr

namespace CoordinatesReader

variable {ν : Type}

/-- `void initialize(uint8_t expectedDepth)` (spelt `initialise` here, the
source's spelling being a reserved word). -/
def initialise (r : CoordinatesReader ν) (expectedDepth : Nat) : CoordinatesReader ν :=
  { r with points := [], lines := [], deducedGeometryDepth := expectedDepth }

/-- `ParseError startArray()`. -/
def startArray (r : CoordinatesReader ν) : ParseError × CoordinatesReader ν :=
  let r := { r with geometryDepth := (r.geometryDepth + 1) % 256 }
  if (r.deducedGeometryDepth > 0 ∧ r.geometryDepth > r.deducedGeometryDepth) ∨
      r.geometryDepth > 4 then
    (ParseError.CoordinatesNestedTooDeep, r)
  else (ParseError.None, r)

/-- `ParseError endArray()`. The two operands of `deducedGeometryDepth -
geometryDepth` are promoted to `int`, so the difference can be negative. The
`default:` branch is `assert(false); return ParseError::LogicError;`, and
`assert(!lines.size())` in `case 2` comes right after an element was appended to
`lines`; the embedding is the build without assertions, where the first returns
`LogicError` and the second does nothing. -/
def endArray (r : CoordinatesReader ν) : ParseError × CoordinatesReader ν :=
  if r.coordinateIndex < 2 ∧ r.deducedGeometryDepth > 0 ∧
      r.geometryDepth = r.deducedGeometryDepth then
    (ParseError.CoordinateExpected, r)
  else
    let r := { r with geometryDepth := (r.geometryDepth + 255) % 256, coordinateIndex := 0 }
    let diff : Int := (r.deducedGeometryDepth : Int) - (r.geometryDepth : Int)
    if diff = 2 then (ParseError.None, { r with lines := r.lines ++ [r.points], points := [] })
    else if diff = 3 ∨ diff = 4 then (ParseError.None, r)
    else (ParseError.LogicError, r)

/-- `ParseError number(double n)`. -/
def number (r : CoordinatesReader ν) (n : ν) : ParseError × CoordinatesReader ν :=
  if r.geometryDepth = 0 ∨
      (r.deducedGeometryDepth > 0 ∧ r.geometryDepth ≠ r.deducedGeometryDepth) then
    (ParseError.CoordinateArrayExpected, r)
  else
    let r := if r.deducedGeometryDepth = 0 then
      { r with deducedGeometryDepth := r.geometryDepth } else r
    let r := if r.coordinateIndex = 0 then { r with x := n }
      else if r.coordinateIndex = 1 then { r with points := r.points ++ [(r.x, n)] }
      else r
    (ParseError.None, { r with coordinateIndex := (r.coordinateIndex + 1) % 256 })

/-- `ParseError startObject()`. -/
def startObject (r : CoordinatesReader ν) : ParseError × CoordinatesReader ν :=
  (ParseError.CoordinateExpected, r)

/-- `ParseError endObject()`. -/
def endObject (r : CoordinatesReader ν) : ParseError × CoordinatesReader ν :=
  (ParseError.CoordinateExpected, r)

/-- `ParseError string(const char*, size_t)`. -/
def string (r : CoordinatesReader ν) : ParseError × CoordinatesReader ν :=
  (ParseError.CoordinateExpected, r)

/-- One call of a handler. -/
def call (r : CoordinatesReader ν) : CoordinatesCall ν → ParseError × CoordinatesReader ν
  | .startArray => r.startArray
  | .endArray => r.endArray
  | .number n => r.number n
  | .startObject => r.startObject
  | .endObject => r.endObject
  | .string _ => r.string

/-- The handlers called one after the other: what each call returned, in order,
and the reader as it stands after the last. -/
def calls (r : CoordinatesReader ν) : List (CoordinatesCall ν) → List ParseError × CoordinatesReader ν
  | [] => ([], r)
  | c :: cs => ((r.call c).1 :: ((r.call c).2.calls cs).1, ((r.call c).2.calls cs).2)

end CoordinatesReader

/-! ## Projected geometry (`include/mapbox/geojsonvt/types.hpp`) -/

/-- `struct vt_point`: a projected point with its simplification tolerance `z`.
The claims about the two loops below concern which elements are read, not
rounding, so the `double`s are the elements of an ordered field `ν`. -/
structure vt_point (ν : Type) where
  x : ν
  y : ν
  z : ν
  deriving DecidableEq, Repr

/-- `struct vt_line_string : std::vector<vt_point>` with its member `dist`. -/
structure vt_line_string (ν : Type) where
  elements : List (vt_point ν)
  dist : ν
  deriving DecidableEq, Repr

/-- `struct vt_linear_ring : std::vector<vt_point>` with its member `area`. -/
structure vt_linear_ring (ν : Type) where
  elements : List (vt_point ν)
  area : ν
  deriving DecidableEq, Repr

/-- The loop bound `size() - 1` of both loops: `size_t` arithmetic, here of 64
bits. -/
def loopBound (size : Nat) : Nat := (size + 2 ^ 64 - 1) % 2 ^ 64

/-- The loop `for (size_t i = ...; i < bound; ++i)` of `calculate_dist` with
`remaining = bound - i` iterations to go: the value of `dist` and the index
pairs read so far, in order. `(*this)[i]` at or beyond `size()` is undefined in
the source; the loop answers `none` there. -/
def vt_line_string.loop {ν : Type} [LinearOrderedField ν] (v : List (vt_point ν)) :
    Nat → Nat → ν × List (Nat × Nat) → Option (ν × List (Nat × Nat))
  | 0, _, st => some st
  | remaining + 1, i, st =>
    match v[i]?, v[i + 1]? with
    | some a, some b =>
      vt_line_string.loop v remaining (i + 1)
        (st.1 + (|b.x - a.x| + |b.y - a.y|), st.2 ++ [(i, i + 1)])
    | _, _ => none

/-- `void vt_line_string::calculate_dist()`: the line with its new `dist`,
together with the index pairs the loop read. -/
def vt_line_string.calculate_dist {ν : Type} [LinearOrderedField ν] (l : vt_line_string ν) :
    Option (vt_line_string ν × List (Nat × Nat)) :=
  (vt_line_string.loop l.elements (loopBound l.elements.length) 0 (0, [])).map
    fun st => ({ l with dist := st.1 }, st.2)

/-- The loop of `calculate_area`, as `vt_line_string.loop`. -/
def vt_linear_ring.loop {ν : Type} [LinearOrderedField ν] (v : List (vt_point ν)) :
    Nat → Nat → ν × List (Nat × Nat) → Option (ν × List (Nat × Nat))
  | 0, _, st => some st
  | remaining + 1, i, st =>
    match v[i]?, v[i + 1]? with
    | some a, some b =>
      vt_linear_ring.loop v remaining (i + 1)
        (st.1 + (a.x * b.y - b.x * a.y), st.2 ++ [(i, i + 1)])
    | _, _ => none

/-- `void vt_linear_ring::calculate_area()`: the ring with its new `area`,
together with the index pairs the loop read. -/
def vt_linear_ring.calculate_area {ν : Type} [LinearOrderedField ν] (l : vt_linear_ring ν) :
    Option (vt_linear_ring ν × List (Nat × Nat)) :=
  (vt_linear_ring.loop l.elements (loopBound l.elements.length) 0 (0, [])).map
    fun st => ({ l with area := |st.1 / 2| }, st.2)

/-! ## The order of the events -/

/-- Modelled from the spec: where the external tokenizer (`rapidjson::Reader`)
stands in the JSON grammar between two events. `root`: before the root value;
`done`: after it; `object`: inside an object, before a key or the closing
brace; `value`: inside an object, after a key and before its value; `array`:
inside an array, before an element or the closing bracket. -/
inductive Frame where
  | root
  | done
  | object
  | value
  | array
  deriving DecidableEq, Repr

/-- Modelled from the spec: the innermost frame after a value was read in full
(no value can stand after the root value, or where a key is due). -/
def completed : List Frame → Option (List Frame)
  | .root :: r => some (.done :: r)
  | .value :: r => some (.object :: r)
  | .array :: r => some (.array :: r)
  | _ => none

/-- Modelled from the spec: the frames (innermost first) after the tokenizer
delivered the event `e`, or `none` when the JSON grammar admits no such event
at this place (the tokenizer then stops with a syntax error instead of
delivering it). -/
def grammarStep {ν : Type} (ctx : List Frame) : Event ν → Option (List Frame)
  | .startObject => (completed ctx).map (fun _ => Frame.object :: ctx)
  | .startArray => (completed ctx).map (fun _ => Frame.array :: ctx)
  | .endObject =>
    match ctx with
    | .object :: r => completed r
    | _ => none
  | .endArray =>
    match ctx with
    | .array :: r => completed r
    | _ => none
  | .key _ =>
    match ctx with
    | .object :: r => some (.value :: r)
    | _ => none
  | _ => completed ctx

/-- Modelled from the spec: the frames after a sequence of events, `none` when
the tokenizer delivers no such sequence. -/
def grammarRun {ν : Type} (ctx : List Frame) : List (Event ν) → Option (List Frame)
  | [] => some ctx
  | e :: es =>
    match grammarStep ctx e with
    | some ctx1 => grammarRun ctx1 es
    | none => none

/-- The number of arrays open around the place of the tokenizer, when these
arrays stand directly in the value of an object member. -/
def coordinateDepth : List Frame → Option Int
  | .array :: r => (coordinateDepth r).map (fun d => d + 1)
  | .value :: _ => some 0
  | _ => none

/-- The expectation expectStacks that occur while events are accepted: `Root`, or
`Geometry` on `Root`, below at most one frame for the member that is being read
(`Type`, `GeometryType`, `Ignored`, `GeometryCoordinates`), the last of these
possibly below `SecondGeometryCoordinate` or `ExcessGeometryCoordinates`. -/
def expectStacks : List (List Expected) :=
  [[.Root], [.Type_, .Root], [.Ignored, .Root], [.GeometryCoordinates, .Root],
    [.SecondGeometryCoordinate, .GeometryCoordinates, .Root],
    [.ExcessGeometryCoordinates, .GeometryCoordinates, .Root],
    [.Geometry, .Root], [.GeometryType, .Geometry, .Root], [.Ignored, .Geometry, .Root],
    [.GeometryCoordinates, .Geometry, .Root],
    [.SecondGeometryCoordinate, .GeometryCoordinates, .Geometry, .Root],
    [.ExcessGeometryCoordinates, .GeometryCoordinates, .Geometry, .Root]]

/-- The reader `s` and the place `ctx` of the tokenizer fit together: the stack
has one of its shapes, the deduced depth is not negative, and `geometryDepth`
is the number of arrays open in the coordinates value that is being read (0
outside of one). After a number that stands alone as the coordinates value, the
tokenizer is back in the object. -/
def GeoJSONReader.Tracks {ν : Type} (ctx : List Frame) (s : GeoJSONReader ν) : Prop :=
  s.expect ∈ expectStacks ∧ 0 ≤ s.deducedGeometryDepth ∧
  match top s.expect with
  | .GeometryCoordinates => coordinateDepth ctx = some s.geometryDepth
  | .SecondGeometryCoordinate =>
    (0 < s.geometryDepth ∧ coordinateDepth ctx = some s.geometryDepth) ∨
      (s.geometryDepth = 0 ∧ ctx.head? = some Frame.object)
  | .ExcessGeometryCoordinates => 0 < s.geometryDepth ∧ coordinateDepth ctx = some s.geometryDepth
  | _ => s.geometryDepth = 0

/-! # Theorems -/

/-! ## Feeding coordinate arrays -/

namespace GeoJSONReader

variable {ν : Type}

theorem feed_append (s : GeoJSONReader ν) (es fs : List (Event ν)) :
    s.feed (es ++ fs) = if (s.feed es).1 then (s.feed es).2.feed fs else s.feed es := by
  induction es generalizing s with
  | nil => simp [feed]
  | cons e es ih =>
    simp only [List.cons_append, feed]
    rcases h : s.handle e with ⟨ok, s1⟩
    cases ok
    · simp
    · simpa using ih s1

theorem feed_cons (s : GeoJSONReader ν) (e : Event ν) (es : List (Event ν)) :
    s.feed (e :: es) = if (s.handle e).1 then (s.handle e).2.feed es else s.handle e := by
  rw [feed]
  rcases s.handle e with ⟨ok, s1⟩
  cases ok <;> simp

theorem feed_append_of_ok (s s1 : GeoJSONReader ν) (es fs : List (Event ν))
    (h : s.feed es = (true, s1)) : s.feed (es ++ fs) = s1.feed fs := by
  rw [feed_append, h]; simp

theorem startCoordinatesArray_ok (s : GeoJSONReader ν)
    (h : depthAdmitted s.geometryType (s.geometryDepth + 1)) :
    s.startCoordinatesArray = (true, { s with geometryDepth := s.geometryDepth + 1 }) := by
  unfold depthAdmitted at h
  unfold startCoordinatesArray
  cases ht : s.geometryType <;> simp_all [getExpectedGeometryDepth]

/-- One point `[a, b]` below the top level of a coordinates value whose depth is
known: the point is appended to `points`. -/
theorem feed_point (s : GeoJSONReader ν) (rest : List Expected) (p : Point ν)
    (hexp : s.expect = Expected.GeometryCoordinates :: rest)
    (hadm : depthAdmitted s.geometryType (s.geometryDepth + 1))
    (hded : s.deducedGeometryDepth = s.geometryDepth + 1)
    (hne : s.geometryDepth ≠ 0) :
    s.feed (JSON.point p).events = (true, { s with x := p.1, points := s.points ++ [p] }) := by
  simp only [JSON.point, JSON.events, JSON.elementEvents, List.append_nil, List.cons_append,
    List.nil_append, feed, handle, StartArray, hexp, top, startCoordinatesArray_ok s hadm]
  simp [handleNumber, hexp, top, hded, EndArray, setTop, pop, hne]

theorem depthAdmitted_mono {t : GeometryType} {d e : Int} (h : depthAdmitted t d) (hle : e ≤ d) :
    depthAdmitted t e := by
  unfold depthAdmitted at *
  rcases h with h | h | h
  · exact Or.inl h
  · exact Or.inr (Or.inl h)
  · exact Or.inr (Or.inr (by omega))

/-- The points `[x1, y1], ..., [xn, yn]` below the top level, at the known depth. -/
theorem feed_pointElements (ps : Points ν) (s : GeoJSONReader ν) (rest : List Expected)
    (hexp : s.expect = Expected.GeometryCoordinates :: rest)
    (hadm : depthAdmitted s.geometryType (s.geometryDepth + 1))
    (hded : s.deducedGeometryDepth = s.geometryDepth + 1)
    (hne : s.geometryDepth ≠ 0) :
    s.feed (JSON.elementEvents (ps.map JSON.point)) =
      (true, { s with x := lastX s.x ps, points := s.points ++ ps }) := by
  induction ps generalizing s with
  | nil => simp [JSON.elementEvents, feed, lastX]
  | cons p ps ih =>
    simp only [List.map_cons, JSON.elementEvents]
    rw [feed_append, feed_point s rest p hexp hadm hded hne]
    simp only [if_true]
    rw [ih]
    · simp [lastX]
    · exact hexp
    · exact hadm
    · exact hded
    · exact hne

/-- A ring `[[x1, y1], ..., [xn, yn]]` that is not the whole coordinates value: on
its closing bracket the points read become one new ring of `polygon`. -/
theorem feed_ring (s : GeoJSONReader ν) (rest : List Expected) (ps : Points ν)
    (hexp : s.expect = Expected.GeometryCoordinates :: rest)
    (hadm : depthAdmitted s.geometryType (s.geometryDepth + 2))
    (hded : s.deducedGeometryDepth = s.geometryDepth + 2)
    (hne : s.geometryDepth ≠ 0) (hne1 : s.geometryDepth + 1 ≠ 0) :
    s.feed (JSON.points ps).events =
      (true, { s with x := lastX s.x ps, polygon := s.polygon ++ [s.points ++ ps], points := [] }) := by
  have h1 : depthAdmitted s.geometryType (s.geometryDepth + 1) :=
    depthAdmitted_mono hadm (by omega)
  simp only [JSON.points, JSON.events, feed, handle, StartArray, hexp, top,
    startCoordinatesArray_ok s h1]
  rw [feed_append, feed_pointElements ps _ rest]
  · simp [feed, handle, EndArray, top, endCoordinatesArray, hded, hne]
  · rfl
  · simpa [add_assoc] using hadm
  · simp [hded, add_assoc]
  · simpa using hne1

/-- The coordinates value `[[x1, y1], ..., [xn, yn]]` of a LineString or
MultiPoint: on its closing bracket the one ring is stored in `coordinates`. -/
theorem feed_ring_outer (s : GeoJSONReader ν) (rest : List Expected) (ps : Points ν)
    (hexp : s.expect = Expected.GeometryCoordinates :: rest)
    (hadm : depthAdmitted s.geometryType 2)
    (hded : s.deducedGeometryDepth = 2)
    (h0 : s.geometryDepth = 0) :
    s.feed (JSON.points ps).events =
      (true, { s with x := lastX s.x ps, expect := rest
                      coordinates := some (s.polygon ++ [s.points ++ ps])
                      polygon := [], points := [] }) := by
  have h1 : depthAdmitted s.geometryType (s.geometryDepth + 1) :=
    depthAdmitted_mono hadm (by omega)
  simp only [JSON.points, JSON.events, feed, handle, StartArray, hexp, top,
    startCoordinatesArray_ok s h1]
  rw [feed_append, feed_pointElements ps _ rest]
  · simp [feed, handle, EndArray, top, endCoordinatesArray, hded, h0, pop]
  · rfl
  · simpa [h0] using hadm
  · simp [hded, h0]
  · simp [h0]

theorem lastX_append (x : ν) (ps qs : Points ν) : lastX x (ps ++ qs) = lastX (lastX x ps) qs := by
  simp [lastX]

/-- The rings of a Polygon, MultiLineString or MultiPolygon, one after the other:
each becomes one ring of `polygon`, in order. -/
theorem feed_ringElements (rs : Polygon ν) (s : GeoJSONReader ν) (rest : List Expected)
    (hexp : s.expect = Expected.GeometryCoordinates :: rest)
    (hadm : depthAdmitted s.geometryType (s.geometryDepth + 2))
    (hded : s.deducedGeometryDepth = s.geometryDepth + 2)
    (hne : s.geometryDepth ≠ 0) (hne1 : s.geometryDepth + 1 ≠ 0) (hpts : s.points = []) :
    s.feed (JSON.elementEvents (rs.map JSON.points)) =
      (true, { s with x := lastX s.x rs.flatten, polygon := s.polygon ++ rs, points := [] }) := by
  induction rs generalizing s with
  | nil =>
    cases s
    simp_all [JSON.elementEvents, feed, lastX]
  | cons r rs ih =>
    simp only [List.map_cons, JSON.elementEvents]
    rw [feed_append, feed_ring s rest r hexp hadm hded hne hne1]
    simp only [if_true]
    rw [ih]
    · simp [lastX_append, hpts]
    · exact hexp
    · exact hadm
    · exact hded
    · exact hne
    · exact hne1
    · rfl

/-- The coordinates value of a Polygon or MultiLineString: its rings are stored
in `coordinates` on the outer closing bracket. -/
theorem feed_rings_outer (s : GeoJSONReader ν) (rest : List Expected) (rs : Polygon ν)
    (hexp : s.expect = Expected.GeometryCoordinates :: rest)
    (hadm : depthAdmitted s.geometryType 3)
    (hded : s.deducedGeometryDepth = 3)
    (h0 : s.geometryDepth = 0) (hpts : s.points = []) :
    s.feed (JSON.rings rs).events =
      (true, { s with x := lastX s.x rs.flatten, expect := rest
                      coordinates := some (s.polygon ++ rs)
                      polygon := [], points := [] }) := by
  have h1 : depthAdmitted s.geometryType (s.geometryDepth + 1) :=
    depthAdmitted_mono hadm (by omega)
  simp only [JSON.rings, JSON.events, feed, handle, StartArray, hexp, top,
    startCoordinatesArray_ok s h1]
  rw [feed_append, feed_ringElements rs _ rest]
  · simp [feed, handle, EndArray, top, endCoordinatesArray, hded, h0, pop]
  · rfl
  · simpa [h0] using hadm
  · simp [hded, h0]
  · simp [h0]
  · simp [h0]
  · exact hpts

/-- One polygon of a MultiPolygon: its rings are appended to `polygon`, and its
closing bracket changes nothing. -/
theorem feed_rings (s : GeoJSONReader ν) (rest : List Expected) (rs : Polygon ν)
    (hexp : s.expect = Expected.GeometryCoordinates :: rest)
    (hadm : depthAdmitted s.geometryType (s.geometryDepth + 3))
    (hded : s.deducedGeometryDepth = s.geometryDepth + 3)
    (hne : s.geometryDepth ≠ 0) (hne1 : s.geometryDepth + 1 ≠ 0)
    (hne2 : s.geometryDepth + 2 ≠ 0) (hpts : s.points = []) :
    s.feed (JSON.rings rs).events =
      (true, { s with x := lastX s.x rs.flatten, polygon := s.polygon ++ rs, points := [] }) := by
  have h1 : depthAdmitted s.geometryType (s.geometryDepth + 1) :=
    depthAdmitted_mono hadm (by omega)
  simp only [JSON.rings, JSON.events, feed, handle, StartArray, hexp, top,
    startCoordinatesArray_ok s h1]
  rw [feed_append, feed_ringElements rs _ rest]
  · simp [feed, handle, EndArray, top, endCoordinatesArray, hded, hne]
  · rfl
  · simpa [add_assoc] using hadm
  · simp [hded, add_assoc]
  · simpa using hne1
  · simpa [add_assoc] using hne2
  · exact hpts

/-- The polygons of a MultiPolygon, one after the other: all their rings end up
in the one flat list `polygon`. -/
theorem feed_polygonElements (gs : List (Polygon ν)) (s : GeoJSONReader ν) (rest : List Expected)
    (hexp : s.expect = Expected.GeometryCoordinates :: rest)
    (hadm : depthAdmitted s.geometryType (s.geometryDepth + 3))
    (hded : s.deducedGeometryDepth = s.geometryDepth + 3)
    (hne : s.geometryDepth ≠ 0) (hne1 : s.geometryDepth + 1 ≠ 0)
    (hne2 : s.geometryDepth + 2 ≠ 0) (hpts : s.points = []) :
    s.feed (JSON.elementEvents (gs.map JSON.rings)) =
      (true, { s with x := lastX s.x gs.flatten.flatten, polygon := s.polygon ++ gs.flatten, points := [] }) := by
  induction gs generalizing s with
  | nil =>
    cases s
    simp_all [JSON.elementEvents, feed, lastX]
  | cons g gs ih =>
    simp only [List.map_cons, JSON.elementEvents]
    rw [feed_append, feed_rings s rest g hexp hadm hded hne hne1 hne2 hpts]
    simp only [if_true]
    rw [ih]
    · simp [lastX_append]
    · exact hexp
    · exact hadm
    · exact hded
    · exact hne
    · exact hne1
    · exact hne2
    · rfl

/-- The coordinates value of a MultiPolygon: the rings of all its polygons are
stored, as one flat list, in `coordinates`. -/
theorem feed_polygons_outer (s : GeoJSONReader ν) (rest : List Expected) (gs : List (Polygon ν))
    (hexp : s.expect = Expected.GeometryCoordinates :: rest)
    (hadm : depthAdmitted s.geometryType 4)
    (hded : s.deducedGeometryDepth = 4)
    (h0 : s.geometryDepth = 0) (hpts : s.points = []) :
    s.feed (JSON.polygons gs).events =
      (true, { s with x := lastX s.x gs.flatten.flatten, expect := rest
                      coordinates := some (s.polygon ++ gs.flatten)
                      polygon := [], points := [] }) := by
  have h1 : depthAdmitted s.geometryType (s.geometryDepth + 1) :=
    depthAdmitted_mono hadm (by omega)
  simp only [JSON.polygons, JSON.events, feed, handle, StartArray, hexp, top,
    startCoordinatesArray_ok s h1]
  rw [feed_append, feed_polygonElements gs _ rest]
  · simp [feed, handle, EndArray, top, endCoordinatesArray, hded, h0, pop]
  · rfl
  · simpa [h0] using hadm
  · simp [hded, h0]
  · simp [h0]
  · simp [h0]
  · simp [h0]
  · exact hpts

end GeoJSONReader

open GeoJSONReader

/-! ## Decoding well-formed documents -/

theorem decode_of_emitted {ν : Type} (x0 : ν) (doc : JSON ν) (json : List Char) (msg : String)
    (off : Nat → Nat) (fs : List (Feature ν))
    (h : emitted ((init x0).feed doc.events) = some fs) :
    decode x0 doc json msg off = ⟨none, fs⟩ := by
  unfold emitted at h
  rcases hf : (init x0).feed doc.events with ⟨ok, s⟩
  rw [hf] at h
  cases ok
  · simp at h
  · simp at h
    simp [decode, GeoJSON.new, Tokenizer.ofDocument, hf, h]

/-- C1: for all numbers `a` and `b`, the root object with members `type: "Point"`
and `coordinates: [a, b]` decodes without error to exactly one Feature, of
variant Point, whose points list is `[(a, b)]` - with `type` before
`coordinates` and with `coordinates` before `type`. -/
theorem C1_point_decodes_in_both_key_orders {ν : Type} (x0 a b : ν) (json : List Char)
    (msg : String) (off : Nat → Nat) :
    decode x0 (.obj [("type", .str "Point"), ("coordinates", .point (a, b))]) json msg off
        = ⟨none, [⟨Geometry.Point [(a, b)]⟩]⟩ ∧
    decode x0 (.obj [("coordinates", .point (a, b)), ("type", .str "Point")]) json msg off
        = ⟨none, [⟨Geometry.Point [(a, b)]⟩]⟩ :=
  ⟨rfl, rfl⟩

/-- C2: for every list of rings `R`, the root object
`{type: "Feature", geometry: {type: "Polygon", coordinates: R}}` decodes without
error to exactly one Feature, of variant Polygon, whose rings are exactly `R`
(same ring order, same point order). -/
theorem C2_feature_polygon_decodes {ν : Type} (x0 : ν) (R : Polygon ν) (json : List Char)
    (msg : String) (off : Nat → Nat) :
    decode x0 (.obj [("type", .str "Feature"),
        ("geometry", .obj [("type", .str "Polygon"), ("coordinates", .rings R)])]) json msg off
      = ⟨none, [⟨Geometry.Polygon R⟩]⟩ := by
  apply decode_of_emitted
  have hev : (JSON.obj [("type", .str "Feature"),
        ("geometry", .obj [("type", .str "Polygon"), ("coordinates", .rings R)])]).events =
      [Event.startObject, .key "type", .string "Feature", .key "geometry", .startObject,
        .key "type", .string "Polygon", .key "coordinates"] ++
      ((JSON.rings R).events ++ [Event.endObject, Event.endObject]) := by
    simp [JSON.events, JSON.memberEvents]
  have hpre : (init x0).feed [Event.startObject, .key "type", .string "Feature", .key "geometry",
      .startObject, .key "type", .string "Polygon", .key "coordinates"] =
      (true, atFeatureGeometryCoordinates x0 GeometryType.Polygon) := rfl
  rw [hev, feed_append, hpre]
  simp only [if_true]
  rw [feed_append, feed_rings_outer _ [Expected.Geometry, Expected.Root] R rfl
    (by simp [depthAdmitted, atFeatureGeometryCoordinates, getExpectedGeometryDepth]) rfl rfl rfl]
  simp [feed, handle, EndObject, top, endGeometryObject, pop, endRootObject, emitted,
    atFeatureGeometryCoordinates, init]

/-- C3: for all numbers `a` and `b`, a Feature whose geometry object is a Point
with coordinates `[a, b]` decodes without error to exactly one Feature of
variant Point with points `[(a, b)]`, in each of the four key orders: root
`type` before or after `geometry`, geometry `type` before or after its
`coordinates`. -/
theorem C3_point_feature_decodes_in_four_key_orders {ν : Type} (x0 a b : ν) (json : List Char)
    (msg : String) (off : Nat → Nat) :
    decode x0 (.obj [("type", .str "Feature"),
        ("geometry", .obj [("type", .str "Point"), ("coordinates", .point (a, b))])]) json msg off
      = ⟨none, [⟨Geometry.Point [(a, b)]⟩]⟩ ∧
    decode x0 (.obj [("type", .str "Feature"),
        ("geometry", .obj [("coordinates", .point (a, b)), ("type", .str "Point")])]) json msg off
      = ⟨none, [⟨Geometry.Point [(a, b)]⟩]⟩ ∧
    decode x0 (.obj [("geometry", .obj [("type", .str "Point"), ("coordinates", .point (a, b))]),
        ("type", .str "Feature")]) json msg off
      = ⟨none, [⟨Geometry.Point [(a, b)]⟩]⟩ ∧
    decode x0 (.obj [("geometry", .obj [("coordinates", .point (a, b)), ("type", .str "Point")]),
        ("type", .str "Feature")]) json msg off
      = ⟨none, [⟨Geometry.Point [(a, b)]⟩]⟩ :=
  ⟨rfl, rfl, rfl, rfl⟩

/-- With `type` ahead of `coordinates`, a root object of type LineString with
coordinates `[p1, ..., pn]` decodes to exactly one Feature of variant Line
holding exactly the one ring `[p1, ..., pn]`, and a root object of type
MultiLineString with coordinates `[L1, ..., Lm]` to exactly one Feature of
variant Line whose rings are `L1, ..., Lm` in that order. -/
theorem typeFirst_lines_decode {ν : Type} (x0 : ν) (ps : Points ν)
    (Ls : Polygon ν) (json : List Char) (msg : String) (off : Nat → Nat) :
    decode x0 (.obj [("type", .str "LineString"), ("coordinates", .points ps)]) json msg off
      = ⟨none, [⟨Geometry.Line [ps]⟩]⟩ ∧
    decode x0 (.obj [("type", .str "MultiLineString"), ("coordinates", .rings Ls)]) json msg off
      = ⟨none, [⟨Geometry.Line Ls⟩]⟩ := by
  constructor
  · apply decode_of_emitted
    have hev : (JSON.obj [("type", .str "LineString"), ("coordinates", .points ps)]).events =
        [Event.startObject, .key "type", .string "LineString", .key "coordinates"] ++
        ((JSON.points ps).events ++ [Event.endObject]) := by
      simp [JSON.events, JSON.memberEvents]
    have hpre : (init x0).feed [Event.startObject, .key "type", .string "LineString",
        .key "coordinates"] = (true, atRootCoordinates x0 RootType.LineString) := rfl
    rw [hev, feed_append, hpre]
    simp only [if_true]
    rw [feed_append, feed_ring_outer _ [Expected.Root] ps rfl
      (by simp [depthAdmitted, atRootCoordinates, geometryTypeFromRootType,
        getExpectedGeometryDepth]) rfl rfl]
    simp [feed, handle, EndObject, top, endRootObject, emitted, atRootCoordinates, init]
  · apply decode_of_emitted
    have hev : (JSON.obj [("type", .str "MultiLineString"), ("coordinates", .rings Ls)]).events =
        [Event.startObject, .key "type", .string "MultiLineString", .key "coordinates"] ++
        ((JSON.rings Ls).events ++ [Event.endObject]) := by
      simp [JSON.events, JSON.memberEvents]
    have hpre : (init x0).feed [Event.startObject, .key "type", .string "MultiLineString",
        .key "coordinates"] = (true, atRootCoordinates x0 RootType.MultiLineString) := rfl
    rw [hev, feed_append, hpre]
    simp only [if_true]
    rw [feed_append, feed_rings_outer _ [Expected.Root] Ls rfl
      (by simp [depthAdmitted, atRootCoordinates, geometryTypeFromRootType,
        getExpectedGeometryDepth]) rfl rfl rfl]
    simp [feed, handle, EndObject, top, endRootObject, emitted, atRootCoordinates, init]

/-- With `type` ahead of `coordinates`, a root object of type MultiPoint with
coordinates `[[x1, y1], ..., [xn, yn]]` (n >= 0) decodes to exactly one Feature
of variant Point whose points list is `[(x1, y1), ..., (xn, yn)]` in input
order; the empty array `[]` gives an empty points list. -/
theorem typeFirst_multipoint_decodes {ν : Type} (x0 : ν) (ps : Points ν) (json : List Char)
    (msg : String) (off : Nat → Nat) :
    decode x0 (.obj [("type", .str "MultiPoint"), ("coordinates", .points ps)]) json msg off
      = ⟨none, [⟨Geometry.Point ps⟩]⟩ ∧
    decode x0 (.obj [("type", .str "MultiPoint"), ("coordinates", .arr [])]) json msg off
      = ⟨none, [⟨Geometry.Point []⟩]⟩ := by
  refine ⟨?_, rfl⟩
  apply decode_of_emitted
  have hev : (JSON.obj [("type", .str "MultiPoint"), ("coordinates", .points ps)]).events =
      [Event.startObject, .key "type", .string "MultiPoint", .key "coordinates"] ++
      ((JSON.points ps).events ++ [Event.endObject]) := by
    simp [JSON.events, JSON.memberEvents]
  have hpre : (init x0).feed [Event.startObject, .key "type", .string "MultiPoint",
      .key "coordinates"] = (true, atRootCoordinates x0 RootType.MultiPoint) := rfl
  rw [hev, feed_append, hpre]
  simp only [if_true]
  rw [feed_append, feed_ring_outer _ [Expected.Root] ps rfl
    (by simp [depthAdmitted, atRootCoordinates, geometryTypeFromRootType,
      getExpectedGeometryDepth]) rfl rfl]
  simp [feed, handle, EndObject, top, endRootObject, emitted, atRootCoordinates, init, front]

/-- With `type` ahead of `coordinates`, a MultiPolygon root object whose
coordinates are the polygon groups `G1, ..., Gk` (each a list of rings) decodes
to exactly one Feature of variant Polygon whose rings list is the concatenation
`G1 ++ ... ++ Gk`; the number of rings is the sum of the group sizes. -/
theorem typeFirst_multipolygon_decodes {ν : Type} (x0 : ν) (gs : List (Polygon ν))
    (json : List Char) (msg : String) (off : Nat → Nat) :
    decode x0 (.obj [("type", .str "MultiPolygon"), ("coordinates", .polygons gs)]) json msg off
      = ⟨none, [⟨Geometry.Polygon gs.flatten⟩]⟩ ∧
    gs.flatten.length = (gs.map List.length).sum := by
  refine ⟨?_, List.length_flatten gs⟩
  apply decode_of_emitted
  have hev : (JSON.obj [("type", .str "MultiPolygon"), ("coordinates", .polygons gs)]).events =
      [Event.startObject, .key "type", .string "MultiPolygon", .key "coordinates"] ++
      ((JSON.polygons gs).events ++ [Event.endObject]) := by
    simp [JSON.events, JSON.memberEvents]
  have hpre : (init x0).feed [Event.startObject, .key "type", .string "MultiPolygon",
      .key "coordinates"] = (true, atRootCoordinates x0 RootType.MultiPolygon) := rfl
  rw [hev, feed_append, hpre]
  simp only [if_true]
  rw [feed_append, feed_polygons_outer _ [Expected.Root] gs rfl
    (by simp [depthAdmitted, atRootCoordinates, geometryTypeFromRootType,
      getExpectedGeometryDepth]) rfl rfl rfl]
  simp [feed, handle, EndObject, top, endRootObject, emitted, atRootCoordinates, init]

/-- C9: a root Point or MultiPoint object that declares its type and then has
two valid `coordinates` members decodes to one Feature of variant Point holding
exactly the points of the later member and nothing of the earlier one. -/
theorem C9_later_coordinates_member_wins {ν : Type} (x0 a b c d : ν) (ps qs : Points ν)
    (json : List Char) (msg : String) (off : Nat → Nat) :
    decode x0 (.obj [("type", .str "Point"), ("coordinates", .point (a, b)),
        ("coordinates", .point (c, d))]) json msg off
      = ⟨none, [⟨Geometry.Point [(c, d)]⟩]⟩ ∧
    decode x0 (.obj [("type", .str "MultiPoint"), ("coordinates", .points ps),
        ("coordinates", .points qs)]) json msg off
      = ⟨none, [⟨Geometry.Point qs⟩]⟩ := by
  refine ⟨rfl, ?_⟩
  apply decode_of_emitted
  have hev : (JSON.obj [("type", .str "MultiPoint"), ("coordinates", .points ps),
        ("coordinates", .points qs)]).events =
      [Event.startObject, .key "type", .string "MultiPoint", .key "coordinates"] ++
      ((JSON.points ps).events ++ ([Event.key "coordinates"] ++
        ((JSON.points qs).events ++ [Event.endObject]))) := by
    simp [JSON.events, JSON.memberEvents]
  have hpre : (init x0).feed [Event.startObject, .key "type", .string "MultiPoint",
      .key "coordinates"] = (true, atRootCoordinates x0 RootType.MultiPoint) := rfl
  rw [hev, feed_append, hpre]
  simp only [if_true]
  rw [feed_append, feed_ring_outer _ [Expected.Root] ps rfl
    (by simp [depthAdmitted, atRootCoordinates, geometryTypeFromRootType,
      getExpectedGeometryDepth]) rfl rfl]
  simp only [if_true, List.singleton_append]
  rw [feed_cons]
  simp only [handle, Key, top, atRootCoordinates, init, parseRootCoordinates,
    geometryTypeFromRootType, if_true]
  simp only [reduceCtorEq, if_false, String.reduceEq, if_true]
  rw [feed_append, feed_ring_outer _ [Expected.Root] qs rfl
    (by simp [depthAdmitted, getExpectedGeometryDepth]) rfl rfl]
  simp [feed, handle, EndObject, top, endRootObject, emitted, front]

/-! ## Results of the constructor in terms of the handler run -/

theorem accepted_append_of_rejected {ν : Type} (s : GeoJSONReader ν) (es fs : List (Event ν))
    (h : (s.feed es).1 = false) : s.accepted (es ++ fs) = s.accepted es := by
  induction es generalizing s with
  | nil => simp [feed] at h
  | cons e es ih =>
    simp only [List.cons_append, accepted]
    rw [feed] at h
    rcases hh : s.handle e with ⟨ok, s1⟩
    rw [hh] at h
    cases ok
    · rfl
    · simp only at h ⊢
      have := ih s1 h
      simp only [List.append_eq] at this ⊢
      rw [this]

theorem sameResult_new_of_feed_eq {ν : Type} (x0 : ν) (json1 json2 : List Char)
    (ev1 ev2 : List (Event ν)) (msg : String) (off1 off2 : Nat → Nat)
    (h : (init x0).feed ev1 = (init x0).feed ev2) :
    GeoJSON.sameResult (GeoJSON.new x0 json1 ⟨ev1, none, msg, off1⟩)
      (GeoJSON.new x0 json2 ⟨ev2, none, msg, off2⟩) := by
  unfold GeoJSON.sameResult GeoJSON.new
  simp only [h]
  rcases (init x0).feed ev2 with ⟨ok, s⟩
  cases ok <;> by_cases he : s.error.1 = Expected.None <;> simp [he]

/-- When the handler rejects an event of the prefix `pre` and has recorded an
expectation, the result is the GeoJSON format error at that event and no
feature. -/
theorem new_of_rejected_start {ν : Type} (x0 : ν) (json : List Char) (pre tail : List (Event ν))
    (syn : Option String) (msg : String) (off : Nat → Nat) (s : GeoJSONReader ν)
    (h : (init x0).feed pre = (false, s)) (he : s.error.1 ≠ Expected.None) :
    GeoJSON.new x0 json ⟨pre ++ tail, syn, msg, off⟩ =
      ⟨some ⟨"Expected " ++ s.error.1.describe ++ ", but got " ++ s.error.2.describe ++ " instead.",
        (offsetToRowAndCol json (off ((init x0).accepted pre))).1,
        (offsetToRowAndCol json (off ((init x0).accepted pre))).2⟩, []⟩ := by
  have h1 : (init x0).feed (pre ++ tail) = (false, s) := by rw [feed_append, h]; simp
  have h2 : (init x0).accepted (pre ++ tail) = (init x0).accepted pre :=
    accepted_append_of_rejected _ _ _ (by rw [h])
  unfold GeoJSON.new
  simp [h1, h2, he]

theorem GeoJSONReader.feed_congr_start {ν : Type} (s : GeoJSONReader ν) (pre1 pre2 tail : List (Event ν))
    (h : s.feed pre1 = s.feed pre2) : s.feed (pre1 ++ tail) = s.feed (pre2 ++ tail) := by
  rw [feed_append, feed_append s pre2, h]

theorem GeoJSONReader.second_type_rejected {ν : Type} (x0 : ν) (t1 t2 : GeometryType)
    (h1 : t1.isGeometry = true) (h2 : t2.isGeometry = true)
    (hd : getExpectedGeometryDepth t1 ≠ getExpectedGeometryDepth t2) :
    ∃ s : GeoJSONReader ν,
      (init x0).feed [Event.startObject, .key "type", .string t1.keyword, .key "type",
        .string t2.keyword] = (false, s) ∧
      s.error = (getExpectedGeometryDepthInt (getExpectedGeometryDepth t1),
        getActualGeometryType t2) ∧
      s.error.1 ≠ Expected.None ∧
      (init x0).accepted [Event.startObject, .key "type", .string t1.keyword, .key "type",
        .string t2.keyword] = 4 := by
  cases t1 <;> cases t2 <;>
    first
    | exact absurd rfl hd
    | exact absurd h1 (by decide)
    | exact absurd h2 (by decide)
    | exact ⟨_, rfl, rfl, fun h => Expected.noConfusion h, rfl⟩

/-- C10, counterexample: `type: "Point"` followed by `type: "LineString"` does not
decode like `type: "LineString"` alone - the second keyword is rejected against
the depth fixed by the first. -/
theorem C10_counterexample_second_type_rejected :
    decode (0 : Int) (.obj [("type", .str "Point"), ("type", .str "LineString"),
        ("coordinates", .points [(1, 2), (3, 4)])]) [] "" (fun _ => 0)
      = ⟨some ⟨"Expected 'Point', but got 'LineString' instead.", 0, 0⟩, []⟩ ∧
    decode (0 : Int) (.obj [("type", .str "LineString"),
        ("coordinates", .points [(1, 2), (3, 4)])]) [] "" (fun _ => 0)
      = ⟨none, [⟨Geometry.Line [[(1, 2), (3, 4)]]⟩]⟩ := by
  decide

/-- C10, amended: for two geometry type keywords `t1` and `t2`, in a root object
that opens with `type: t1` directly followed by `type: t2`: when both require
the same coordinates depth, the object decodes exactly like the same object
with only `type: t2`, whatever members follow; when the depths differ, the
second `type` member is rejected with expected = the keyword(s) of the depth of
`t1` and actual = `t2`. -/
theorem C10_second_type_wins_iff_same_depth {ν : Type} (x0 : ν) (t1 t2 : GeometryType)
    (rest : List (String × JSON ν)) (json1 json2 : List Char) (msg : String)
    (off1 off2 : Nat → Nat) (h1 : t1.isGeometry = true) (h2 : t2.isGeometry = true) :
    if getExpectedGeometryDepth t1 = getExpectedGeometryDepth t2 then
      GeoJSON.sameResult
        (decode x0 (.obj (("type", .str t1.keyword) :: ("type", .str t2.keyword) :: rest))
          json1 msg off1)
        (decode x0 (.obj (("type", .str t2.keyword) :: rest)) json2 msg off2)
    else
      decode x0 (.obj (("type", .str t1.keyword) :: ("type", .str t2.keyword) :: rest))
          json1 msg off1
        = ⟨some ⟨"Expected " ++
              (getExpectedGeometryDepthInt (getExpectedGeometryDepth t1)).describe ++
              ", but got " ++ (getActualGeometryType t2).describe ++ " instead.",
            (offsetToRowAndCol json1 (off1 4)).1, (offsetToRowAndCol json1 (off1 4)).2⟩, []⟩ := by
  have hev1 : (JSON.obj (("type", .str t1.keyword) :: ("type", .str t2.keyword) :: rest)).events =
      [Event.startObject, .key "type", .string t1.keyword, .key "type", .string t2.keyword] ++
        (JSON.memberEvents rest ++ [Event.endObject]) := by
    simp [JSON.events, JSON.memberEvents]
  have hev2 : (JSON.obj (("type", .str t2.keyword) :: rest)).events =
      [Event.startObject, .key "type", .string t2.keyword] ++
        (JSON.memberEvents rest ++ [Event.endObject]) := by
    simp [JSON.events, JSON.memberEvents]
  split
  · rename_i hd
    unfold decode Tokenizer.ofDocument
    rw [hev1, hev2]
    apply sameResult_new_of_feed_eq
    apply feed_congr_start
    cases t1 <;> cases t2 <;>
      first
      | exact absurd h1 (by decide)
      | exact absurd h2 (by decide)
      | exact absurd hd (by decide)
      | rfl
  · rename_i hd
    unfold decode Tokenizer.ofDocument
    rw [hev1]
    obtain ⟨s, hs, herr, hne, hacc⟩ := second_type_rejected x0 t1 t2 h1 h2 hd
    rw [new_of_rejected_start x0 json1 _ _ none msg off1 s hs hne, herr, hacc]

/-- C10, witness: LineString and MultiPoint both require depth 2, so the second
keyword replaces the first. -/
theorem C10_witness_linestring_then_multipoint :
    GeometryType.LineString.isGeometry = true ∧ GeometryType.MultiPoint.isGeometry = true ∧
    GeoJSON.sameResult
      (decode (0 : Int) (.obj [("type", .str "LineString"), ("type", .str "MultiPoint"),
        ("coordinates", .points [(1, 2)])]) [] "" (fun _ => 0))
      (decode (0 : Int) (.obj [("type", .str "MultiPoint"),
        ("coordinates", .points [(1, 2)])]) [] "" (fun _ => 0)) :=
  ⟨rfl, rfl, C10_second_type_wins_iff_same_depth (0 : Int) GeometryType.LineString
    GeometryType.MultiPoint [("coordinates", .points [(1, 2)])] [] [] "" (fun _ => 0)
    (fun _ => 0) rfl rfl⟩

/-! ## Coordinates values after their first point -/

/-- The rest of a depth-2 value after its first point. -/
theorem GeoJSONReader.feed_rest2 {ν : Type} (x0 : ν) (r : RootType) (spec : Bool) (p : Point ν)
    (ps : Points ν) (hadm : depthAdmitted (geometryTypeFromRootType r) 2) :
    (afterFirstPoint x0 r spec 2 p).feed
        (JSON.elementEvents (ps.map JSON.point) ++ [Event.endArray])
      = (true, afterCoordinates x0 r spec 2 (lastX p.1 ps) [p :: ps]) := by
  rw [feed_append, feed_pointElements ps _ [Expected.Root] rfl hadm rfl (by simp [afterFirstPoint])]
  simp [feed, handle, EndArray, top, endCoordinatesArray, pop, afterFirstPoint, afterCoordinates,
    init]

/-- The rest of a depth-3 value after its first point. -/
theorem GeoJSONReader.feed_rest3 {ν : Type} (x0 : ν) (r : RootType) (spec : Bool) (p : Point ν)
    (ps : Points ν) (rs : Polygon ν) (hadm : depthAdmitted (geometryTypeFromRootType r) 3) :
    (afterFirstPoint x0 r spec 3 p).feed
        (JSON.elementEvents (ps.map JSON.point) ++ (Event.endArray ::
          (JSON.elementEvents (rs.map JSON.points) ++ [Event.endArray])))
      = (true, afterCoordinates x0 r spec 3 (lastX (lastX p.1 ps) rs.flatten)
          ((p :: ps) :: rs)) := by
  rw [feed_append, feed_pointElements ps _ [Expected.Root] rfl hadm rfl (by simp [afterFirstPoint])]
  simp only [if_true]
  rw [feed_cons]
  simp only [handle, EndArray, top, endCoordinatesArray, afterFirstPoint, init]
  simp only [show ¬ ((3 : Int) ≤ 3 - 1) by decide, if_false, show (3 : Int) - (3 - 1 - 1) = 2 by decide,
    true_or, if_true, show ¬ ((3 : Int) - 1 - 1 = 0) by decide]
  rw [feed_append, feed_ringElements rs _ [Expected.Root]]
  · simp [feed, handle, EndArray, top, endCoordinatesArray, pop, afterCoordinates, init,
      lastX_append]
  · rfl
  · exact depthAdmitted_mono hadm (by simp)
  · simp
  · simp
  · simp
  · rfl

/-- The rest of a depth-4 value after its first point. -/
theorem GeoJSONReader.feed_rest4 {ν : Type} (x0 : ν) (r : RootType) (spec : Bool) (p : Point ν)
    (ps : Points ν) (rs : Polygon ν) (gs : List (Polygon ν))
    (hadm : depthAdmitted (geometryTypeFromRootType r) 4) :
    (afterFirstPoint x0 r spec 4 p).feed
        (JSON.elementEvents (ps.map JSON.point) ++ (Event.endArray ::
          (JSON.elementEvents (rs.map JSON.points) ++ (Event.endArray ::
            (JSON.elementEvents (gs.map JSON.rings) ++ [Event.endArray])))))
      = (true, afterCoordinates x0 r spec 4
          (lastX (lastX (lastX p.1 ps) rs.flatten) gs.flatten.flatten)
          (((p :: ps) :: rs) ++ gs.flatten)) := by
  rw [feed_append, feed_pointElements ps _ [Expected.Root] rfl hadm rfl (by simp [afterFirstPoint])]
  simp only [if_true]
  rw [feed_cons]
  simp only [handle, EndArray, top, endCoordinatesArray, afterFirstPoint, init]
  simp only [show ¬ ((4 : Int) ≤ 4 - 1) by decide, if_false, show (4 : Int) - (4 - 1 - 1) = 2 by decide,
    true_or, if_true, show ¬ ((4 : Int) - 1 - 1 = 0) by decide]
  rw [feed_append, feed_ringElements rs _ [Expected.Root]]
  · simp only [if_true]
    rw [feed_cons]
    simp only [handle, EndArray, top, endCoordinatesArray]
    simp only [show ¬ ((4 : Int) ≤ 4 - 1 - 1) by decide, if_false,
      show (4 : Int) - (4 - 1 - 1 - 1) = 3 by decide, show ¬ ((3 : Int) = 2) by decide,
      true_or, or_true, if_true, show ¬ ((4 : Int) - 1 - 1 - 1 = 0) by decide]
    rw [feed_append, feed_polygonElements gs _ [Expected.Root]]
    · simp [feed, handle, EndArray, top, endCoordinatesArray, pop, afterCoordinates, init,
        lastX_append]
    · rfl
    · exact depthAdmitted_mono hadm (by simp)
    · simp
    · simp
    · simp
    · simp
    · rfl
  · rfl
  · exact depthAdmitted_mono hadm (by simp)
  · simp
  · simp
  · simp
  · rfl

theorem LeadingCoordinates.toJSON_events {ν : Type} (v : LeadingCoordinates ν) :
    v.toJSON.events = v.firstPointEvents ++ v.restEvents := by
  cases v <;>
    simp [LeadingCoordinates.toJSON, LeadingCoordinates.firstPointEvents,
      LeadingCoordinates.restEvents, LeadingCoordinates.depth, LeadingCoordinates.first,
      JSON.events, JSON.elementEvents, JSON.point, JSON.points, JSON.rings, JSON.polygons,
      List.replicate]

/-- The rest of a value of depth 2..4 after its first point, whatever the depth. -/
theorem GeoJSONReader.feed_rest {ν : Type} (x0 : ν) (r : RootType) (spec : Bool)
    (v : LeadingCoordinates ν) (hv : v.depth ≠ 1)
    (hadm : depthAdmitted (geometryTypeFromRootType r) v.depth) :
    (afterFirstPoint x0 r spec v.depth v.first).feed v.restEvents
      = (true, afterCoordinates x0 r spec v.depth v.finalX v.ringList) := by
  cases v with
  | point p => exact absurd rfl hv
  | points p ps => exact feed_rest2 x0 r spec p ps hadm
  | rings p ps rs => exact feed_rest3 x0 r spec p ps rs hadm
  | polygons p ps rs gs => exact feed_rest4 x0 r spec p ps rs gs hadm

theorem GeoJSONReader.feed_split {ν : Type} (s s1 s2 : GeoJSONReader ν) (h l r t : List (Event ν))
    (h1 : s.feed (h ++ l) = (true, s1)) (h2 : s1.feed r = (true, s2)) :
    s.feed (h ++ ((l ++ r) ++ t)) = s2.feed t := by
  have : h ++ ((l ++ r) ++ t) = (h ++ l) ++ (r ++ t) := by simp
  rw [this, feed_append, h1]
  simp only [if_true]
  rw [feed_append, h2]
  simp

theorem GeoJSONReader.feed_rejected {ν : Type} (s : GeoJSONReader ν) (a c : List (Event ν))
    (h : (s.feed a).1 = false) : (s.feed (a ++ c)).1 = false := by
  rw [feed_append, h]
  simpa using h

theorem decode_of_rejected {ν : Type} (x0 : ν) (doc : JSON ν) (json : List Char) (msg : String)
    (off : Nat → Nat) (h : ((init x0).feed doc.events).1 = false) :
    (decode x0 doc json msg off).error ≠ none ∧ (decode x0 doc json msg off).features = [] := by
  unfold decode GeoJSON.new Tokenizer.ofDocument
  rcases hf : (init x0).feed doc.events with ⟨ok, s⟩
  rw [hf] at h
  simp only at h
  subst h
  by_cases he : s.error.1 = Expected.None <;> simp [he]

theorem events_typeFirst {ν : Type} (kw : String) (c : JSON ν) :
    (JSON.obj [("type", .str kw), ("coordinates", c)]).events =
      [Event.startObject, .key "type", .string kw, .key "coordinates"] ++
        (c.events ++ [Event.endObject]) := by
  simp [JSON.events, JSON.memberEvents]

theorem events_coordinatesFirst {ν : Type} (kw : String) (c : JSON ν) :
    (JSON.obj [("coordinates", c), ("type", .str kw)]).events =
      [Event.startObject, .key "coordinates"] ++
        (c.events ++ [Event.key "type", .string kw, Event.endObject]) := by
  simp [JSON.events, JSON.memberEvents]

/-! ## C8: the two key orders of a bare geometry object -/

theorem GeoJSONReader.typeFirst_start {ν : Type} (x0 : ν) (t : GeometryType)
    (v : LeadingCoordinates ν) (ht : t.isGeometry = true) (hv : v.depth ≠ 1)
    (hd : getExpectedGeometryDepth t = v.depth) :
    (init x0).feed ([Event.startObject, .key "type", .string t.keyword, .key "coordinates"] ++
        v.firstPointEvents)
      = (true, afterFirstPoint x0 t.toRootType false v.depth v.first) := by
  cases v <;> cases t <;>
    first
    | exact absurd ht (by decide)
    | exact absurd rfl hv
    | (simp [getExpectedGeometryDepth, LeadingCoordinates.depth] at hd; done)
    | rfl

theorem GeoJSONReader.coordinatesFirst_start {ν : Type} (x0 : ν) (v : LeadingCoordinates ν)
    (hv : v.depth ≠ 1) :
    (init x0).feed ([Event.startObject, .key "coordinates"] ++ v.firstPointEvents)
      = (true, afterFirstPoint x0 RootType.None true v.depth v.first) := by
  cases v <;> first | exact absurd rfl hv | rfl

theorem typeFirst_accepted {ν : Type} (x0 : ν) (t : GeometryType) (v : LeadingCoordinates ν)
    (json : List Char) (msg : String) (off : Nat → Nat) (ht : t.isGeometry = true)
    (hd : getExpectedGeometryDepth t = v.depth) :
    decode x0 (.obj [("type", .str t.keyword), ("coordinates", v.toJSON)]) json msg off
      = ⟨none, [⟨geometryOf t v.ringList⟩]⟩ := by
  by_cases hv : v.depth = 1
  · cases v <;> cases t <;>
      first
      | exact absurd ht (by decide)
      | (simp [getExpectedGeometryDepth, LeadingCoordinates.depth] at hd; done)
      | (simp [LeadingCoordinates.depth] at hv; done)
      | rfl
  · apply decode_of_emitted
    rw [events_typeFirst, v.toJSON_events,
      feed_split _ _ _ _ _ _ _ (typeFirst_start x0 t v ht hv hd)
        (feed_rest x0 t.toRootType false v hv
          (by cases t <;> first | exact absurd ht (by decide) | exact Or.inr (Or.inr (le_of_eq hd.symm))))]
    cases t <;> first | exact absurd ht (by decide) | rfl

theorem coordinatesFirst_accepted {ν : Type} (x0 : ν) (t : GeometryType) (v : LeadingCoordinates ν)
    (json : List Char) (msg : String) (off : Nat → Nat) (ht : t.isGeometry = true)
    (hd : getExpectedGeometryDepth t = v.depth) :
    decode x0 (.obj [("coordinates", v.toJSON), ("type", .str t.keyword)]) json msg off
      = ⟨none, [⟨geometryOf t v.ringList⟩]⟩ := by
  by_cases hv : v.depth = 1
  · cases v <;> cases t <;>
      first
      | exact absurd ht (by decide)
      | (simp [getExpectedGeometryDepth, LeadingCoordinates.depth] at hd; done)
      | (simp [LeadingCoordinates.depth] at hv; done)
      | rfl
  · apply decode_of_emitted
    rw [events_coordinatesFirst, v.toJSON_events,
      feed_split _ _ _ _ _ _ _ (coordinatesFirst_start x0 v hv)
        (feed_rest x0 RootType.None true v hv (Or.inl rfl))]
    cases v <;> cases t <;>
      first
      | exact absurd ht (by decide)
      | (simp [getExpectedGeometryDepth, LeadingCoordinates.depth] at hd; done)
      | rfl

theorem typeFirst_rejected {ν : Type} (x0 : ν) (t : GeometryType) (v : LeadingCoordinates ν)
    (ht : t.isGeometry = true) (hd : getExpectedGeometryDepth t ≠ v.depth) :
    ((init x0).feed
      (JSON.obj [("type", .str t.keyword), ("coordinates", v.toJSON)]).events).1 = false := by
  rw [events_typeFirst, v.toJSON_events]
  have hassoc : [Event.startObject, .key "type", .string t.keyword, .key "coordinates"] ++
      (v.firstPointEvents ++ v.restEvents ++ [Event.endObject]) =
      ([Event.startObject, .key "type", .string t.keyword, .key "coordinates"] ++
        v.firstPointEvents) ++ (v.restEvents ++ [Event.endObject]) := by simp
  rw [hassoc]
  apply feed_rejected
  cases v <;> cases t <;>
    first
    | exact absurd ht (by decide)
    | exact absurd rfl hd
    | rfl

theorem coordinatesFirst_rejected {ν : Type} (x0 : ν) (t : GeometryType)
    (v : LeadingCoordinates ν) (ht : t.isGeometry = true)
    (hd : getExpectedGeometryDepth t ≠ v.depth) :
    ((init x0).feed
      (JSON.obj [("coordinates", v.toJSON), ("type", .str t.keyword)]).events).1 = false := by
  by_cases hv : v.depth = 1
  · cases v <;> cases t <;>
      first
      | exact absurd ht (by decide)
      | exact absurd rfl hd
      | (simp [LeadingCoordinates.depth] at hv; done)
      | rfl
  · rw [events_coordinatesFirst, v.toJSON_events,
      feed_split _ _ _ _ _ _ _ (coordinatesFirst_start x0 v hv)
        (feed_rest x0 RootType.None true v hv (Or.inl rfl))]
    cases v <;> cases t <;>
      first
      | exact absurd ht (by decide)
      | exact absurd rfl hd
      | rfl

/-- C8, counterexample: a MultiPoint with the empty coordinates array is accepted
with `type` first and rejected with `coordinates` first (at the closing bracket,
before any type is known). -/
theorem C8_counterexample_empty_multipoint :
    decode (0 : Int) (.obj [("type", .str "MultiPoint"), ("coordinates", .arr [])]) [] ""
        (fun _ => 0)
      = ⟨none, [⟨Geometry.Point []⟩]⟩ ∧
    decode (0 : Int) (.obj [("coordinates", .arr []), ("type", .str "MultiPoint")]) [] ""
        (fun _ => 0)
      = ⟨some ⟨"Expected a coordinate, but got a prematurely closed array instead.", 0, 0⟩, []⟩ := by
  decide

/-- C8, amended: for each of the six geometry types `t` and every coordinates
value `v` that is an array of two-number points nested uniformly to a depth of
1 to 4 and in which a point is read before any array closes, the object with
`type` before `coordinates` and the object with `coordinates` before `type` are
both accepted with the same single Feature when the depth of `v` is the depth
`t` requires, and both rejected otherwise. -/
theorem C8_key_order_independent_on_leading_point_values {ν : Type} (x0 : ν) (t : GeometryType)
    (v : LeadingCoordinates ν) (json1 json2 : List Char) (msg : String) (off1 off2 : Nat → Nat)
    (ht : t.isGeometry = true) :
    if getExpectedGeometryDepth t = v.depth then
      decode x0 (.obj [("type", .str t.keyword), ("coordinates", v.toJSON)]) json1 msg off1
        = ⟨none, [⟨geometryOf t v.ringList⟩]⟩ ∧
      decode x0 (.obj [("coordinates", v.toJSON), ("type", .str t.keyword)]) json2 msg off2
        = ⟨none, [⟨geometryOf t v.ringList⟩]⟩
    else
      (decode x0 (.obj [("type", .str t.keyword), ("coordinates", v.toJSON)])
        json1 msg off1).error ≠ none ∧
      (decode x0 (.obj [("coordinates", v.toJSON), ("type", .str t.keyword)])
        json2 msg off2).error ≠ none := by
  split
  · rename_i hd
    exact ⟨typeFirst_accepted x0 t v json1 msg off1 ht hd,
      coordinatesFirst_accepted x0 t v json2 msg off2 ht hd⟩
  · rename_i hd
    exact ⟨(decode_of_rejected x0 _ json1 msg off1 (typeFirst_rejected x0 t v ht hd)).1,
      (decode_of_rejected x0 _ json2 msg off2 (coordinatesFirst_rejected x0 t v ht hd)).1⟩

/-- C8, witness: a Polygon with one ring, in both key orders. -/
theorem C8_witness_polygon :
    GeometryType.Polygon.isGeometry = true ∧
    decode (0 : Int) (.obj [("type", .str "Polygon"),
        ("coordinates", .rings [[(1, 2), (3, 4)]])]) [] "" (fun _ => 0)
      = ⟨none, [⟨Geometry.Polygon [[(1, 2), (3, 4)]]⟩]⟩ ∧
    decode (0 : Int) (.obj [("coordinates", .rings [[(1, 2), (3, 4)]]),
        ("type", .str "Polygon")]) [] "" (fun _ => 0)
      = ⟨none, [⟨Geometry.Polygon [[(1, 2), (3, 4)]]⟩]⟩ :=
  ⟨rfl, C8_key_order_independent_on_leading_point_values (0 : Int) GeometryType.Polygon
    (LeadingCoordinates.rings (1, 2) [(3, 4)] []) [] [] "" (fun _ => 0) (fun _ => 0) rfl⟩

/-! ## C7: members with unknown keys -/

/-! ## Values under an `Ignored` frame -/

theorem GeoJSONReader.feed_singleton {ν : Type} (s s1 : GeoJSONReader ν) (e : Event ν)
    (h : s.handle e = (true, s1)) : s.feed [e] = (true, s1) := by
  rw [feed_cons, h]; simp [feed]

theorem GeoJSONReader.handle_scalar_ignored {ν : Type} (s : GeoJSONReader ν)
    (h : top s.expect = Expected.Ignored) :
    s.handle Event.null = (true, s.popIfDone) ∧
    (∀ b, s.handle (Event.bool b) = (true, s.popIfDone)) ∧
    (∀ n, s.handle (Event.number n) = (true, s.popIfDone)) ∧
    (∀ x, s.handle (Event.string x) = (true, s.popIfDone)) := by
  by_cases h0 : s.ignoredDepth = 0 <;>
    simp [handle, Null, Bool_, handleNumber, String_, ignored, h, popIfDone, h0]

mutual
theorem GeoJSONReader.feed_ignored_value {ν : Type} (v : JSON ν) (s : GeoJSONReader ν)
    (h : top s.expect = Expected.Ignored) (hd : 0 ≤ s.ignoredDepth) :
    s.feed v.events = (true, s.popIfDone) := by
  cases v with
  | null => exact feed_singleton _ _ _ (handle_scalar_ignored s h).1
  | bool b => exact feed_singleton _ _ _ ((handle_scalar_ignored s h).2.1 b)
  | num n => exact feed_singleton _ _ _ ((handle_scalar_ignored s h).2.2.1 n)
  | str x => exact feed_singleton _ _ _ ((handle_scalar_ignored s h).2.2.2 x)
  | arr elements =>
    simp only [JSON.events]
    rw [feed_cons]
    simp only [handle, StartArray, h, if_true]
    rw [feed_append, feed_ignored_elements elements { s with ignoredDepth := s.ignoredDepth + 1 } h
      (by show 0 < s.ignoredDepth + 1; omega)]
    simp only [if_true]
    rw [feed_cons]
    have h1 : s.ignoredDepth + 1 > 0 := by omega
    simp only [handle, EndArray, h, endIgnored, feed, h1, if_true, add_sub_cancel_right]
    by_cases h0 : s.ignoredDepth = 0 <;> simp [popIfDone, h0]
  | obj members =>
    simp only [JSON.events]
    rw [feed_cons]
    simp only [handle, StartObject, h, if_true]
    rw [feed_append, feed_ignored_members members { s with ignoredDepth := s.ignoredDepth + 1 } h
      (by show 0 < s.ignoredDepth + 1; omega)]
    simp only [if_true]
    rw [feed_cons]
    have h1 : s.ignoredDepth + 1 > 0 := by omega
    simp only [handle, EndObject, h, endIgnored, feed, h1, if_true, add_sub_cancel_right]
    by_cases h0 : s.ignoredDepth = 0 <;> simp [popIfDone, h0]
theorem GeoJSONReader.feed_ignored_elements {ν : Type} (vs : List (JSON ν)) (s : GeoJSONReader ν)
    (h : top s.expect = Expected.Ignored) (hd : 0 < s.ignoredDepth) :
    s.feed (JSON.elementEvents vs) = (true, s) := by
  cases vs with
  | nil => simp [JSON.elementEvents, feed]
  | cons v vs =>
    simp only [JSON.elementEvents]
    rw [feed_append, feed_ignored_value v s h (le_of_lt hd)]
    simp only [if_true, popIfDone, if_neg (ne_of_gt hd)]
    exact feed_ignored_elements vs s h hd
theorem GeoJSONReader.feed_ignored_members {ν : Type} (ms : List (String × JSON ν))
    (s : GeoJSONReader ν) (h : top s.expect = Expected.Ignored) (hd : 0 < s.ignoredDepth) :
    s.feed (JSON.memberEvents ms) = (true, s) := by
  cases ms with
  | nil => simp [JSON.memberEvents, feed]
  | cons m ms =>
    obtain ⟨k, v⟩ := m
    simp only [JSON.memberEvents]
    rw [feed_cons]
    simp only [handle, Key, h, if_true]
    rw [feed_append, feed_ignored_value v s h (le_of_lt hd)]
    simp only [if_true, popIfDone, if_neg (ne_of_gt hd)]
    exact feed_ignored_members ms s h hd
end

theorem GeoJSONReader.feed_cons_ok {ν : Type} {s s' : GeoJSONReader ν} {e : Event ν}
    {es : List (Event ν)} (h : s.feed (e :: es) = (true, s')) :
    ∃ s1, s.handle e = (true, s1) ∧ s1.feed es = (true, s') := by
  rw [feed] at h
  rcases hh : s.handle e with ⟨ok, s1⟩
  rw [hh] at h
  cases ok
  · simp at h
  · exact ⟨s1, rfl, h⟩

theorem GeoJSONReader.feed_append_ok {ν : Type} {s s' : GeoJSONReader ν}
    {es fs : List (Event ν)} (h : s.feed (es ++ fs) = (true, s')) :
    ∃ s1, s.feed es = (true, s1) ∧ s1.feed fs = (true, s') := by
  rw [feed_append] at h
  rcases hh : s.feed es with ⟨ok, s1⟩
  rw [hh] at h
  cases ok
  · simp at h
  · exact ⟨s1, rfl, by simpa using h⟩

theorem GeoJSONReader.inCoordinates_scalar {ν : Type} {rest0 : List Expected} {g : Int}
    {s s' : GeoJSONReader ν} (hg : 1 ≤ g) (hi : InCoordinates rest0 g s) (e : Event ν)
    (he : e = Event.null ∨ (∃ b, e = Event.bool b) ∨ (∃ n, e = Event.number n) ∨
      (∃ x, e = Event.string x))
    (h : s.handle e = (true, s')) : InCoordinates rest0 g s' := by
  unfold InCoordinates at hi ⊢
  rcases he with rfl | ⟨b, rfl⟩ | ⟨n, rfl⟩ | ⟨x, rfl⟩ <;>
  rcases hi with ⟨hx, hd, h0⟩ | ⟨hx, hd, h0⟩ | ⟨hx, hd, h0⟩ | ⟨hx, hd, h0⟩ <;>
  simp [handle, Null, Bool_, handleNumber, String_, ignored, hx, top, fail, setTop] at h
  all_goals try split_ifs at h
  all_goals try simp only [Prod.mk.injEq, true_and, false_and, Bool.true_eq_false,
      Bool.false_eq_true] at h
  all_goals
    first
    | omega
    | (simp only at *; omega)
    | (subst h; simp [hx, hd, h0, pop])

theorem GeoJSONReader.inCoordinates_startArray {ν : Type} {rest0 : List Expected} {g : Int}
    {s s' : GeoJSONReader ν} (hi : InCoordinates rest0 g s)
    (h : s.handle Event.startArray = (true, s')) : InCoordinates rest0 (g + 1) s' := by
  unfold InCoordinates at hi ⊢
  rcases hi with ⟨hx, hd, h0⟩ | ⟨hx, hd, h0⟩ | ⟨hx, hd, h0⟩ | ⟨hx, hd, h0⟩ <;>
  cases ht : s.geometryType <;>
  simp [handle, StartArray, startCoordinatesArray, hx, top, fail, ht] at h
  all_goals try split_ifs at h
  all_goals try simp only [Prod.mk.injEq, true_and, false_and, Bool.true_eq_false,
      Bool.false_eq_true] at h
  all_goals
    first
    | omega
    | (simp only at *; omega)
    | (subst h; simp [hx, hd, h0, pop])

theorem GeoJSONReader.inCoordinates_endArray {ν : Type} {rest0 : List Expected} {g : Int}
    {s s' : GeoJSONReader ν} (hg : 1 ≤ g) (hi : InCoordinates rest0 (g + 1) s)
    (h : s.handle Event.endArray = (true, s')) : InCoordinates rest0 g s' := by
  unfold InCoordinates at hi ⊢
  rcases hi with ⟨hx, hd, h0⟩ | ⟨hx, hd, h0⟩ | ⟨hx, hd, h0⟩ | ⟨hx, hd, h0⟩ <;>
  simp [handle, EndArray, endCoordinatesArray, endIgnored, hx, top, fail, pop] at h
  all_goals try split_ifs at h
  all_goals try simp only [Prod.mk.injEq, true_and, false_and, Bool.true_eq_false,
      Bool.false_eq_true] at h
  all_goals
    first
    | omega
    | (simp only at *; omega)
    | (subst h; simp [hx, hd, h0, pop])

theorem GeoJSONReader.inCoordinates_endArray_top {ν : Type} {rest0 : List Expected}
    {s s' : GeoJSONReader ν} (hi : InCoordinates rest0 1 s)
    (h : s.handle Event.endArray = (true, s')) : AtBoundary rest0 s' := by
  unfold InCoordinates at hi
  unfold AtBoundary
  rcases hi with ⟨hx, hd, h0⟩ | ⟨hx, hd, h0⟩ | ⟨hx, hd, h0⟩ | ⟨hx, hd, h0⟩ <;>
  simp [handle, EndArray, endCoordinatesArray, endIgnored, hx, top, fail, pop] at h
  all_goals try split_ifs at h
  all_goals try simp only [Prod.mk.injEq, true_and, false_and, Bool.true_eq_false,
      Bool.false_eq_true] at h
  all_goals
    first
    | omega
    | (simp only at *; omega)
    | (subst h; simp [hx, hd, h0, pop])

theorem GeoJSONReader.inCoordinates_startObject {ν : Type} {rest0 : List Expected} {g : Int}
    {s s' : GeoJSONReader ν} (hi : InCoordinates rest0 g s)
    (h : s.handle Event.startObject = (true, s')) : InCoordinates rest0 (g + 1) s' := by
  unfold InCoordinates at hi ⊢
  rcases hi with ⟨hx, hd, h0⟩ | ⟨hx, hd, h0⟩ | ⟨hx, hd, h0⟩ | ⟨hx, hd, h0⟩ <;>
  simp [handle, StartObject, hx, top, fail] at h
  subst h
  simp [hx, hd, h0]

theorem GeoJSONReader.inCoordinates_key {ν : Type} {rest0 : List Expected} {g : Int}
    {s s' : GeoJSONReader ν} (hi : InCoordinates rest0 g s) (k : String)
    (h : s.handle (Event.key k) = (true, s')) : InCoordinates rest0 g s' := by
  unfold InCoordinates at hi ⊢
  rcases hi with ⟨hx, hd, h0⟩ | ⟨hx, hd, h0⟩ | ⟨hx, hd, h0⟩ | ⟨hx, hd, h0⟩ <;>
  simp [handle, Key, hx, top, fail] at h
  subst h
  simp [hx, hd, h0]

theorem GeoJSONReader.inCoordinates_endObject {ν : Type} {rest0 : List Expected} {g : Int}
    {s s' : GeoJSONReader ν} (hg : 1 ≤ g) (hi : InCoordinates rest0 (g + 1) s)
    (h : s.handle Event.endObject = (true, s')) : InCoordinates rest0 g s' := by
  unfold InCoordinates at hi ⊢
  rcases hi with ⟨hx, hd, h0⟩ | ⟨hx, hd, h0⟩ | ⟨hx, hd, h0⟩ | ⟨hx, hd, h0⟩ <;>
  simp [handle, EndObject, endIgnored, hx, top, fail, pop] at h
  all_goals try split_ifs at h
  all_goals try simp only [Prod.mk.injEq, true_and, false_and, Bool.true_eq_false,
      Bool.false_eq_true] at h
  all_goals
    first
    | omega
    | (simp only at *; omega)
    | (subst h; simp [hx, hd, h0, pop])

theorem GeoJSONReader.feed_singleton_ok {ν : Type} {s s' : GeoJSONReader ν} {e : Event ν}
    (h : s.feed [e] = (true, s')) : s.handle e = (true, s') := by
  obtain ⟨s1, h1, h2⟩ := feed_cons_ok h
  simp only [feed, Prod.mk.injEq, true_and] at h2
  rw [h1, h2]

mutual
theorem GeoJSONReader.inCoordinates_value {ν : Type} (v : JSON ν) (rest0 : List Expected)
    (g : Int) (s s' : GeoJSONReader ν) (hg : 1 ≤ g) (hi : InCoordinates rest0 g s)
    (hf : s.feed v.events = (true, s')) : InCoordinates rest0 g s' := by
  cases v with
  | null => exact inCoordinates_scalar hg hi _ (Or.inl rfl) (feed_singleton_ok hf)
  | bool b => exact inCoordinates_scalar hg hi _ (Or.inr (Or.inl ⟨b, rfl⟩)) (feed_singleton_ok hf)
  | num n =>
    exact inCoordinates_scalar hg hi _ (Or.inr (Or.inr (Or.inl ⟨n, rfl⟩))) (feed_singleton_ok hf)
  | str x =>
    exact inCoordinates_scalar hg hi _ (Or.inr (Or.inr (Or.inr ⟨x, rfl⟩))) (feed_singleton_ok hf)
  | arr elements =>
    simp only [JSON.events] at hf
    obtain ⟨s1, h1, h2⟩ := feed_cons_ok hf
    obtain ⟨s2, h3, h4⟩ := feed_append_ok h2
    exact inCoordinates_endArray hg
      (inCoordinates_elements elements rest0 (g + 1) s1 s2 (by omega)
        (inCoordinates_startArray hi h1) h3)
      (feed_singleton_ok h4)
  | obj members =>
    simp only [JSON.events] at hf
    obtain ⟨s1, h1, h2⟩ := feed_cons_ok hf
    obtain ⟨s2, h3, h4⟩ := feed_append_ok h2
    exact inCoordinates_endObject hg
      (inCoordinates_members members rest0 (g + 1) s1 s2 (by omega)
        (inCoordinates_startObject hi h1) h3)
      (feed_singleton_ok h4)
theorem GeoJSONReader.inCoordinates_elements {ν : Type} (vs : List (JSON ν))
    (rest0 : List Expected) (g : Int) (s s' : GeoJSONReader ν) (hg : 1 ≤ g)
    (hi : InCoordinates rest0 g s) (hf : s.feed (JSON.elementEvents vs) = (true, s')) :
    InCoordinates rest0 g s' := by
  cases vs with
  | nil =>
    simp only [JSON.elementEvents, feed, Prod.mk.injEq, true_and] at hf
    exact hf ▸ hi
  | cons v vs =>
    simp only [JSON.elementEvents] at hf
    obtain ⟨s1, h1, h2⟩ := feed_append_ok hf
    exact inCoordinates_elements vs rest0 g s1 s' hg
      (inCoordinates_value v rest0 g s s1 hg hi h1) h2
theorem GeoJSONReader.inCoordinates_members {ν : Type} (ms : List (String × JSON ν))
    (rest0 : List Expected) (g : Int) (s s' : GeoJSONReader ν) (hg : 1 ≤ g)
    (hi : InCoordinates rest0 g s) (hf : s.feed (JSON.memberEvents ms) = (true, s')) :
    InCoordinates rest0 g s' := by
  cases ms with
  | nil =>
    simp only [JSON.memberEvents, feed, Prod.mk.injEq, true_and] at hf
    exact hf ▸ hi
  | cons m ms =>
    obtain ⟨k, v⟩ := m
    simp only [JSON.memberEvents] at hf
    obtain ⟨s1, h1, h2⟩ := feed_cons_ok hf
    obtain ⟨s2, h3, h4⟩ := feed_append_ok h2
    exact inCoordinates_members ms rest0 g s2 s' hg
      (inCoordinates_value v rest0 g s1 s2 hg (inCoordinates_key hi k h1) h3) h4
end

/-- A coordinates value that is an array, read on top of the frame stack
`rest0`: when every event is accepted, the reader is back between two members -
the array was decoded, or demoted and skipped to its end. -/
theorem GeoJSONReader.atBoundary_after_array {ν : Type} (elements : List (JSON ν))
    (rest0 : List Expected) (s s' : GeoJSONReader ν)
    (hx : s.expect = Expected.GeometryCoordinates :: rest0) (hd : s.geometryDepth = 0)
    (h0 : s.ignoredDepth = 0) (hf : s.feed (JSON.arr elements).events = (true, s')) :
    AtBoundary rest0 s' := by
  simp only [JSON.events] at hf
  obtain ⟨s1, h1, h2⟩ := feed_cons_ok hf
  obtain ⟨s2, h3, h4⟩ := feed_append_ok h2
  have hi : InCoordinates rest0 0 s := Or.inl ⟨hx, hd, h0⟩
  have hi1 : InCoordinates rest0 1 s1 := by simpa using inCoordinates_startArray hi h1
  exact inCoordinates_endArray_top
    (inCoordinates_elements elements rest0 1 s1 s2 (le_refl 1) hi1 h3) (feed_singleton_ok h4)

theorem GeoJSONReader.feed_value_after_ignored_pushed {ν : Type} (v : JSON ν)
    (s : GeoJSONReader ν) (h0 : s.ignoredDepth = 0) :
    ({ s with expect := Expected.Ignored :: s.expect } : GeoJSONReader ν).feed v.events
      = (true, s) := by
  rw [feed_ignored_value v { s with expect := Expected.Ignored :: s.expect } rfl
    (by show 0 ≤ s.ignoredDepth; omega)]
  cases s
  simp_all [popIfDone, pop]

theorem GeoJSONReader.atBoundary_geometryTypeString {ν : Type} {rest : List Expected}
    {s s' : GeoJSONReader ν} (hb : AtBoundary rest s) (x : String)
    (h : ({ s with expect := Expected.GeometryType :: s.expect } : GeoJSONReader ν).handle
      (Event.string x) = (true, s')) : AtBoundary rest s' := by
  obtain ⟨hx, h0, hd⟩ := hb
  unfold AtBoundary
  simp only [handle, String_, top, geometryTypeString, setGeometryType, fail] at h
  split_ifs at h <;>
    simp only [Prod.mk.injEq, true_and, false_and, Bool.true_eq_false, Bool.false_eq_true] at h <;>
    (subst h; simp [hx, hd, h0, pop])

theorem GeoJSONReader.atBoundary_rootTypeString {ν : Type} {rest : List Expected}
    {s s' : GeoJSONReader ν} (hb : AtBoundary rest s) (x : String)
    (h : ({ s with expect := Expected.Type_ :: s.expect } : GeoJSONReader ν).handle
      (Event.string x) = (true, s')) : AtBoundary rest s' := by
  obtain ⟨hx, h0, hd⟩ := hb
  unfold AtBoundary
  simp only [handle, String_, top, rootTypeString, setRootAndGeometryType, setRootType,
    setGeometryType, fail] at h
  split_ifs at h <;>
    simp only [Prod.mk.injEq, true_and, false_and, Bool.true_eq_false, Bool.false_eq_true] at h <;>
    (subst h; simp [hx, hd, h0, pop])

theorem GeoJSONReader.atBoundary_after_ignored_pushed {ν : Type} {rest : List Expected}
    {s s' : GeoJSONReader ν} (hb : AtBoundary rest s) (v : JSON ν)
    (hf : ({ s with expect := Expected.Ignored :: s.expect } : GeoJSONReader ν).feed v.events
      = (true, s')) : AtBoundary rest s' := by
  rw [feed_value_after_ignored_pushed v s hb.2.1] at hf
  simp only [Prod.mk.injEq, true_and] at hf
  exact hf ▸ hb

theorem GeoJSONReader.parseGeometryCoordinates_cases {ν : Type} (s : GeoJSONReader ν) :
    s.parseGeometryCoordinates = { s with expect := Expected.Ignored :: s.expect } ∨
    (s.parseGeometryCoordinates.expect = Expected.GeometryCoordinates :: s.expect ∧
      s.parseGeometryCoordinates.geometryDepth = s.geometryDepth ∧
      s.parseGeometryCoordinates.ignoredDepth = s.ignoredDepth) := by
  unfold parseGeometryCoordinates
  split <;> simp

theorem GeoJSONReader.parseRootCoordinates_cases {ν : Type} (s : GeoJSONReader ν) :
    s.parseRootCoordinates = { s with expect := Expected.Ignored :: s.expect } ∨
    (s.parseRootCoordinates.expect = Expected.GeometryCoordinates :: s.expect ∧
      s.parseRootCoordinates.geometryDepth = s.geometryDepth ∧
      s.parseRootCoordinates.ignoredDepth = s.ignoredDepth) := by
  unfold parseRootCoordinates
  split <;> simp

theorem GeoJSONReader.parseGeometry_cases {ν : Type} (s : GeoJSONReader ν) :
    s.parseGeometry = { s with expect := Expected.Ignored :: s.expect } ∨
    (s.parseGeometry.expect = Expected.Geometry :: s.expect ∧
      s.parseGeometry.geometryDepth = s.geometryDepth ∧
      s.parseGeometry.ignoredDepth = s.ignoredDepth) := by
  unfold parseGeometry
  split <;> simp

/-- A well-typed member of a geometry object leaves the reader between two
members of that object (when all its events are accepted). -/
theorem GeoJSONReader.atBoundary_geometryMember {ν : Type} {rest : List Expected}
    {s s' : GeoJSONReader ν} (hb : AtBoundary (Expected.Geometry :: rest) s) (k : String)
    (v : JSON ν) (hw : wellTypedGeometryMember (k, v) = true)
    (hf : s.feed (Event.key k :: v.events) = (true, s')) :
    AtBoundary (Expected.Geometry :: rest) s' := by
  obtain ⟨s1, h1, h2⟩ := feed_cons_ok hf
  have htop : top s.expect = Expected.Geometry := by rw [hb.1]; rfl
  simp only [handle, Key, htop] at h1
  by_cases hk1 : k = "type"
  · rw [if_pos hk1] at h1
    simp only [Prod.mk.injEq, true_and] at h1
    subst h1
    cases v <;> simp [wellTypedGeometryMember, JSON.isStr, hk1] at hw
    exact atBoundary_geometryTypeString hb _ (feed_singleton_ok h2)
  · by_cases hk2 : k = "coordinates"
    · rw [if_neg hk1, if_pos hk2] at h1
      simp only [Prod.mk.injEq, true_and] at h1
      subst h1
      cases v <;> simp [wellTypedGeometryMember, JSON.isArr, hk2] at hw
      rename_i elements
      rcases parseGeometryCoordinates_cases s with hc | ⟨hc1, hc2, hc3⟩
      · rw [hc] at h2
        exact atBoundary_after_ignored_pushed hb _ h2
      · exact atBoundary_after_array elements (Expected.Geometry :: rest) _ s'
          (by rw [hc1, hb.1]) (by rw [hc2, hb.2.2]) (by rw [hc3, hb.2.1]) h2
    · rw [if_neg hk1, if_neg hk2] at h1
      simp only [Prod.mk.injEq, true_and] at h1
      subst h1
      exact atBoundary_after_ignored_pushed hb _ h2

theorem GeoJSONReader.atBoundary_geometryMembers {ν : Type} {rest : List Expected}
    (ms : List (String × JSON ν)) {s s' : GeoJSONReader ν}
    (hb : AtBoundary (Expected.Geometry :: rest) s)
    (hw : ms.all wellTypedGeometryMember = true)
    (hf : s.feed (JSON.memberEvents ms) = (true, s')) :
    AtBoundary (Expected.Geometry :: rest) s' := by
  induction ms generalizing s with
  | nil =>
    simp only [JSON.memberEvents, feed, Prod.mk.injEq, true_and] at hf
    exact hf ▸ hb
  | cons m ms ih =>
    obtain ⟨k, v⟩ := m
    simp only [List.all_cons, Bool.and_eq_true] at hw
    simp only [JSON.memberEvents] at hf
    have hf2 : s.feed ((Event.key k :: v.events) ++ JSON.memberEvents ms) = (true, s') := by
      simpa using hf
    obtain ⟨s1, h1, h2⟩ := feed_append_ok hf2
    exact ih (atBoundary_geometryMember hb k v hw.1 h1) hw.2 h2

theorem GeoJSONReader.atBoundary_endGeometryObject {ν : Type} {rest : List Expected}
    {s s' : GeoJSONReader ν} (hb : AtBoundary (Expected.Geometry :: rest) s)
    (h : s.handle Event.endObject = (true, s')) : AtBoundary rest s' := by
  obtain ⟨hx, h0, hd⟩ := hb
  unfold AtBoundary
  simp only [handle, EndObject, hx, top, endGeometryObject, fail, pop] at h
  split at h <;> (try split at h) <;>
    simp only [Prod.mk.injEq, true_and, false_and, Bool.true_eq_false, Bool.false_eq_true] at h <;>
    (subst h; simp [hd, h0])

/-- A nested geometry object with well-typed members, read under a `Geometry`
frame, leaves the reader between two members of the enclosing object (when
all its events are accepted). -/
theorem GeoJSONReader.atBoundary_geometryObject {ν : Type} {rest : List Expected}
    (ms : List (String × JSON ν)) {s s' : GeoJSONReader ν}
    (hb : AtBoundary (Expected.Geometry :: rest) s)
    (hw : ms.all wellTypedGeometryMember = true)
    (hf : s.feed (JSON.obj ms).events = (true, s')) : AtBoundary rest s' := by
  simp only [JSON.events] at hf
  obtain ⟨s1, h1, h2⟩ := feed_cons_ok hf
  obtain ⟨s2, h3, h4⟩ := feed_append_ok h2
  have htop : top s.expect = Expected.Geometry := by rw [hb.1]; rfl
  simp only [handle, StartObject, htop, Prod.mk.injEq, true_and] at h1
  subst h1
  exact atBoundary_endGeometryObject (atBoundary_geometryMembers ms hb hw h3)
    (feed_singleton_ok h4)

/-- A well-typed member of the root object leaves the reader between two members
of the root object (when all its events are accepted). -/
theorem GeoJSONReader.atBoundary_rootMember {ν : Type} {rest : List Expected}
    {s s' : GeoJSONReader ν} (hb : AtBoundary (Expected.Root :: rest) s) (k : String)
    (v : JSON ν) (hw : wellTypedRootMember (k, v) = true)
    (hf : s.feed (Event.key k :: v.events) = (true, s')) :
    AtBoundary (Expected.Root :: rest) s' := by
  obtain ⟨s1, h1, h2⟩ := feed_cons_ok hf
  have htop : top s.expect = Expected.Root := by rw [hb.1]; rfl
  simp only [handle, Key, htop] at h1
  by_cases hk1 : k = "type"
  · rw [if_pos hk1] at h1
    simp only [Prod.mk.injEq, true_and] at h1
    subst h1
    cases v <;> simp [wellTypedRootMember, JSON.isStr, hk1] at hw
    exact atBoundary_rootTypeString hb _ (feed_singleton_ok h2)
  · by_cases hk2 : k = "geometry"
    · rw [if_neg hk1, if_pos hk2] at h1
      simp only [Prod.mk.injEq, true_and] at h1
      subst h1
      cases v <;> simp [wellTypedRootMember, hk2] at hw
      rename_i members
      rcases parseGeometry_cases s with hc | ⟨hc1, hc2, hc3⟩
      · rw [hc] at h2
        exact atBoundary_after_ignored_pushed hb _ h2
      · exact atBoundary_geometryObject members
          ⟨by rw [hc1, hb.1], by rw [hc3, hb.2.1], by rw [hc2, hb.2.2]⟩
          (by simpa using hw) h2
    · by_cases hk3 : k = "coordinates"
      · rw [if_neg hk1, if_neg hk2, if_pos hk3] at h1
        simp only [Prod.mk.injEq, true_and] at h1
        subst h1
        cases v <;> simp [wellTypedRootMember, JSON.isArr, hk3] at hw
        rename_i elements
        rcases parseRootCoordinates_cases s with hc | ⟨hc1, hc2, hc3⟩
        · rw [hc] at h2
          exact atBoundary_after_ignored_pushed hb _ h2
        · exact atBoundary_after_array elements (Expected.Root :: rest) _ s'
            (by rw [hc1, hb.1]) (by rw [hc2, hb.2.2]) (by rw [hc3, hb.2.1]) h2
      · rw [if_neg hk1, if_neg hk2, if_neg hk3] at h1
        simp only [Prod.mk.injEq, true_and] at h1
        subst h1
        exact atBoundary_after_ignored_pushed hb _ h2

theorem GeoJSONReader.atBoundary_rootMembers {ν : Type} {rest : List Expected}
    (ms : List (String × JSON ν)) {s s' : GeoJSONReader ν}
    (hb : AtBoundary (Expected.Root :: rest) s)
    (hw : ms.all wellTypedRootMember = true)
    (hf : s.feed (JSON.memberEvents ms) = (true, s')) :
    AtBoundary (Expected.Root :: rest) s' := by
  induction ms generalizing s with
  | nil =>
    simp only [JSON.memberEvents, feed, Prod.mk.injEq, true_and] at hf
    exact hf ▸ hb
  | cons m ms ih =>
    obtain ⟨k, v⟩ := m
    simp only [List.all_cons, Bool.and_eq_true] at hw
    simp only [JSON.memberEvents] at hf
    have hf2 : s.feed ((Event.key k :: v.events) ++ JSON.memberEvents ms) = (true, s') := by
      simpa using hf
    obtain ⟨s1, h1, h2⟩ := feed_append_ok hf2
    exact ih (atBoundary_rootMember hb k v hw.1 h1) hw.2 h2

theorem JSON.memberEvents_append {ν : Type} (a b : List (String × JSON ν)) :
    JSON.memberEvents (a ++ b) = JSON.memberEvents a ++ JSON.memberEvents b := by
  induction a with
  | nil => simp [JSON.memberEvents]
  | cons m a ih =>
    obtain ⟨k, v⟩ := m
    simp [JSON.memberEvents, ih]

/-- A member with an unknown key, read between two members of the root object or
of a geometry object, leaves the reader exactly as it was. -/
theorem GeoJSONReader.feed_unknown_member {ν : Type} (s : GeoJSONReader ν) (k : String)
    (v : JSON ν) (tail : List (Event ν))
    (hk : k ≠ "type" ∧ k ≠ "geometry" ∧ k ≠ "coordinates")
    (htop : top s.expect = Expected.Root ∨ top s.expect = Expected.Geometry)
    (h0 : s.ignoredDepth = 0) :
    s.feed (Event.key k :: (v.events ++ tail)) = s.feed tail := by
  have hkey : s.handle (Event.key k) = (true, { s with expect := Expected.Ignored :: s.expect }) := by
    rcases htop with ht | ht <;> simp [handle, Key, ht, hk.1, hk.2.1, hk.2.2]
  rw [feed_cons, hkey]
  simp only [if_true]
  rw [feed_append, feed_value_after_ignored_pushed v s h0]
  simp

theorem GeoJSONReader.atBoundary_init_startObject {ν : Type} (x0 : ν) :
    (init x0).handle Event.startObject = (true, init x0) ∧ AtBoundary [Expected.Root] (init x0) :=
  ⟨rfl, rfl, rfl, rfl⟩

/-- The events up to a position among the members of the root object: either
some event was rejected, or the reader is between two members of the root. -/
theorem GeoJSONReader.root_start {ν : Type} (x0 : ν) (r1 : List (String × JSON ν))
    (hr : r1.all wellTypedRootMember = true) :
    ((init x0).feed (Event.startObject :: JSON.memberEvents r1)).1 = false ∨
    ∃ s, (init x0).feed (Event.startObject :: JSON.memberEvents r1) = (true, s) ∧
      AtBoundary [Expected.Root] s := by
  rcases hf : (init x0).feed (Event.startObject :: JSON.memberEvents r1) with ⟨ok, s⟩
  cases ok
  · exact Or.inl rfl
  · refine Or.inr ⟨s, rfl, ?_⟩
    obtain ⟨s1, h1, h2⟩ := feed_cons_ok hf
    rw [(atBoundary_init_startObject x0).1] at h1
    simp only [Prod.mk.injEq, true_and] at h1
    subst h1
    exact atBoundary_rootMembers r1 (atBoundary_init_startObject x0).2 hr h2

theorem GeoJSONReader.feed_root_insertion {ν : Type} (x0 : ν) (k : String) (v : JSON ν)
    (r1 r2 : List (String × JSON ν))
    (hk : k ≠ "type" ∧ k ≠ "geometry" ∧ k ≠ "coordinates")
    (hr : r1.all wellTypedRootMember = true) :
    (init x0).feed (JSON.obj (r1 ++ (k, v) :: r2)).events =
      (init x0).feed (JSON.obj (r1 ++ r2)).events := by
  have e1 : (JSON.obj (r1 ++ (k, v) :: r2)).events =
      (Event.startObject :: JSON.memberEvents r1) ++
        (Event.key k :: (v.events ++ (JSON.memberEvents r2 ++ [Event.endObject]))) := by
    simp [JSON.events, JSON.memberEvents_append, JSON.memberEvents]
  have e2 : (JSON.obj (r1 ++ r2)).events =
      (Event.startObject :: JSON.memberEvents r1) ++
        (JSON.memberEvents r2 ++ [Event.endObject]) := by
    simp [JSON.events, JSON.memberEvents_append]
  rw [e1, e2, feed_append, feed_append (init x0) (Event.startObject :: JSON.memberEvents r1)]
  rcases root_start x0 r1 hr with hfail | ⟨s, hs, hb⟩
  · simp [hfail]
  · rw [hs]
    simp only [if_true]
    exact feed_unknown_member s k v _ hk (Or.inl (by rw [hb.1]; rfl)) hb.2.1

/-- Inside a nested geometry object read under a `Geometry` frame: an unknown
member inserted after the well-typed members `g1` changes nothing. -/
theorem GeoJSONReader.feed_geometry_insertion {ν : Type} (s : GeoJSONReader ν)
    (rest : List Expected) (k : String) (v : JSON ν) (g1 g2 : List (String × JSON ν))
    (tail : List (Event ν)) (hk : k ≠ "type" ∧ k ≠ "geometry" ∧ k ≠ "coordinates")
    (hg : g1.all wellTypedGeometryMember = true)
    (hb : AtBoundary (Expected.Geometry :: rest) s) :
    s.feed ((JSON.obj (g1 ++ (k, v) :: g2)).events ++ tail) =
      s.feed ((JSON.obj (g1 ++ g2)).events ++ tail) := by
  have e1 : (JSON.obj (g1 ++ (k, v) :: g2)).events ++ tail =
      (Event.startObject :: JSON.memberEvents g1) ++
        (Event.key k :: (v.events ++ (JSON.memberEvents g2 ++ (Event.endObject :: tail)))) := by
    simp [JSON.events, JSON.memberEvents_append, JSON.memberEvents]
  have e2 : (JSON.obj (g1 ++ g2)).events ++ tail =
      (Event.startObject :: JSON.memberEvents g1) ++
        (JSON.memberEvents g2 ++ (Event.endObject :: tail)) := by
    simp [JSON.events, JSON.memberEvents_append]
  rw [e1, e2, feed_append, feed_append s (Event.startObject :: JSON.memberEvents g1)]
  rcases hf : s.feed (Event.startObject :: JSON.memberEvents g1) with ⟨ok, s2⟩
  cases ok
  · simp
  · simp only [if_true]
    obtain ⟨s1, h1, h2⟩ := feed_cons_ok hf
    have htop : top s.expect = Expected.Geometry := by rw [hb.1]; rfl
    simp only [handle, StartObject, htop, Prod.mk.injEq, true_and] at h1
    subst h1
    have hb2 := atBoundary_geometryMembers g1 hb hg h2
    exact feed_unknown_member s2 k v _ hk (Or.inr (by rw [hb2.1]; rfl)) hb2.2.1

theorem GeoJSONReader.feed_nested_insertion {ν : Type} (x0 : ν) (k : String) (v : JSON ν)
    (r1 r2 g1 g2 : List (String × JSON ν))
    (hk : k ≠ "type" ∧ k ≠ "geometry" ∧ k ≠ "coordinates")
    (hr : r1.all wellTypedRootMember = true)
    (hg : g1.all wellTypedGeometryMember = true) :
    (init x0).feed (JSON.obj (r1 ++ ("geometry", JSON.obj (g1 ++ (k, v) :: g2)) :: r2)).events =
      (init x0).feed (JSON.obj (r1 ++ ("geometry", JSON.obj (g1 ++ g2)) :: r2)).events := by
  have e : ∀ g : JSON ν, (JSON.obj (r1 ++ ("geometry", g) :: r2)).events =
      (Event.startObject :: JSON.memberEvents r1) ++
        (Event.key "geometry" :: (g.events ++ (JSON.memberEvents r2 ++ [Event.endObject]))) := by
    intro g
    simp [JSON.events, JSON.memberEvents_append, JSON.memberEvents]
  rw [e, e, feed_append, feed_append (init x0) (Event.startObject :: JSON.memberEvents r1)]
  rcases root_start x0 r1 hr with hfail | ⟨s, hs, hb⟩
  · simp [hfail]
  · rw [hs]
    simp only [if_true]
    have hkey : s.handle (Event.key "geometry") = (true, s.parseGeometry) := by
      simp [handle, Key, hb.1, top]
    rw [feed_cons, feed_cons s, hkey]
    simp only [if_true]
    rcases parseGeometry_cases s with hc | ⟨hc1, hc2, hc3⟩
    · rw [hc, feed_append, feed_append _ (JSON.obj (g1 ++ g2)).events,
        feed_value_after_ignored_pushed _ s hb.2.1, feed_value_after_ignored_pushed _ s hb.2.1]
    · exact feed_geometry_insertion _ [Expected.Root] k v g1 g2 _ hk hg
        ⟨by rw [hc1, hb.1], by rw [hc3, hb.2.1], by rw [hc2, hb.2.2]⟩

/-- C7: unknown keys never affect the result. For every key `k` other than
`type`, `geometry` and `coordinates` and every well-formed JSON value `v`,
inserting the member `k: v` at any position among the members of the root
object, or of the root's nested geometry object, gives the same decode result
(same features, same error message if any) as the document without it. The
document is any JSON object in which the members ahead of the insertion point
are well typed in the GeoJSON sense: `type` holds a string, `coordinates` an
array and `geometry` an object - as in every valid GeoJSON document. -/
theorem C7_unknown_member_never_affects_result {ν : Type} (x0 : ν) (k : String) (v : JSON ν)
    (r1 r2 g1 g2 : List (String × JSON ν)) (json1 json2 : List Char) (msg : String)
    (off1 off2 : Nat → Nat)
    (hk : k ≠ "type" ∧ k ≠ "geometry" ∧ k ≠ "coordinates")
    (hr : r1.all wellTypedRootMember = true)
    (hg : g1.all wellTypedGeometryMember = true) :
    GeoJSON.sameResult
      (decode x0 (.obj (r1 ++ (k, v) :: r2)) json1 msg off1)
      (decode x0 (.obj (r1 ++ r2)) json2 msg off2) ∧
    GeoJSON.sameResult
      (decode x0 (.obj (r1 ++ ("geometry", .obj (g1 ++ (k, v) :: g2)) :: r2)) json1 msg off1)
      (decode x0 (.obj (r1 ++ ("geometry", .obj (g1 ++ g2)) :: r2)) json2 msg off2) :=
  ⟨sameResult_new_of_feed_eq x0 json1 json2 _ _ msg off1 off2
      (feed_root_insertion x0 k v r1 r2 hk hr),
    sameResult_new_of_feed_eq x0 json1 json2 _ _ msg off1 off2
      (feed_nested_insertion x0 k v r1 r2 g1 g2 hk hr hg)⟩

/-- C7, witness: a `properties` member with a nested value, inserted into a Point
Feature after the root `type` and, in the geometry object, after its `type`. -/
theorem C7_witness_properties_member :
    ("properties" ≠ "type" ∧ "properties" ≠ "geometry" ∧ "properties" ≠ "coordinates") ∧
    ([("type", JSON.str "Feature")] : List (String × JSON Int)).all wellTypedRootMember = true ∧
    ([("type", JSON.str "Point")] : List (String × JSON Int)).all wellTypedGeometryMember = true ∧
    GeoJSON.sameResult
      (decode (0 : Int) (.obj ([("type", .str "Feature")] ++
        ("properties", .obj [("name", .str "x"), ("tags", .arr [.null, .bool true])]) ::
        [("geometry", .obj [("type", .str "Point"), ("coordinates", .point (1, 2))])]))
        [] "" (fun _ => 0))
      (decode (0 : Int) (.obj ([("type", .str "Feature")] ++
        [("geometry", .obj [("type", .str "Point"), ("coordinates", .point (1, 2))])]))
        [] "" (fun _ => 0)) ∧
    GeoJSON.sameResult
      (decode (0 : Int) (.obj ([("type", .str "Feature")] ++
        ("geometry", .obj ([("type", .str "Point")] ++
          ("properties", .obj [("name", .str "x"), ("tags", .arr [.null, .bool true])]) ::
          [("coordinates", .point (1, 2))])) :: []))
        [] "" (fun _ => 0))
      (decode (0 : Int) (.obj ([("type", .str "Feature")] ++
        ("geometry", .obj ([("type", .str "Point")] ++
          [("coordinates", .point (1, 2))])) :: []))
        [] "" (fun _ => 0)) :=
  ⟨by decide, by decide, by decide,
    C7_unknown_member_never_affects_result (0 : Int) "properties"
      (.obj [("name", .str "x"), ("tags", .arr [.null, .bool true])])
      [("type", .str "Feature")]
      [("geometry", .obj [("type", .str "Point"), ("coordinates", .point (1, 2))])]
      [("type", .str "Point")] [("coordinates", .point (1, 2))] [] [] "" (fun _ => 0)
      (fun _ => 0) (by decide) (by decide) (by decide)⟩

/-! ## C11: a type keyword read after the coordinates value -/

theorem decode_of_rejected_with {ν : Type} (x0 : ν) (doc : JSON ν) (json : List Char)
    (msg : String) (off : Nat → Nat) (s : GeoJSONReader ν)
    (h : (init x0).feed doc.events = (false, s)) (he : s.error.1 ≠ Expected.None) :
    decode x0 doc json msg off =
      ⟨some ⟨"Expected " ++ s.error.1.describe ++ ", but got " ++ s.error.2.describe ++ " instead.",
        (offsetToRowAndCol json (off ((init x0).accepted doc.events))).1,
        (offsetToRowAndCol json (off ((init x0).accepted doc.events))).2⟩, []⟩ := by
  have := new_of_rejected_start x0 json doc.events [] none msg off s h he
  simpa [decode, Tokenizer.ofDocument] using this

theorem coordinatesFirst_rejected_error {ν : Type} (x0 : ν) (t : GeometryType)
    (v : LeadingCoordinates ν) (ht : t.isGeometry = true)
    (hd : getExpectedGeometryDepth t ≠ v.depth) :
    ∃ s : GeoJSONReader ν,
      (init x0).feed (JSON.obj [("coordinates", v.toJSON), ("type", .str t.keyword)]).events
        = (false, s) ∧
      s.error = (getExpectedGeometryDepthInt v.depth, getActualGeometryType t) ∧
      s.geometryType = GeometryType.None := by
  by_cases hv : v.depth = 1
  · cases v <;> cases t <;>
      first
      | exact absurd ht (by decide)
      | exact absurd rfl hd
      | (simp [LeadingCoordinates.depth] at hv; done)
      | exact ⟨_, rfl, rfl, rfl⟩
  · rw [events_coordinatesFirst, v.toJSON_events,
      feed_split _ _ _ _ _ _ _ (coordinatesFirst_start x0 v hv)
        (feed_rest x0 RootType.None true v hv (Or.inl rfl))]
    cases v <;> cases t <;>
      first
      | exact absurd ht (by decide)
      | exact absurd rfl hd
      | exact ⟨_, rfl, rfl, rfl⟩

/-- C11: a geometry type keyword read when the deduced depth is already `d`
(between 1 and 4) is accepted exactly when its required depth is `d`; it then
becomes the geometry type. Otherwise the handler rejects it, records as expected
the keywords of depth `d` and as actual the keyword read, and leaves the stored
geometry type as it was. For a document with `coordinates` before `type`, the
decode yields the Feature when the depths agree and else fails with the message
naming the keywords of the depth of the value and the keyword read. -/
theorem C11_type_after_coordinates_is_checked_against_depth {ν : Type} (x0 : ν)
    (s : GeoJSONReader ν) (t : GeometryType) (v : LeadingCoordinates ν) (json : List Char)
    (msg : String) (off : Nat → Nat) (ht : t.isGeometry = true)
    (hd1 : 1 ≤ s.deducedGeometryDepth) (hd4 : s.deducedGeometryDepth ≤ 4)
    (htop : top s.expect = Expected.Type_ ∨ top s.expect = Expected.GeometryType) :
    (((s.handle (.string t.keyword)).1 = true ↔
        getExpectedGeometryDepth t = s.deducedGeometryDepth) ∧
      (getExpectedGeometryDepth t = s.deducedGeometryDepth →
        (s.handle (.string t.keyword)).2.geometryType = t) ∧
      (getExpectedGeometryDepth t ≠ s.deducedGeometryDepth →
        (s.handle (.string t.keyword)).2.error =
          (getExpectedGeometryDepthInt s.deducedGeometryDepth, getActualGeometryType t) ∧
        (s.handle (.string t.keyword)).2.geometryType = s.geometryType)) ∧
    ((getExpectedGeometryDepthInt s.deducedGeometryDepth).describe ∈
        ["'Point'", "'LineString', or 'MultiPoint'", "'Polygon', or 'MultiLineString'",
          "'MultiPolygon'"] ∧
      (getExpectedGeometryDepthInt 1).describe = "'Point'" ∧
      (getExpectedGeometryDepthInt 2).describe = "'LineString', or 'MultiPoint'" ∧
      (getExpectedGeometryDepthInt 3).describe = "'Polygon', or 'MultiLineString'" ∧
      (getExpectedGeometryDepthInt 4).describe = "'MultiPolygon'" ∧
      (getActualGeometryType t).describe = "'" ++ t.keyword ++ "'") ∧
    (if getExpectedGeometryDepth t = v.depth then
      decode x0 (.obj [("coordinates", v.toJSON), ("type", .str t.keyword)]) json msg off
        = ⟨none, [⟨geometryOf t v.ringList⟩]⟩
     else
      (decode x0 (.obj [("coordinates", v.toJSON), ("type", .str t.keyword)]) json msg
          off).error.map Error.message =
        some ("Expected " ++ (getExpectedGeometryDepthInt v.depth).describe ++ ", but got " ++
          (getActualGeometryType t).describe ++ " instead.") ∧
      (decode x0 (.obj [("coordinates", v.toJSON), ("type", .str t.keyword)]) json msg
          off).features = []) := by
  have hpos : s.deducedGeometryDepth > 0 := by omega
  refine ⟨?_, ?_, ?_⟩
  · rcases htop with htop | htop <;> cases t <;>
      first
      | exact absurd ht (by decide)
      | (by_cases hq : s.deducedGeometryDepth = 1 <;>
          by_cases hq2 : s.deducedGeometryDepth = 2 <;>
          by_cases hq3 : s.deducedGeometryDepth = 3 <;>
          by_cases hq4 : s.deducedGeometryDepth = 4 <;>
          simp [handle, String_, htop, rootTypeString, geometryTypeString, setRootAndGeometryType,
            setRootType, setGeometryType, GeometryType.keyword, getExpectedGeometryDepth, fail,
            hpos, hq, hq2, hq3, hq4, eq_comm] )
  · have hcases : s.deducedGeometryDepth = 1 ∨ s.deducedGeometryDepth = 2 ∨
        s.deducedGeometryDepth = 3 ∨ s.deducedGeometryDepth = 4 := by omega
    refine ⟨?_, rfl, rfl, rfl, rfl, ?_⟩
    · rcases hcases with h | h | h | h <;> rw [h] <;> decide
    · cases t <;> first | exact absurd ht (by decide) | rfl
  · split
    · rename_i hd
      exact coordinatesFirst_accepted x0 t v json msg off ht hd
    · rename_i hd
      obtain ⟨s1, hs1, herr, -⟩ := coordinatesFirst_rejected_error x0 t v ht hd
      have hne : s1.error.1 ≠ Expected.None := by
        rw [herr]
        cases v <;> exact fun h => Expected.noConfusion h
      rw [decode_of_rejected_with x0 _ json msg off s1 hs1 hne, herr]
      exact ⟨rfl, rfl⟩

/-- C11, witness: after the value `[[1, 2], [3, 4]]` has fixed the depth 2, the
keyword `Polygon` is rejected and the keyword `LineString` accepted. -/
theorem C11_witness_depth_two :
    GeometryType.Polygon.isGeometry = true ∧
    (decode (0 : Int) (.obj [("coordinates", .arr [.arr [.num 1, .num 2], .arr [.num 3, .num 4]]),
        ("type", .str "Polygon")]) [] "" (fun _ => 0)).error.map Error.message =
      some "Expected 'LineString', or 'MultiPoint', but got 'Polygon' instead." :=
  ⟨rfl, (C11_type_after_coordinates_is_checked_against_depth (0 : Int)
    { init (0 : Int) with expect := [Expected.Type_, Expected.Root], deducedGeometryDepth := 2 }
    GeometryType.Polygon (LeadingCoordinates.points (1, 2) [(3, 4)]) [] "" (fun _ => 0) rfl
    (by decide) (by decide) (Or.inl rfl)).2.2.1⟩

/-! ## C12: a coordinates value read after the type keyword -/

theorem typeFirst_rejected_at {ν : Type} (x0 : ν) (t : GeometryType) (v : LeadingCoordinates ν)
    (ht : t.isGeometry = true) (hd : getExpectedGeometryDepth t ≠ v.depth) :
    ∃ s : GeoJSONReader ν,
      (init x0).feed ([Event.startObject, .key "type", .string t.keyword, .key "coordinates"] ++
        v.firstPointEvents) = (false, s) ∧
      s.error = (if getExpectedGeometryDepth t < v.depth
        then (Expected.FirstGeometryCoordinate, Actual.Array)
        else (Expected.GeometryCoordinates, Actual.Number)) ∧
      (init x0).accepted ([Event.startObject, .key "type", .string t.keyword,
        .key "coordinates"] ++ v.firstPointEvents) =
          (min (getExpectedGeometryDepth t) v.depth).toNat + 4 := by
  cases v <;> cases t <;>
    first
    | exact absurd ht (by decide)
    | exact absurd rfl hd
    | exact ⟨_, rfl, rfl, rfl⟩

/-- C12: with a geometry type of required depth `d` declared, the reader
expecting a coordinates array rejects an array opened at depth `d + 1` (expected
a coordinate, got an array) and a number met at a depth below `d` (expected a
coordinate array, got a number). A document with `type` first and a coordinates
value nested uniformly to another depth fails at that token: at the array
opened at depth `d + 1` when the value is deeper, at the first number when it is
shallower. -/
theorem C12_coordinates_after_type_are_checked_against_depth {ν : Type} (x0 : ν)
    (s : GeoJSONReader ν) (n : ν) (t : GeometryType) (v : LeadingCoordinates ν)
    (json : List Char) (msg : String) (off : Nat → Nat) (ht : t.isGeometry = true)
    (htop : top s.expect = Expected.GeometryCoordinates) (hty : s.geometryType = t)
    (hded : s.deducedGeometryDepth = getExpectedGeometryDepth t) :
    ((s.geometryDepth = getExpectedGeometryDepth t →
        s.handle .startArray =
          (false, { s with geometryDepth := s.geometryDepth + 1
                           error := (Expected.FirstGeometryCoordinate, Actual.Array) })) ∧
      (s.geometryDepth < getExpectedGeometryDepth t →
        s.handle (.number n) =
          (false, { s with error := (Expected.GeometryCoordinates, Actual.Number) }))) ∧
    (getExpectedGeometryDepth t < v.depth →
      decode x0 (.obj [("type", .str t.keyword), ("coordinates", v.toJSON)]) json msg off =
        ⟨some ⟨"Expected a coordinate, but got an array instead.",
          (offsetToRowAndCol json (off ((getExpectedGeometryDepth t).toNat + 4))).1,
          (offsetToRowAndCol json (off ((getExpectedGeometryDepth t).toNat + 4))).2⟩, []⟩) ∧
    (v.depth < getExpectedGeometryDepth t →
      decode x0 (.obj [("type", .str t.keyword), ("coordinates", v.toJSON)]) json msg off =
        ⟨some ⟨"Expected a coordinate array, but got a number instead.",
          (offsetToRowAndCol json (off (v.depth.toNat + 4))).1,
          (offsetToRowAndCol json (off (v.depth.toNat + 4))).2⟩, []⟩) := by
  have hdoc : ∀ hd : getExpectedGeometryDepth t ≠ v.depth,
      decode x0 (.obj [("type", .str t.keyword), ("coordinates", v.toJSON)]) json msg off =
        ⟨some ⟨"Expected " ++ (if getExpectedGeometryDepth t < v.depth
              then (Expected.FirstGeometryCoordinate, Actual.Array)
              else (Expected.GeometryCoordinates, Actual.Number)).1.describe ++ ", but got " ++
            (if getExpectedGeometryDepth t < v.depth
              then (Expected.FirstGeometryCoordinate, Actual.Array)
              else (Expected.GeometryCoordinates, Actual.Number)).2.describe ++ " instead.",
          (offsetToRowAndCol json
            (off ((min (getExpectedGeometryDepth t) v.depth).toNat + 4))).1,
          (offsetToRowAndCol json
            (off ((min (getExpectedGeometryDepth t) v.depth).toNat + 4))).2⟩, []⟩ := by
    intro hd
    obtain ⟨s1, hs1, herr, hacc⟩ := typeFirst_rejected_at x0 t v ht hd
    have hne : s1.error.1 ≠ Expected.None := by
      rw [herr]; split <;> exact fun h => Expected.noConfusion h
    have hev : (JSON.obj [("type", .str t.keyword), ("coordinates", v.toJSON)]).events =
        ([Event.startObject, .key "type", .string t.keyword, .key "coordinates"] ++
          v.firstPointEvents) ++ (v.restEvents ++ [Event.endObject]) := by
      rw [events_typeFirst, v.toJSON_events]; simp
    unfold decode Tokenizer.ofDocument
    rw [hev, new_of_rejected_start x0 json _ _ none msg off s1 hs1 hne, herr, hacc]
  refine ⟨⟨?_, ?_⟩, ?_, ?_⟩
  · intro hg
    have h1 : ¬ (s.geometryDepth + 1 ≤ getExpectedGeometryDepth t) := by omega
    cases t <;>
      first
      | exact absurd ht (by decide)
      | simp_all [handle, StartArray, startCoordinatesArray, fail, getExpectedGeometryDepth]
  · intro hg
    have h0 : getExpectedGeometryDepth t ≠ 0 := by
      cases t <;> first | exact absurd ht (by decide) | decide
    simp [handle, handleNumber, htop, h0, fail, hded, hg]
  · intro hlt
    rw [hdoc (ne_of_lt hlt), if_pos hlt, min_eq_left (le_of_lt hlt)]
    rfl
  · intro hlt
    rw [hdoc (ne_of_gt hlt), if_neg (not_lt.mpr (le_of_lt hlt)), min_eq_right (le_of_lt hlt)]
    rfl

/-- C12, witness: a MultiPoint whose coordinates are nested one level too deep
(test `MultiPointWrongNesting`) fails at the third opening bracket. -/
theorem C12_witness_multipoint_nested_too_deep :
    GeometryType.MultiPoint.isGeometry = true ∧
    decode (0 : Int) (.obj [("type", .str "MultiPoint"),
        ("coordinates", .arr [.arr [.arr [.num 1, .num 2], .arr [.num 3, .num 4]]])])
        [] "" (fun _ => 0) =
      ⟨some ⟨"Expected a coordinate, but got an array instead.", 0, 0⟩, []⟩ :=
  ⟨rfl, (C12_coordinates_after_type_are_checked_against_depth (0 : Int)
    { init (0 : Int) with expect := [Expected.GeometryCoordinates, Expected.Root]
                          geometryType := GeometryType.MultiPoint
                          deducedGeometryDepth := 2 }
    0 GeometryType.MultiPoint (LeadingCoordinates.rings (1, 2) [(3, 4)] []) [] "" (fun _ => 0)
    rfl rfl rfl rfl).2.1 (by decide)⟩

/-! ## C13, C14: missing and excess ordinals of a point -/

/-- C13: a Point object - bare or as the geometry of a Feature, in each order of
`type` and `coordinates` - whose coordinates array closes before any number fails
at that closing bracket with "Expected a coordinate, but got a prematurely
closed array instead.", and one whose array closes after one number fails there
with "Expected a second coordinate, but got a prematurely closed array
instead."; no feature is returned. -/
theorem C13_point_with_missing_ordinal_is_rejected {ν : Type} (x0 a : ν) (json : List Char)
    (msg : String) (off : Nat → Nat) :
    (∀ d ∈ pointObjectsWith (JSON.arr ([] : List (JSON ν))),
      decode x0 d.1 json msg off =
        ⟨some ⟨"Expected a coordinate, but got a prematurely closed array instead.",
          (offsetToRowAndCol json (off (d.2 + 1))).1,
          (offsetToRowAndCol json (off (d.2 + 1))).2⟩, []⟩) ∧
    (∀ d ∈ pointObjectsWith (JSON.arr [.num a]),
      decode x0 d.1 json msg off =
        ⟨some ⟨"Expected a second coordinate, but got a prematurely closed array instead.",
          (offsetToRowAndCol json (off (d.2 + 2))).1,
          (offsetToRowAndCol json (off (d.2 + 2))).2⟩, []⟩) := by
  constructor <;> intro d hd <;> simp only [pointObjectsWith, List.mem_cons, List.mem_singleton,
      List.not_mem_nil, or_false] at hd <;>
    rcases hd with rfl | rfl | rfl | rfl | rfl | rfl <;> rfl

theorem GeoJSONReader.feed_excess {ν : Type} (cs : List ν) (s : GeoJSONReader ν)
    (h : top s.expect = Expected.ExcessGeometryCoordinates) :
    s.feed (JSON.elementEvents (cs.map JSON.num)) = (true, s) := by
  induction cs with
  | nil => rfl
  | cons c cs ih =>
    simp only [List.map_cons, JSON.elementEvents, JSON.events, List.singleton_append]
    rw [feed_cons]
    simp only [handle, handleNumber, h, if_true]
    exact ih

theorem GeoJSONReader.feed_through_excess {ν : Type} (cs : List ν) (s : GeoJSONReader ν)
    (pre suf : List (Event ν)) (h1 : (s.feed pre).1 = true)
    (h2 : top (s.feed pre).2.expect = Expected.ExcessGeometryCoordinates) :
    s.feed (pre ++ (JSON.elementEvents (cs.map JSON.num) ++ suf)) = (s.feed pre).2.feed suf := by
  rw [feed_append, h1]
  simp only [if_true]
  rw [feed_append, feed_excess cs _ h2]
  simp

/-- C14: a Point object - bare or as the geometry of a Feature, in each order of
`type` and `coordinates` - with the coordinates `[a, b, c1, ..., ck]` decodes to
one Feature holding the single point `(a, b)`, whatever the further numbers
`c1..ck` (`k ≥ 0`) are: the same result as for `[a, b]`. -/
theorem C14_excess_ordinals_are_dropped {ν : Type} (x0 a b : ν) (cs : List ν)
    (json : List Char) (msg : String) (off : Nat → Nat) :
    (∀ d ∈ pointObjectsWith (JSON.arr (.num a :: .num b :: cs.map JSON.num)),
      decode x0 d.1 json msg off = ⟨none, [⟨Geometry.Point [(a, b)]⟩]⟩) ∧
    (∀ d ∈ pointObjectsWith (JSON.arr [.num a, .num b]),
      decode x0 d.1 json msg off = ⟨none, [⟨Geometry.Point [(a, b)]⟩]⟩) := by
  constructor
  · intro d hd
    simp only [pointObjectsWith, List.mem_cons, List.mem_singleton, List.not_mem_nil,
      or_false] at hd
    rcases hd with rfl | rfl | rfl | rfl | rfl | rfl <;> apply decode_of_emitted
    · have hev : (JSON.obj [("type", .str "Point"),
          ("coordinates", JSON.arr (.num a :: .num b :: cs.map JSON.num))]).events =
          [Event.startObject, .key "type", .string "Point", .key "coordinates", .startArray,
            .number a, .number b] ++ (JSON.elementEvents (cs.map JSON.num) ++
              [Event.endArray, .endObject]) := by
        simp [JSON.events, JSON.memberEvents, JSON.elementEvents]
      rw [hev, feed_through_excess cs]
      · rfl
      · rfl
      · rfl
    · have hev : (JSON.obj [("coordinates", JSON.arr (.num a :: .num b :: cs.map JSON.num)),
          ("type", .str "Point")]).events =
          [Event.startObject, .key "coordinates", .startArray, .number a, .number b] ++
            (JSON.elementEvents (cs.map JSON.num) ++
              [Event.endArray, .key "type", .string "Point", .endObject]) := by
        simp [JSON.events, JSON.memberEvents, JSON.elementEvents]
      rw [hev, feed_through_excess cs]
      · rfl
      · rfl
      · rfl
    · have hev : (JSON.obj [("type", .str "Feature"), ("geometry", .obj [("type", .str "Point"),
          ("coordinates", JSON.arr (.num a :: .num b :: cs.map JSON.num))])]).events =
          [Event.startObject, .key "type", .string "Feature", .key "geometry", .startObject,
            .key "type", .string "Point", .key "coordinates", .startArray, .number a,
            .number b] ++ (JSON.elementEvents (cs.map JSON.num) ++
              [Event.endArray, .endObject, .endObject]) := by
        simp [JSON.events, JSON.memberEvents, JSON.elementEvents]
      rw [hev, feed_through_excess cs]
      · rfl
      · rfl
      · rfl
    · have hev : (JSON.obj [("type", .str "Feature"), ("geometry", .obj [
          ("coordinates", JSON.arr (.num a :: .num b :: cs.map JSON.num)),
          ("type", .str "Point")])]).events =
          [Event.startObject, .key "type", .string "Feature", .key "geometry", .startObject,
            .key "coordinates", .startArray, .number a, .number b] ++
            (JSON.elementEvents (cs.map JSON.num) ++
              [Event.endArray, .key "type", .string "Point", .endObject, .endObject]) := by
        simp [JSON.events, JSON.memberEvents, JSON.elementEvents]
      rw [hev, feed_through_excess cs]
      · rfl
      · rfl
      · rfl
    · have hev : (JSON.obj [("geometry", .obj [("type", .str "Point"),
          ("coordinates", JSON.arr (.num a :: .num b :: cs.map JSON.num))]),
          ("type", .str "Feature")]).events =
          [Event.startObject, .key "geometry", .startObject, .key "type", .string "Point",
            .key "coordinates", .startArray, .number a, .number b] ++
            (JSON.elementEvents (cs.map JSON.num) ++
              [Event.endArray, .endObject, .key "type", .string "Feature", .endObject]) := by
        simp [JSON.events, JSON.memberEvents, JSON.elementEvents]
      rw [hev, feed_through_excess cs]
      · rfl
      · rfl
      · rfl
    · have hev : (JSON.obj [("geometry", .obj [
          ("coordinates", JSON.arr (.num a :: .num b :: cs.map JSON.num)),
          ("type", .str "Point")]), ("type", .str "Feature")]).events =
          [Event.startObject, .key "geometry", .startObject, .key "coordinates", .startArray,
            .number a, .number b] ++ (JSON.elementEvents (cs.map JSON.num) ++
              [Event.endArray, .key "type", .string "Point", .endObject, .key "type",
                .string "Feature", .endObject]) := by
        simp [JSON.events, JSON.memberEvents, JSON.elementEvents]
      rw [hev, feed_through_excess cs]
      · rfl
      · rfl
      · rfl
  · intro d hd
    simp only [pointObjectsWith, List.mem_cons, List.mem_singleton, List.not_mem_nil,
      or_false] at hd
    rcases hd with rfl | rfl | rfl | rfl | rfl | rfl <;> rfl

/-! ## C15: a root object without `type` -/

/-- C15, code defect: the root object `{"coordinates": "<str>"}` has no `type`
member, no event of it is rejected, and yet the decode reports no error (and no
feature): the string turns the `GeometryCoordinates` frame into an `Ignored`
frame that stays on the stack, the closing brace of the root object is consumed
by that frame, and `endRootObject` never runs. With a number array as the
coordinates value the same object fails at its closing brace with "Expected a
key 'type' in the root object, but got a prematurely closed object instead.". -/
theorem C15_root_without_type_after_string_coordinates_is_accepted {ν : Type} (x0 a b : ν)
    (str : String) (json : List Char) (msg : String) (off : Nat → Nat) :
    decode x0 (.obj [("coordinates", .str str)]) json msg off = ⟨none, []⟩ ∧
    (decode x0 (.obj [("coordinates", .str str)]) json msg off).isValid = true ∧
    decode x0 (.obj [("coordinates", .arr [.num a, .num b])]) json msg off =
      ⟨some ⟨"Expected a key 'type' in the root object, but got a prematurely closed object instead.",
        (offsetToRowAndCol json (off 6)).1, (offsetToRowAndCol json (off 6)).2⟩, []⟩ :=
  ⟨rfl, rfl, rfl⟩

/-! ## C17, C19: a nested geometry object of type LineString or MultiLineString -/

/-- C17, code defect: in a Feature, the geometry object `{"type": "LineString"}`
(or `"MultiLineString"`) has a resolved type and no `coordinates` member, and
its closing brace is accepted: `endGeometryObject` has no check in these two
cases. The decode fails one event later, at the closing brace of the root
object, with "Expected a 'geometry' key value pair, ...". The geometry object
`{"type": "Point"}` fails at its own closing brace with "Expected a
'coordinates' key value pair, ...". -/
theorem C17_nested_line_geometry_without_coordinates_is_accepted {ν : Type} (x0 : ν)
    (json : List Char) (msg : String) (off : Nat → Nat) :
    decode x0 (.obj [("type", .str "Feature"), ("geometry", .obj [("type", .str "LineString")])])
        json msg off =
      ⟨some ⟨"Expected a 'geometry' key value pair, but got a prematurely closed object instead.",
        (offsetToRowAndCol json (off 8)).1, (offsetToRowAndCol json (off 8)).2⟩, []⟩ ∧
    decode x0 (.obj [("type", .str "Feature"),
        ("geometry", .obj [("type", .str "MultiLineString")])]) json msg off =
      ⟨some ⟨"Expected a 'geometry' key value pair, but got a prematurely closed object instead.",
        (offsetToRowAndCol json (off 8)).1, (offsetToRowAndCol json (off 8)).2⟩, []⟩ ∧
    decode x0 (.obj [("type", .str "Feature"), ("geometry", .obj [("type", .str "Point")])])
        json msg off =
      ⟨some ⟨"Expected a 'coordinates' key value pair, but got a prematurely closed object instead.",
        (offsetToRowAndCol json (off 7)).1, (offsetToRowAndCol json (off 7)).2⟩, []⟩ :=
  ⟨rfl, rfl, rfl⟩

theorem decode_message_of_rejected {ν : Type} (x0 : ν) (doc : JSON ν) (json : List Char)
    (msg : String) (off : Nat → Nat) (e : Expected) (a : Actual)
    (h : ∃ s, (init x0).feed doc.events = (false, s) ∧ s.error = (e, a))
    (he : e ≠ Expected.None) :
    (decode x0 doc json msg off).error.map Error.message =
      some ("Expected " ++ e.describe ++ ", but got " ++ a.describe ++ " instead.") ∧
    (decode x0 doc json msg off).features = [] := by
  obtain ⟨s, hs, herr⟩ := h
  rw [decode_of_rejected_with x0 doc json msg off s hs (by rw [herr]; exact he), herr]
  exact ⟨rfl, rfl⟩

/-- C19, code defect: a Feature whose geometry object has type LineString with
the coordinates `[p1, ..., pn]`, or type MultiLineString with the coordinates
`[L1, ..., Lm]`, does not decode to a Feature of variant Line: for every such
value the decode fails with "Expected a 'geometry' key value pair, but got a
prematurely closed object instead." and returns no feature. `endGeometryObject`
stores no geometry in these two cases, so the root object closes as a Feature
without geometry. -/
theorem C19_feature_with_line_geometry_is_rejected {ν : Type} (x0 : ν) (ps : Points ν)
    (Ls : Polygon ν) (json : List Char) (msg : String) (off : Nat → Nat) :
    ((decode x0 (.obj [("type", .str "Feature"), ("geometry", .obj [("type", .str "LineString"),
        ("coordinates", .points ps)])]) json msg off).error.map Error.message =
      some "Expected a 'geometry' key value pair, but got a prematurely closed object instead." ∧
     (decode x0 (.obj [("type", .str "Feature"), ("geometry", .obj [("type", .str "LineString"),
        ("coordinates", .points ps)])]) json msg off).features = []) ∧
    ((decode x0 (.obj [("type", .str "Feature"), ("geometry", .obj [
        ("type", .str "MultiLineString"), ("coordinates", .rings Ls)])]) json msg
          off).error.map Error.message =
      some "Expected a 'geometry' key value pair, but got a prematurely closed object instead." ∧
     (decode x0 (.obj [("type", .str "Feature"), ("geometry", .obj [
        ("type", .str "MultiLineString"), ("coordinates", .rings Ls)])]) json msg
          off).features = []) := by
  constructor
  · apply decode_message_of_rejected x0 _ json msg off Expected.GeometryKey Actual.ObjectEnded _
      (by decide)
    have hev : (JSON.obj [("type", .str "Feature"), ("geometry", .obj [("type", .str "LineString"),
          ("coordinates", .points ps)])]).events =
        [Event.startObject, .key "type", .string "Feature", .key "geometry", .startObject,
          .key "type", .string "LineString", .key "coordinates"] ++
        ((JSON.points ps).events ++ [Event.endObject, Event.endObject]) := by
      simp [JSON.events, JSON.memberEvents]
    have hpre : (init x0).feed [Event.startObject, .key "type", .string "Feature", .key "geometry",
        .startObject, .key "type", .string "LineString", .key "coordinates"] =
        (true, atFeatureGeometryCoordinates x0 GeometryType.LineString) := rfl
    rw [hev, feed_append, hpre]
    simp only [if_true]
    rw [feed_append, feed_ring_outer _ [Expected.Geometry, Expected.Root] ps rfl
      (by simp [depthAdmitted, atFeatureGeometryCoordinates, getExpectedGeometryDepth]) rfl rfl]
    exact ⟨_, rfl, rfl⟩
  · apply decode_message_of_rejected x0 _ json msg off Expected.GeometryKey Actual.ObjectEnded _
      (by decide)
    have hev : (JSON.obj [("type", .str "Feature"), ("geometry", .obj [
          ("type", .str "MultiLineString"), ("coordinates", .rings Ls)])]).events =
        [Event.startObject, .key "type", .string "Feature", .key "geometry", .startObject,
          .key "type", .string "MultiLineString", .key "coordinates"] ++
        ((JSON.rings Ls).events ++ [Event.endObject, Event.endObject]) := by
      simp [JSON.events, JSON.memberEvents]
    have hpre : (init x0).feed [Event.startObject, .key "type", .string "Feature", .key "geometry",
        .startObject, .key "type", .string "MultiLineString", .key "coordinates"] =
        (true, atFeatureGeometryCoordinates x0 GeometryType.MultiLineString) := rfl
    rw [hev, feed_append, hpre]
    simp only [if_true]
    rw [feed_append, feed_rings_outer _ [Expected.Geometry, Expected.Root] Ls rfl
      (by simp [depthAdmitted, atFeatureGeometryCoordinates, getExpectedGeometryDepth]) rfl rfl
      rfl]
    exact ⟨_, rfl, rfl⟩

/-! ## What a coordinates value leaves untouched -/

theorem GeoJSONReader.inCoordinates_frame {ν : Type} {rest0 : List Expected} {g : Int}
    {s s' : GeoJSONReader ν} (hi : InCoordinates rest0 g s) (e : Event ν)
    (h : s.handle e = (true, s')) : s'.frame = s.frame := by
  unfold InCoordinates at hi
  cases e <;>
  rcases hi with ⟨hx, hd, h0⟩ | ⟨hx, hd, h0⟩ | ⟨hx, hd, h0⟩ | ⟨hx, hd, h0⟩ <;>
  simp [handle, Null, Bool_, handleNumber, String_, ignored, StartObject, EndObject, StartArray,
    EndArray, Key, endIgnored, endCoordinatesArray, startCoordinatesArray, hx, top, fail,
    setTop, pop] at h
  all_goals try split at h
  all_goals try split_ifs at h
  all_goals try simp only [Prod.mk.injEq, true_and, false_and, Bool.true_eq_false,
      Bool.false_eq_true] at h
  all_goals (subst h; rfl)

mutual
theorem GeoJSONReader.frame_value {ν : Type} (v : JSON ν) (rest0 : List Expected)
    (g : Int) (s s' : GeoJSONReader ν) (hg : 1 ≤ g) (hi : InCoordinates rest0 g s)
    (hf : s.feed v.events = (true, s')) : s'.frame = s.frame := by
  cases v with
  | null => exact inCoordinates_frame hi _ (feed_singleton_ok hf)
  | bool b => exact inCoordinates_frame hi _ (feed_singleton_ok hf)
  | num n => exact inCoordinates_frame hi _ (feed_singleton_ok hf)
  | str x => exact inCoordinates_frame hi _ (feed_singleton_ok hf)
  | arr elements =>
    simp only [JSON.events] at hf
    obtain ⟨s1, h1, h2⟩ := feed_cons_ok hf
    obtain ⟨s2, h3, h4⟩ := feed_append_ok h2
    have i1 := inCoordinates_startArray hi h1
    have i2 := inCoordinates_elements elements rest0 (g + 1) s1 s2 (by omega) i1 h3
    exact (inCoordinates_frame i2 _ (feed_singleton_ok h4)).trans
      ((frame_elements elements rest0 (g + 1) s1 s2 (by omega) i1 h3).trans
        (inCoordinates_frame hi _ h1))
  | obj members =>
    simp only [JSON.events] at hf
    obtain ⟨s1, h1, h2⟩ := feed_cons_ok hf
    obtain ⟨s2, h3, h4⟩ := feed_append_ok h2
    have i1 := inCoordinates_startObject hi h1
    have i2 := inCoordinates_members members rest0 (g + 1) s1 s2 (by omega) i1 h3
    exact (inCoordinates_frame i2 _ (feed_singleton_ok h4)).trans
      ((frame_members members rest0 (g + 1) s1 s2 (by omega) i1 h3).trans
        (inCoordinates_frame hi _ h1))
theorem GeoJSONReader.frame_elements {ν : Type} (vs : List (JSON ν))
    (rest0 : List Expected) (g : Int) (s s' : GeoJSONReader ν) (hg : 1 ≤ g)
    (hi : InCoordinates rest0 g s) (hf : s.feed (JSON.elementEvents vs) = (true, s')) :
    s'.frame = s.frame := by
  cases vs with
  | nil =>
    simp only [JSON.elementEvents, feed, Prod.mk.injEq, true_and] at hf
    exact hf ▸ rfl
  | cons v vs =>
    simp only [JSON.elementEvents] at hf
    obtain ⟨s1, h1, h2⟩ := feed_append_ok hf
    exact (frame_elements vs rest0 g s1 s' hg
      (inCoordinates_value v rest0 g s s1 hg hi h1) h2).trans
        (frame_value v rest0 g s s1 hg hi h1)
theorem GeoJSONReader.frame_members {ν : Type} (ms : List (String × JSON ν))
    (rest0 : List Expected) (g : Int) (s s' : GeoJSONReader ν) (hg : 1 ≤ g)
    (hi : InCoordinates rest0 g s) (hf : s.feed (JSON.memberEvents ms) = (true, s')) :
    s'.frame = s.frame := by
  cases ms with
  | nil =>
    simp only [JSON.memberEvents, feed, Prod.mk.injEq, true_and] at hf
    exact hf ▸ rfl
  | cons m ms =>
    obtain ⟨k, v⟩ := m
    simp only [JSON.memberEvents] at hf
    obtain ⟨s1, h1, h2⟩ := feed_cons_ok hf
    obtain ⟨s2, h3, h4⟩ := feed_append_ok h2
    have i1 := inCoordinates_key hi k h1
    exact (frame_members ms rest0 g s2 s' hg
      (inCoordinates_value v rest0 g s1 s2 hg i1 h3) h4).trans
        ((frame_value v rest0 g s1 s2 hg i1 h3).trans (inCoordinates_frame hi _ h1))
end

/-- A coordinates value that is an array: when every event is accepted, the
reader is back between two members and its frame is what it was. -/
theorem GeoJSONReader.frame_after_array {ν : Type} (elements : List (JSON ν))
    (rest0 : List Expected) (s s' : GeoJSONReader ν)
    (hx : s.expect = Expected.GeometryCoordinates :: rest0) (hd : s.geometryDepth = 0)
    (h0 : s.ignoredDepth = 0) (hf : s.feed (JSON.arr elements).events = (true, s')) :
    s'.frame = s.frame := by
  simp only [JSON.events] at hf
  obtain ⟨s1, h1, h2⟩ := feed_cons_ok hf
  obtain ⟨s2, h3, h4⟩ := feed_append_ok h2
  have hi : InCoordinates rest0 0 s := Or.inl ⟨hx, hd, h0⟩
  have hi1 : InCoordinates rest0 1 s1 := by simpa using inCoordinates_startArray hi h1
  have hi2 := inCoordinates_elements elements rest0 1 s1 s2 (le_refl 1) hi1 h3
  exact (inCoordinates_frame hi2 _ (feed_singleton_ok h4)).trans
    ((frame_elements elements rest0 1 s1 s2 (le_refl 1) hi1 h3).trans
      (inCoordinates_frame hi _ h1))

/-- A plain member of a geometry object: the reader is back between two members
of that object with its frame unchanged. -/
theorem GeoJSONReader.frame_geometryMember {ν : Type} {rest : List Expected}
    {s s' : GeoJSONReader ν} (hb : AtBoundary (Expected.Geometry :: rest) s) (k : String)
    (v : JSON ν) (hw : plainGeometryMember (k, v) = true)
    (hf : s.feed (Event.key k :: v.events) = (true, s')) : s'.frame = s.frame := by
  simp only [plainGeometryMember, Bool.and_eq_true, bne_iff_ne, ne_eq] at hw
  obtain ⟨hw, hk1⟩ := hw
  obtain ⟨s1, h1, h2⟩ := feed_cons_ok hf
  have htop : top s.expect = Expected.Geometry := by rw [hb.1]; rfl
  simp only [handle, Key, htop] at h1
  rw [if_neg hk1] at h1
  by_cases hk2 : k = "coordinates"
  · rw [if_pos hk2] at h1
    simp only [Prod.mk.injEq, true_and] at h1
    subst h1
    cases v <;> simp [wellTypedGeometryMember, JSON.isArr, hk2] at hw
    rename_i elements
    have hfr : s.parseGeometryCoordinates.frame = s.frame := by
      unfold parseGeometryCoordinates; split <;> rfl
    rcases parseGeometryCoordinates_cases s with hc | ⟨hc1, hc2, hc3⟩
    · rw [hc, feed_value_after_ignored_pushed _ s hb.2.1] at h2
      simp only [Prod.mk.injEq, true_and] at h2
      rw [h2]
    · exact (frame_after_array elements (Expected.Geometry :: rest) _ s'
        (by rw [hc1, hb.1]) (by rw [hc2, hb.2.2]) (by rw [hc3, hb.2.1]) h2).trans hfr
  · rw [if_neg hk2] at h1
    simp only [Prod.mk.injEq, true_and] at h1
    subst h1
    rw [feed_value_after_ignored_pushed _ s hb.2.1] at h2
    simp only [Prod.mk.injEq, true_and] at h2
    rw [h2]

theorem plainGeometryMember_wellTyped {ν : Type} (m : String × JSON ν)
    (h : plainGeometryMember m = true) : wellTypedGeometryMember m = true := by
  simp only [plainGeometryMember, Bool.and_eq_true] at h
  exact h.1

theorem plainRootMember_wellTyped {ν : Type} (m : String × JSON ν)
    (h : plainRootMember m = true) : wellTypedRootMember m = true := by
  simp only [plainRootMember, Bool.and_eq_true] at h
  exact h.1

theorem GeoJSONReader.frame_geometryMembers {ν : Type} {rest : List Expected}
    (ms : List (String × JSON ν)) {s s' : GeoJSONReader ν}
    (hb : AtBoundary (Expected.Geometry :: rest) s)
    (hw : ms.all plainGeometryMember = true)
    (hf : s.feed (JSON.memberEvents ms) = (true, s')) :
    AtBoundary (Expected.Geometry :: rest) s' ∧ s'.frame = s.frame := by
  induction ms generalizing s with
  | nil =>
    simp only [JSON.memberEvents, feed, Prod.mk.injEq, true_and] at hf
    exact hf ▸ ⟨hb, rfl⟩
  | cons m ms ih =>
    obtain ⟨k, v⟩ := m
    simp only [List.all_cons, Bool.and_eq_true] at hw
    simp only [JSON.memberEvents] at hf
    have hf2 : s.feed ((Event.key k :: v.events) ++ JSON.memberEvents ms) = (true, s') := by
      simpa using hf
    obtain ⟨s1, h1, h2⟩ := feed_append_ok hf2
    have hb1 := atBoundary_geometryMember hb k v (plainGeometryMember_wellTyped _ hw.1) h1
    obtain ⟨hb2, hfr⟩ := ih hb1 hw.2 h2
    exact ⟨hb2, hfr.trans (frame_geometryMember hb k v hw.1 h1)⟩

/-- A plain member of the root object, read while the root type is absent or
`Feature`: the reader is back between two members with its frame unchanged. -/
theorem GeoJSONReader.frame_rootMember {ν : Type} {rest : List Expected}
    {s s' : GeoJSONReader ν} (hb : AtBoundary (Expected.Root :: rest) s) (k : String)
    (v : JSON ν) (hw : plainRootMember (k, v) = true)
    (hr : s.rootType = RootType.None ∨ s.rootType = RootType.Feature)
    (hf : s.feed (Event.key k :: v.events) = (true, s')) : s'.frame = s.frame := by
  simp only [plainRootMember, Bool.and_eq_true, bne_iff_ne, ne_eq] at hw
  obtain ⟨hw, hk1, hk2⟩ := hw
  obtain ⟨s1, h1, h2⟩ := feed_cons_ok hf
  have htop : top s.expect = Expected.Root := by rw [hb.1]; rfl
  simp only [handle, Key, htop] at h1
  rw [if_neg hk1, if_neg hk2] at h1
  by_cases hk3 : k = "coordinates"
  · rw [if_pos hk3] at h1
    simp only [Prod.mk.injEq, true_and] at h1
    subst h1
    cases v <;> simp [wellTypedRootMember, JSON.isArr, hk3] at hw
    rename_i elements
    have hfr : s.parseRootCoordinates.frame = s.frame := by
      unfold parseRootCoordinates frame
      rcases hr with hr | hr <;> simp [hr]
    rcases parseRootCoordinates_cases s with hc | ⟨hc1, hc2, hc3⟩
    · rw [hc, feed_value_after_ignored_pushed _ s hb.2.1] at h2
      simp only [Prod.mk.injEq, true_and] at h2
      rw [h2]
    · exact (frame_after_array elements (Expected.Root :: rest) _ s'
        (by rw [hc1, hb.1]) (by rw [hc2, hb.2.2]) (by rw [hc3, hb.2.1]) h2).trans hfr
  · rw [if_neg hk3] at h1
    simp only [Prod.mk.injEq, true_and] at h1
    subst h1
    rw [feed_value_after_ignored_pushed _ s hb.2.1] at h2
    simp only [Prod.mk.injEq, true_and] at h2
    rw [h2]

theorem GeoJSONReader.frame_rootMembers {ν : Type} {rest : List Expected}
    (ms : List (String × JSON ν)) {s s' : GeoJSONReader ν}
    (hb : AtBoundary (Expected.Root :: rest) s)
    (hw : ms.all plainRootMember = true)
    (hr : s.rootType = RootType.None ∨ s.rootType = RootType.Feature)
    (hf : s.feed (JSON.memberEvents ms) = (true, s')) :
    AtBoundary (Expected.Root :: rest) s' ∧ s'.frame = s.frame := by
  induction ms generalizing s with
  | nil =>
    simp only [JSON.memberEvents, feed, Prod.mk.injEq, true_and] at hf
    exact hf ▸ ⟨hb, rfl⟩
  | cons m ms ih =>
    obtain ⟨k, v⟩ := m
    simp only [List.all_cons, Bool.and_eq_true] at hw
    simp only [JSON.memberEvents] at hf
    have hf2 : s.feed ((Event.key k :: v.events) ++ JSON.memberEvents ms) = (true, s') := by
      simpa using hf
    obtain ⟨s1, h1, h2⟩ := feed_append_ok hf2
    have hb1 := atBoundary_rootMember hb k v (plainRootMember_wellTyped _ hw.1) h1
    have hfr1 := frame_rootMember hb k v hw.1 hr h1
    have hr1 : s1.rootType = RootType.None ∨ s1.rootType = RootType.Feature := by
      have : s1.rootType = s.rootType := congrArg (fun f => f.1) hfr1
      rw [this]; exact hr
    obtain ⟨hb2, hfr⟩ := ih hb1 hw.2 hr1 h2
    exact ⟨hb2, hfr.trans hfr1⟩

/-! ## C16: a Feature without `geometry` -/

theorem accepted_append_of_ok {ν : Type} (s s1 : GeoJSONReader ν) (es fs : List (Event ν))
    (h : s.feed es = (true, s1)) : s.accepted (es ++ fs) = es.length + s1.accepted fs := by
  induction es generalizing s with
  | nil => simp [feed] at h; subst h; simp
  | cons e es ih =>
    simp only [List.cons_append, accepted, List.length_cons]
    rw [feed] at h
    rcases hh : s.handle e with ⟨ok, s2⟩
    rw [hh] at h
    cases ok
    · simp at h
    · simp only at h ⊢
      have := ih s2 h
      simp only [List.append_eq] at this ⊢
      rw [this]; omega

/-- When the handler accepts the events `es` and rejects the next event `e`
after recording an expectation, the result is the GeoJSON format error at the
position of `e` and no feature. -/
theorem new_of_rejected_at {ν : Type} (x0 : ν) (json : List Char) (es : List (Event ν))
    (e : Event ν) (tail : List (Event ν)) (syn : Option String) (msg : String) (off : Nat → Nat)
    (s s' : GeoJSONReader ν) (h1 : (init x0).feed es = (true, s))
    (h2 : s.handle e = (false, s')) (he : s'.error.1 ≠ Expected.None) :
    GeoJSON.new x0 json ⟨es ++ e :: tail, syn, msg, off⟩ =
      ⟨some ⟨"Expected " ++ s'.error.1.describe ++ ", but got " ++ s'.error.2.describe ++
          " instead.",
        (offsetToRowAndCol json (off es.length)).1,
        (offsetToRowAndCol json (off es.length)).2⟩, []⟩ := by
  have hf : (init x0).feed (es ++ [e]) = (false, s') := by
    rw [feed_append, h1]
    simp [feed, h2]
  have ha : (init x0).accepted (es ++ [e]) = es.length := by
    rw [accepted_append_of_ok _ _ _ _ h1]
    simp [accepted, h2]
  have hs : es ++ e :: tail = (es ++ [e]) ++ tail := by simp
  rw [hs, new_of_rejected_start x0 json _ tail syn msg off s' hf he, ha]

theorem GeoJSONReader.feed_type_feature {ν : Type} {rest : List Expected} (s : GeoJSONReader ν)
    (hb : AtBoundary (Expected.Root :: rest) s) :
    s.feed [Event.key "type", Event.string "Feature"] =
      (true, { s with rootType := RootType.Feature }) := by
  obtain ⟨hx, h0, hd⟩ := hb
  cases s
  simp_all [feed, handle, Key, String_, top, rootTypeString, setRootType, pop]

/-- A plain member of the root object of a Feature, after its `type`, is skipped. -/
theorem GeoJSONReader.feed_plain_member_of_feature {ν : Type} {rest : List Expected}
    (s : GeoJSONReader ν) (hb : AtBoundary (Expected.Root :: rest) s)
    (hr : s.rootType = RootType.Feature) (k : String) (v : JSON ν)
    (hw : plainRootMember (k, v) = true) :
    s.feed (Event.key k :: v.events) = (true, s) := by
  simp only [plainRootMember, Bool.and_eq_true, bne_iff_ne, ne_eq] at hw
  obtain ⟨-, hk1, hk2⟩ := hw
  have hkey : s.handle (Event.key k) = (true, { s with expect := Expected.Ignored :: s.expect }) := by
    by_cases hk3 : k = "coordinates" <;>
      simp [handle, Key, hb.1, top, hk1, hk2, hk3, parseRootCoordinates, hr]
  rw [feed_cons, hkey]
  exact feed_value_after_ignored_pushed v s hb.2.1

theorem GeoJSONReader.feed_plain_members_of_feature {ν : Type} {rest : List Expected}
    (ms : List (String × JSON ν)) (s : GeoJSONReader ν)
    (hb : AtBoundary (Expected.Root :: rest) s) (hr : s.rootType = RootType.Feature)
    (hw : ms.all plainRootMember = true) :
    s.feed (JSON.memberEvents ms) = (true, s) := by
  induction ms with
  | nil => rfl
  | cons m ms ih =>
    obtain ⟨k, v⟩ := m
    simp only [List.all_cons, Bool.and_eq_true] at hw
    have : JSON.memberEvents ((k, v) :: ms) = (Event.key k :: v.events) ++ JSON.memberEvents ms := by
      simp [JSON.memberEvents]
    rw [this, feed_append, feed_plain_member_of_feature s hb hr k v hw.1]
    exact ih hw.2

/-- Members of the root object with keys other than `type`, `geometry` and
`coordinates` are skipped. -/
theorem GeoJSONReader.feed_unknown_members {ν : Type} {rest : List Expected}
    (ms : List (String × JSON ν)) (s : GeoJSONReader ν)
    (hb : AtBoundary (Expected.Root :: rest) s)
    (hw : ms.all plainRootMember = true) (hc : ∀ m ∈ ms, m.1 ≠ "coordinates") :
    s.feed (JSON.memberEvents ms) = (true, s) := by
  induction ms with
  | nil => rfl
  | cons m ms ih =>
    obtain ⟨k, v⟩ := m
    simp only [List.all_cons, Bool.and_eq_true] at hw
    have hk := hw.1
    simp only [plainRootMember, Bool.and_eq_true, bne_iff_ne, ne_eq] at hk
    have : JSON.memberEvents ((k, v) :: ms) = Event.key k :: (v.events ++ JSON.memberEvents ms) := by
      simp [JSON.memberEvents]
    rw [this, feed_unknown_member s k v _ ⟨hk.2.1, hk.2.2, hc (k, v) (List.mem_cons_self _ _)⟩
      (Or.inl (by rw [hb.1]; rfl)) hb.2.1]
    exact ih hw.2 (fun m hm => hc m (List.mem_cons_of_mem _ hm))

/-- C16, counterexample: the root objects `{"coordinates": null, "type": "Feature"}`
and `{"coordinates": [], "type": "Feature"}` have type Feature and no `geometry`
member, and do not fail at their closing brace (event 5): the `null` (event 2),
and the bracket closing the empty array (event 3), are rejected while the
coordinates value is read, before the type is. -/
theorem C16_counterexample_coordinates_rejected_ahead_of_type :
    decode (0 : Int) (.obj [("coordinates", .null), ("type", .str "Feature")]) [] ""
        (fun _ => 0) =
      ⟨some ⟨"Expected a coordinate array, but got a null object instead.", 0, 0⟩, []⟩ ∧
    (init (0 : Int)).accepted
      (JSON.obj [("coordinates", .null), ("type", .str "Feature")]).events = 2 ∧
    decode (0 : Int) (.obj [("coordinates", .arr []), ("type", .str "Feature")]) [] ""
        (fun _ => 0) =
      ⟨some ⟨"Expected a coordinate, but got a prematurely closed array instead.", 0, 0⟩, []⟩ ∧
    (init (0 : Int)).accepted
      (JSON.obj [("coordinates", .arr []), ("type", .str "Feature")]).events = 3 := by
  decide

/-- C16, amended: a root object whose one `type` member is `type: "Feature"`, which
has no `geometry` member and whose other members are well typed (`coordinates`
holds an array), fails at its closing brace with "Expected a 'geometry' key
value pair, but got a prematurely closed object instead." and returns no
feature, provided no member ahead of that brace is rejected. No member is
rejected when `type` comes before every `coordinates` member. -/
theorem C16_feature_without_geometry_fails_at_closing_brace {ν : Type} (x0 : ν)
    (pre post : List (String × JSON ν)) (json : List Char) (msg : String) (off : Nat → Nat)
    (hpre : pre.all plainRootMember = true) (hpost : post.all plainRootMember = true) :
    (((init x0).feed (Event.startObject ::
        JSON.memberEvents (pre ++ ("type", .str "Feature") :: post))).1 = true →
      decode x0 (.obj (pre ++ ("type", .str "Feature") :: post)) json msg off =
        ⟨some ⟨"Expected a 'geometry' key value pair, but got a prematurely closed object instead.",
          (offsetToRowAndCol json (off
            ((JSON.memberEvents (pre ++ ("type", .str "Feature") :: post)).length + 1))).1,
          (offsetToRowAndCol json (off
            ((JSON.memberEvents (pre ++ ("type", .str "Feature") :: post)).length + 1))).2⟩,
          []⟩) ∧
    ((∀ m ∈ pre, m.1 ≠ "coordinates") →
      ((init x0).feed (Event.startObject ::
        JSON.memberEvents (pre ++ ("type", .str "Feature") :: post))).1 = true) := by
  have hme : JSON.memberEvents (pre ++ ("type", .str "Feature") :: post) =
      JSON.memberEvents pre ++
        ([Event.key "type", Event.string "Feature"] ++ JSON.memberEvents post) := by
    simp [JSON.memberEvents_append, JSON.memberEvents, JSON.events]
  have hb0 := (atBoundary_init_startObject x0).2
  constructor
  · intro hacc
    rcases hf : (init x0).feed (Event.startObject ::
        JSON.memberEvents (pre ++ ("type", .str "Feature") :: post)) with ⟨ok, s3⟩
    rw [hf] at hacc
    simp only at hacc
    subst hacc
    obtain ⟨s0, h0, h1⟩ := feed_cons_ok hf
    rw [(atBoundary_init_startObject x0).1] at h0
    simp only [Prod.mk.injEq, true_and] at h0
    subst h0
    rw [hme] at h1
    obtain ⟨s1, h2, h3⟩ := feed_append_ok h1
    obtain ⟨s2, h4, h5⟩ := feed_append_ok h3
    obtain ⟨hb1, hfr1⟩ := frame_rootMembers pre hb0 hpre (Or.inl rfl) h2
    rw [feed_type_feature s1 hb1] at h4
    simp only [Prod.mk.injEq, true_and] at h4
    subst h4
    obtain ⟨hb3, hfr3⟩ := @frame_rootMembers ν [] post { s1 with rootType := RootType.Feature }
      s3 hb1 hpost (Or.inr rfl) h5
    have hrt : s3.rootType = RootType.Feature := congrArg (fun f => f.1) hfr3
    have hgeo : s3.geometry = none :=
      (congrArg (fun f => f.2.2.1) hfr3).trans (congrArg (fun f => f.2.2.1) hfr1)
    have hend : s3.handle Event.endObject =
        (false, { s3 with error := (Expected.GeometryKey, Actual.ObjectEnded) }) := by
      simp [handle, EndObject, hb3.1, top, endRootObject, hrt, hgeo, fail]
    have hev : (JSON.obj (pre ++ ("type", .str "Feature") :: post)).events =
        (Event.startObject :: JSON.memberEvents (pre ++ ("type", .str "Feature") :: post)) ++
          Event.endObject :: [] := by
      simp [JSON.events]
    unfold decode Tokenizer.ofDocument
    rw [hev, new_of_rejected_at x0 json _ _ [] none msg off _ _ hf hend
      (fun h => Expected.noConfusion h)]
    simp [Expected.describe, Actual.describe]
  · intro hc
    rw [feed_cons, (atBoundary_init_startObject x0).1]
    simp only [if_true]
    rw [hme, feed_append, feed_unknown_members pre _ hb0 hpre hc]
    simp only [if_true]
    rw [feed_append, feed_type_feature _ hb0]
    simp only [if_true]
    rw [@feed_plain_members_of_feature ν [] post { init x0 with rootType := RootType.Feature }
      ⟨rfl, rfl, rfl⟩ rfl hpost]

/-- C16, witness: the document of the test `FeatureWithoutGeometry`, with
`coordinates` ahead of `type`. -/
theorem C16_witness_feature_without_geometry :
    decode (0 : Int) (.obj ([("coordinates", .arr [.arr [.arr [.num 0, .num 0]]])] ++
        ("type", .str "Feature") :: [])) [] "" (fun _ => 0) =
      ⟨some ⟨"Expected a 'geometry' key value pair, but got a prematurely closed object instead.",
        0, 0⟩, []⟩ :=
  (C16_feature_without_geometry_fails_at_closing_brace (0 : Int)
    [("coordinates", .arr [.arr [.arr [.num 0, .num 0]]])] [] [] "" (fun _ => 0)
    (by decide) (by decide)).1 (by decide)

/-! ## C18: a nested geometry object without `type` -/

/-- A member of the root object of a Feature other than `geometry`, read while
the root type is absent or `Feature` and no geometry type is resolved: the
reader is back between two members, in the same situation. -/
theorem GeoJSONReader.feed_featureRootMember {ν : Type} {rest : List Expected}
    {s s' : GeoJSONReader ν} (hb : AtBoundary (Expected.Root :: rest) s)
    (hr : s.rootType = RootType.None ∨ s.rootType = RootType.Feature)
    (hg : s.geometryType = GeometryType.None) (k : String) (v : JSON ν)
    (hw : featureRootMember (k, v) = true)
    (hf : s.feed (Event.key k :: v.events) = (true, s')) :
    AtBoundary (Expected.Root :: rest) s' ∧
      (s'.rootType = RootType.None ∨ s'.rootType = RootType.Feature) ∧
      s'.geometryType = GeometryType.None := by
  simp only [featureRootMember, Bool.or_eq_true, Bool.and_eq_true, beq_iff_eq] at hw
  rcases hw with hw | ⟨hk, hv⟩
  · have hfr := frame_rootMember hb k v hw hr hf
    refine ⟨atBoundary_rootMember hb k v (plainRootMember_wellTyped _ hw) hf, ?_, ?_⟩
    · rw [show s'.rootType = s.rootType from congrArg (fun f => f.1) hfr]; exact hr
    · rw [show s'.geometryType = s.geometryType from congrArg (fun f => f.2.1) hfr]; exact hg
  · cases v <;> simp only [JSON.isTheString, beq_iff_eq] at hv <;> try exact absurd hv (by simp)
    have hk2 : k = "type" := hk
    subst hk2 hv
    have := feed_type_feature s hb
    simp only [JSON.events] at hf
    rw [this] at hf
    simp only [Prod.mk.injEq, true_and] at hf
    subst hf
    exact ⟨hb, Or.inr rfl, hg⟩

theorem GeoJSONReader.feed_featureRootMembers {ν : Type} {rest : List Expected}
    (ms : List (String × JSON ν)) {s s' : GeoJSONReader ν}
    (hb : AtBoundary (Expected.Root :: rest) s)
    (hr : s.rootType = RootType.None ∨ s.rootType = RootType.Feature)
    (hg : s.geometryType = GeometryType.None)
    (hw : ms.all featureRootMember = true)
    (hf : s.feed (JSON.memberEvents ms) = (true, s')) :
    AtBoundary (Expected.Root :: rest) s' ∧
      (s'.rootType = RootType.None ∨ s'.rootType = RootType.Feature) ∧
      s'.geometryType = GeometryType.None := by
  induction ms generalizing s with
  | nil =>
    simp only [JSON.memberEvents, feed, Prod.mk.injEq, true_and] at hf
    exact hf ▸ ⟨hb, hr, hg⟩
  | cons m ms ih =>
    obtain ⟨k, v⟩ := m
    simp only [List.all_cons, Bool.and_eq_true] at hw
    simp only [JSON.memberEvents] at hf
    have hf2 : s.feed ((Event.key k :: v.events) ++ JSON.memberEvents ms) = (true, s') := by
      simpa using hf
    obtain ⟨s1, h1, h2⟩ := feed_append_ok hf2
    obtain ⟨hb1, hr1, hg1⟩ := feed_featureRootMember hb hr hg k v hw.1 h1
    exact ih hb1 hr1 hg1 hw.2 h2

/-- C18, counterexample: two documents in which a geometry object without a
`type` member of its own closes and the decode does not fail. After the root
member `type: "Point"` the `geometry` member is skipped as a whole, and the
document decodes to the point `(1, 2)` of the root. In a Feature with two
`geometry` members the geometry type `Point` resolved by the first geometry
object is still stored when the second closes, and the document decodes to the
point `(3, 4)`. -/
theorem C18_counterexample_geometry_without_type_accepted :
    decode (0 : Int) (.obj [("type", .str "Point"), ("coordinates", .arr [.num 1, .num 2]),
        ("geometry", .obj [("coordinates", .arr [.num 3, .num 4])])]) [] "" (fun _ => 0) =
      ⟨none, [⟨Geometry.Point [(1, 2)]⟩]⟩ ∧
    decode (0 : Int) (.obj [("type", .str "Feature"),
        ("geometry", .obj [("type", .str "Point"), ("coordinates", .arr [.num 1, .num 2])]),
        ("geometry", .obj [("coordinates", .arr [.num 3, .num 4])])]) [] "" (fun _ => 0) =
      ⟨none, [⟨Geometry.Point [(3, 4)]⟩]⟩ := by
  decide

/-- C18, amended: the geometry object of a root object whose type is Feature or
not yet read, with no `geometry` member ahead of it, that has no `type` member
of its own fails at its closing brace with "Expected a key 'type' in the
geometry object, but got a prematurely closed object instead." and the decode
returns no feature - whatever follows it, whatever plain members (such as
`coordinates` arrays or unknown keys) it and the root object hold ahead of that
brace, provided none of them is rejected. -/
theorem C18_geometry_object_without_type_fails_at_closing_brace {ν : Type} (x0 : ν)
    (pre gm post : List (String × JSON ν)) (json : List Char) (msg : String) (off : Nat → Nat)
    (hpre : pre.all featureRootMember = true) (hgm : gm.all plainGeometryMember = true)
    (hacc : ((init x0).feed (Event.startObject :: (JSON.memberEvents pre ++
      (Event.key "geometry" :: Event.startObject :: JSON.memberEvents gm)))).1 = true) :
    decode x0 (.obj (pre ++ ("geometry", .obj gm) :: post)) json msg off =
      ⟨some ⟨"Expected a key 'type' in the geometry object, but got a prematurely closed object instead.",
        (offsetToRowAndCol json
          (off ((JSON.memberEvents pre).length + (JSON.memberEvents gm).length + 3))).1,
        (offsetToRowAndCol json
          (off ((JSON.memberEvents pre).length + (JSON.memberEvents gm).length + 3))).2⟩,
        []⟩ := by
  rcases hf : (init x0).feed (Event.startObject :: (JSON.memberEvents pre ++
      (Event.key "geometry" :: Event.startObject :: JSON.memberEvents gm))) with ⟨ok, s4⟩
  rw [hf] at hacc
  simp only at hacc
  subst hacc
  obtain ⟨s0, h0, h1⟩ := feed_cons_ok hf
  rw [(atBoundary_init_startObject x0).1] at h0
  simp only [Prod.mk.injEq, true_and] at h0
  subst h0
  obtain ⟨s1, h2, h3⟩ := feed_append_ok h1
  obtain ⟨hb1, hr1, hg1⟩ := feed_featureRootMembers pre (atBoundary_init_startObject x0).2
    (Or.inl rfl) rfl hpre h2
  obtain ⟨s2, h4, h5⟩ := feed_cons_ok h3
  obtain ⟨s3, h6, h7⟩ := feed_cons_ok h5
  have hkey : s1.handle (Event.key "geometry") = (true, s1.parseGeometry) := by
    simp [handle, Key, hb1.1, top]
  rw [hkey] at h4
  simp only [Prod.mk.injEq, true_and] at h4
  subst h4
  have hb2 : AtBoundary [Expected.Geometry, Expected.Root] s1.parseGeometry ∧
      s1.parseGeometry.geometryType = GeometryType.None := by
    unfold parseGeometry AtBoundary
    rcases hr1 with hr | hr <;> simp [hr, hb1.1, hb1.2.1, hb1.2.2, hg1]
  have hso : s1.parseGeometry.handle Event.startObject = (true, s1.parseGeometry) := by
    simp [handle, StartObject, hb2.1.1, top]
  rw [hso] at h6
  simp only [Prod.mk.injEq, true_and] at h6
  subst h6
  obtain ⟨hb4, hfr4⟩ := frame_geometryMembers gm hb2.1 hgm h7
  have hg4 : s4.geometryType = GeometryType.None :=
    (congrArg (fun f => f.2.1) hfr4).trans hb2.2
  have hend : s4.handle Event.endObject =
      (false, { s4 with expect := pop s4.expect
                        error := (Expected.GeometryTypeKey, Actual.ObjectEnded) }) := by
    simp [handle, EndObject, hb4.1, top, endGeometryObject, hg4, fail]
  have hev : (JSON.obj (pre ++ ("geometry", .obj gm) :: post)).events =
      (Event.startObject :: (JSON.memberEvents pre ++
        (Event.key "geometry" :: Event.startObject :: JSON.memberEvents gm))) ++
        Event.endObject :: (JSON.memberEvents post ++ [Event.endObject]) := by
    simp [JSON.events, JSON.memberEvents_append, JSON.memberEvents]
  have hlen : (Event.startObject :: (JSON.memberEvents pre ++
      (Event.key "geometry" :: Event.startObject :: JSON.memberEvents gm))).length =
      (JSON.memberEvents pre).length + (JSON.memberEvents gm).length + 3 := by
    simp only [List.length_cons, List.length_append]
    omega
  unfold decode Tokenizer.ofDocument
  rw [hev, new_of_rejected_at x0 json _ _ _ none msg off _ _ hf hend
    (fun h => Expected.noConfusion h), hlen]
  simp [Expected.describe, Actual.describe]

/-- C18, witness: the document of the test `PointFeatureWithoutType`. -/
theorem C18_witness_point_feature_without_type :
    decode (0 : Int) (.obj ([] ++ ("geometry", .obj [("coordinates", .arr [.num 2, .num 3])]) ::
        [("type", .str "Feature")])) [] "" (fun _ => 0) =
      ⟨some ⟨"Expected a key 'type' in the geometry object, but got a prematurely closed object instead.",
        0, 0⟩, []⟩ :=
  C18_geometry_object_without_type_fails_at_closing_brace (0 : Int) []
    [("coordinates", .arr [.num 2, .num 3])] [("type", .str "Feature")] [] "" (fun _ => 0)
    (by decide) (by decide) (by decide)

/-! ## C20: a string that is no type keyword -/

/-- C20: a string read as the value of a `type` key that is not one of the
keywords of its level is rejected, and the decode fails at that string with the
invalid-keyword message naming the keywords of the level: for a `type` key of
the root object "Expected one of 'Point', 'MultiPoint', 'LineString',
'MultiLineString', 'Polygon', 'MultiPolygon', 'GeometryCollection', 'Feature',
or 'FeatureCollection', but got an invalid keyword instead.", for a `type` key
of a geometry object the same list without Feature and FeatureCollection. This
holds after any events `es` the handler accepted and whatever follows. -/
theorem C20_string_outside_keyword_set_is_rejected {ν : Type} (x0 : ν) (json : List Char)
    (es tail : List (Event ν)) (syn : Option String) (msg : String) (off : Nat → Nat)
    (s : GeoJSONReader ν) (x : String) (hes : (init x0).feed es = (true, s)) :
    (top s.expect = Expected.Root →
      x ∉ ["Point", "MultiPoint", "LineString", "MultiLineString", "Polygon", "MultiPolygon",
        "GeometryCollection", "Feature", "FeatureCollection"] →
      GeoJSON.new x0 json ⟨es ++ Event.key "type" :: Event.string x :: tail, syn, msg, off⟩ =
        ⟨some ⟨"Expected one of 'Point', 'MultiPoint', 'LineString', 'MultiLineString', 'Polygon', 'MultiPolygon', 'GeometryCollection', 'Feature', or 'FeatureCollection', but got an invalid keyword instead.",
          (offsetToRowAndCol json (off (es.length + 1))).1,
          (offsetToRowAndCol json (off (es.length + 1))).2⟩, []⟩) ∧
    (top s.expect = Expected.Geometry →
      x ∉ ["Point", "MultiPoint", "LineString", "MultiLineString", "Polygon", "MultiPolygon",
        "GeometryCollection"] →
      GeoJSON.new x0 json ⟨es ++ Event.key "type" :: Event.string x :: tail, syn, msg, off⟩ =
        ⟨some ⟨"Expected one of 'Point', 'MultiPoint', 'LineString', 'MultiLineString', 'Polygon', 'MultiPolygon', or 'GeometryCollection', but got an invalid keyword instead.",
          (offsetToRowAndCol json (off (es.length + 1))).1,
          (offsetToRowAndCol json (off (es.length + 1))).2⟩, []⟩) := by
  have hs : es ++ Event.key "type" :: Event.string x :: tail =
      (es ++ [Event.key "type"]) ++ Event.string x :: tail := by simp
  constructor
  · intro htop hx
    simp only [List.mem_cons, List.mem_singleton, List.not_mem_nil, or_false, not_or] at hx
    obtain ⟨h1, h2, h3, h4, h5, h6, h7, h8, h9⟩ := hx
    have hkey : (init x0).feed (es ++ [Event.key "type"]) =
        (true, { s with expect := Expected.Type_ :: s.expect }) := by
      rw [feed_append, hes]
      simp [feed, handle, Key, htop]
    have hstr : ({ s with expect := Expected.Type_ :: s.expect } : GeoJSONReader ν).handle
        (Event.string x) = (false, { s with error := (Expected.Type_, Actual.Keyword) }) := by
      simp [handle, String_, top, rootTypeString, h1, h2, h3, h4, h5, h6, h8, h9, pop]
    rw [hs, new_of_rejected_at x0 json _ _ tail syn msg off _ _ hkey hstr
      (fun h => Expected.noConfusion h)]
    simp [Expected.describe, Actual.describe]
  · intro htop hx
    simp only [List.mem_cons, List.mem_singleton, List.not_mem_nil, or_false, not_or] at hx
    obtain ⟨h1, h2, h3, h4, h5, h6, h7⟩ := hx
    have hkey : (init x0).feed (es ++ [Event.key "type"]) =
        (true, { s with expect := Expected.GeometryType :: s.expect }) := by
      rw [feed_append, hes]
      simp [feed, handle, Key, htop]
    have hstr : ({ s with expect := Expected.GeometryType :: s.expect } : GeoJSONReader ν).handle
        (Event.string x) = (false, { s with error := (Expected.GeometryType, Actual.Keyword) }) := by
      simp [handle, String_, top, geometryTypeString, h1, h2, h3, h4, h5, h6, h7, pop]
    rw [hs, new_of_rejected_at x0 json _ _ tail syn msg off _ _ hkey hstr
      (fun h => Expected.noConfusion h)]
    simp [Expected.describe, Actual.describe]

/-- C20, witness: the document `{"type": ""}` of the test `WrongRootType`, and a
Feature whose geometry object has the type `"Feature"`. -/
theorem C20_witness_wrong_type_keywords :
    decode (0 : Int) (.obj [("type", .str "")]) [] "" (fun _ => 0) =
      ⟨some ⟨"Expected one of 'Point', 'MultiPoint', 'LineString', 'MultiLineString', 'Polygon', 'MultiPolygon', 'GeometryCollection', 'Feature', or 'FeatureCollection', but got an invalid keyword instead.",
        0, 0⟩, []⟩ ∧
    decode (0 : Int) (.obj [("type", .str "Feature"),
        ("geometry", .obj [("type", .str "Feature")])]) [] "" (fun _ => 0) =
      ⟨some ⟨"Expected one of 'Point', 'MultiPoint', 'LineString', 'MultiLineString', 'Polygon', 'MultiPolygon', or 'GeometryCollection', but got an invalid keyword instead.",
        0, 0⟩, []⟩ :=
  ⟨(C20_string_outside_keyword_set_is_rejected (0 : Int) [] [Event.startObject]
      [Event.endObject] none "" (fun _ => 0) (init 0) "" rfl).1 rfl (by decide),
    (C20_string_outside_keyword_set_is_rejected (0 : Int) []
      [Event.startObject, .key "type", .string "Feature", .key "geometry", .startObject]
      [Event.endObject, .endObject] none "" (fun _ => 0) _ "Feature" rfl).2 rfl (by decide)⟩

/-! ## C21: the keyword `GeometryCollection` -/

/-- C21: the string "GeometryCollection" read as the value of a `type` key is
rejected, at the root as in a geometry object, and the decode fails at that
string: for a `type` key of the root object with the invalid-keyword message of
the root level (`rootTypeString` has no case for it), for a `type` key of a
geometry object with the invalid-keyword message of the geometry level
(`geometryTypeString` stores the type and rejects). This holds after any events
`es` the handler accepted and whatever follows; no feature is returned. -/
theorem C21_geometry_collection_is_rejected {ν : Type} (x0 : ν) (json : List Char)
    (es tail : List (Event ν)) (syn : Option String) (msg : String) (off : Nat → Nat)
    (s : GeoJSONReader ν) (hes : (init x0).feed es = (true, s)) :
    (top s.expect = Expected.Root →
      GeoJSON.new x0 json
          ⟨es ++ Event.key "type" :: Event.string "GeometryCollection" :: tail, syn, msg, off⟩ =
        ⟨some ⟨"Expected one of 'Point', 'MultiPoint', 'LineString', 'MultiLineString', 'Polygon', 'MultiPolygon', 'GeometryCollection', 'Feature', or 'FeatureCollection', but got an invalid keyword instead.",
          (offsetToRowAndCol json (off (es.length + 1))).1,
          (offsetToRowAndCol json (off (es.length + 1))).2⟩, []⟩) ∧
    (top s.expect = Expected.Geometry →
      GeoJSON.new x0 json
          ⟨es ++ Event.key "type" :: Event.string "GeometryCollection" :: tail, syn, msg, off⟩ =
        ⟨some ⟨"Expected one of 'Point', 'MultiPoint', 'LineString', 'MultiLineString', 'Polygon', 'MultiPolygon', or 'GeometryCollection', but got an invalid keyword instead.",
          (offsetToRowAndCol json (off (es.length + 1))).1,
          (offsetToRowAndCol json (off (es.length + 1))).2⟩, []⟩) := by
  have hs : es ++ Event.key "type" :: Event.string "GeometryCollection" :: tail =
      (es ++ [Event.key "type"]) ++ Event.string "GeometryCollection" :: tail := by simp
  constructor
  · intro htop
    have hkey : (init x0).feed (es ++ [Event.key "type"]) =
        (true, { s with expect := Expected.Type_ :: s.expect }) := by
      rw [feed_append, hes]
      simp [feed, handle, Key, htop]
    have hstr : ({ s with expect := Expected.Type_ :: s.expect } : GeoJSONReader ν).handle
        (Event.string "GeometryCollection") =
          (false, { s with error := (Expected.Type_, Actual.Keyword) }) := by
      simp [handle, String_, top, rootTypeString, pop]
    rw [hs, new_of_rejected_at x0 json _ _ tail syn msg off _ _ hkey hstr
      (fun h => Expected.noConfusion h)]
    simp [Expected.describe, Actual.describe]
  · intro htop
    have hkey : (init x0).feed (es ++ [Event.key "type"]) =
        (true, { s with expect := Expected.GeometryType :: s.expect }) := by
      rw [feed_append, hes]
      simp [feed, handle, Key, htop]
    have hstr : ({ s with expect := Expected.GeometryType :: s.expect } : GeoJSONReader ν).handle
        (Event.string "GeometryCollection") =
          (false, { s with geometryType := GeometryType.GeometryCollection
                           error := (Expected.GeometryType, Actual.Keyword) }) := by
      simp [handle, String_, top, geometryTypeString, pop]
    rw [hs, new_of_rejected_at x0 json _ _ tail syn msg off _ _ hkey hstr
      (fun h => Expected.noConfusion h)]
    simp [Expected.describe, Actual.describe]

/-- C21, witness: the root object `{"type": "GeometryCollection"}` and a Feature
whose geometry object has the type `"GeometryCollection"`. -/
theorem C21_witness_geometry_collection_documents :
    decode (0 : Int) (.obj [("type", .str "GeometryCollection")]) [] "" (fun _ => 0) =
      ⟨some ⟨"Expected one of 'Point', 'MultiPoint', 'LineString', 'MultiLineString', 'Polygon', 'MultiPolygon', 'GeometryCollection', 'Feature', or 'FeatureCollection', but got an invalid keyword instead.",
        0, 0⟩, []⟩ ∧
    decode (0 : Int) (.obj [("type", .str "Feature"),
        ("geometry", .obj [("type", .str "GeometryCollection")])]) [] "" (fun _ => 0) =
      ⟨some ⟨"Expected one of 'Point', 'MultiPoint', 'LineString', 'MultiLineString', 'Polygon', 'MultiPolygon', or 'GeometryCollection', but got an invalid keyword instead.",
        0, 0⟩, []⟩ :=
  ⟨(C21_geometry_collection_is_rejected (0 : Int) [] [Event.startObject]
      [Event.endObject] none "" (fun _ => 0) (init 0) rfl).1 rfl,
    (C21_geometry_collection_is_rejected (0 : Int) []
      [Event.startObject, .key "type", .string "Feature", .key "geometry", .startObject]
      [Event.endObject, .endObject] none "" (fun _ => 0) _ rfl).2 rfl⟩

/-! ## C30: `null` and booleans -/

/-- C30: in every state whose stack top is not `Ignored`, `Null` and `Bool` reject
the event and record the stack top as expected and `Null`, resp. `Boolean`
("a null object", "a boolean") as actual, whatever the `speculative` flag; in
every state whose top is `Ignored` they accept it and change nothing but the
stack, from which the `Ignored` frame is popped when `ignoredDepth` is 0. After
any accepted events `es` that leave a top other than `Ignored`, the decode fails
at the `null` or boolean with "Expected <description of the top>, but got a
null object / a boolean instead.". -/
theorem C30_null_and_bool_are_rejected_unless_ignored {ν : Type} (x0 : ν) (json : List Char)
    (es tail : List (Event ν)) (syn : Option String) (msg : String) (off : Nat → Nat)
    (s : GeoJSONReader ν) (b : Bool) :
    (top s.expect ≠ Expected.Ignored →
      s.handle Event.null = (false, { s with error := (top s.expect, Actual.Null) }) ∧
      s.handle (Event.bool b) = (false, { s with error := (top s.expect, Actual.Boolean) })) ∧
    (top s.expect = Expected.Ignored →
      s.handle Event.null = (true, s.popIfDone) ∧
      s.handle (Event.bool b) = (true, s.popIfDone)) ∧
    (Actual.Null.describe = "a null object" ∧ Actual.Boolean.describe = "a boolean") ∧
    ((init x0).feed es = (true, s) → top s.expect ≠ Expected.Ignored →
      top s.expect ≠ Expected.None →
      GeoJSON.new x0 json ⟨es ++ Event.null :: tail, syn, msg, off⟩ =
        ⟨some ⟨"Expected " ++ (top s.expect).describe ++ ", but got a null object instead.",
          (offsetToRowAndCol json (off es.length)).1,
          (offsetToRowAndCol json (off es.length)).2⟩, []⟩ ∧
      GeoJSON.new x0 json ⟨es ++ Event.bool b :: tail, syn, msg, off⟩ =
        ⟨some ⟨"Expected " ++ (top s.expect).describe ++ ", but got a boolean instead.",
          (offsetToRowAndCol json (off es.length)).1,
          (offsetToRowAndCol json (off es.length)).2⟩, []⟩) := by
  have hrej : top s.expect ≠ Expected.Ignored →
      s.handle Event.null = (false, { s with error := (top s.expect, Actual.Null) }) ∧
      s.handle (Event.bool b) = (false, { s with error := (top s.expect, Actual.Boolean) }) := by
    intro htop
    cases h : top s.expect <;> first | exact absurd h htop | simp [handle, Null, Bool_, h, fail]
  refine ⟨hrej, ?_, ⟨rfl, rfl⟩, ?_⟩
  · intro htop
    by_cases h0 : s.ignoredDepth = 0 <;> simp [handle, Null, Bool_, htop, popIfDone, h0]
  · intro hes htop hne
    obtain ⟨h1, h2⟩ := hrej htop
    have e1 : ∀ d : String, d ++ ", but got " ++ Actual.Null.describe ++ " instead." =
        d ++ ", but got a null object instead." := by
      intro d
      rw [String.append_assoc, String.append_assoc]
      rfl
    have e2 : ∀ d : String, d ++ ", but got " ++ Actual.Boolean.describe ++ " instead." =
        d ++ ", but got a boolean instead." := by
      intro d
      rw [String.append_assoc, String.append_assoc]
      rfl
    rw [new_of_rejected_at x0 json es _ tail syn msg off s _ hes h1 hne,
      new_of_rejected_at x0 json es _ tail syn msg off s _ hes h2 hne]
    simp only [e1, e2]
    exact ⟨trivial, trivial⟩

/-- C30, witness: the documents of the tests `PointFeatureInvalidCoordinates4`
(a boolean inside the coordinates array) and `PointFeatureInvalidCoordinates5`
(`null` in place of the coordinates array). -/
theorem C30_witness_boolean_and_null_coordinates :
    decode (0 : Int) (.obj [("geometry", .obj [("type", .str "Point"),
        ("coordinates", .arr [.bool false])]), ("type", .str "Feature")]) [] "" (fun _ => 0) =
      ⟨some ⟨"Expected a coordinate array, but got a boolean instead.", 0, 0⟩, []⟩ ∧
    decode (0 : Int) (.obj [("geometry", .obj [("type", .str "Point"),
        ("coordinates", .null)]), ("type", .str "Feature")]) [] "" (fun _ => 0) =
      ⟨some ⟨"Expected a coordinate array, but got a null object instead.", 0, 0⟩, []⟩ :=
  ⟨((C30_null_and_bool_are_rejected_unless_ignored (0 : Int) []
      [Event.startObject, .key "geometry", .startObject, .key "type", .string "Point",
        .key "coordinates", .startArray]
      [Event.endArray, .endObject, .key "type", .string "Feature", .endObject] none ""
      (fun _ => 0) _ false).2.2.2 rfl (by decide) (by decide)).2,
    ((C30_null_and_bool_are_rejected_unless_ignored (0 : Int) []
      [Event.startObject, .key "geometry", .startObject, .key "type", .string "Point",
        .key "coordinates"]
      [Event.endObject, .key "type", .string "Feature", .endObject] none ""
      (fun _ => 0) _ false).2.2.2 rfl (by decide) (by decide)).1⟩

/-! ## C23: no partial output -/

/-- C23: for every text and every reading of it by the tokenizer, the result is
valid exactly when every event was accepted and the tokenizer raised no syntax
error; a result with an error exposes no feature (`size()` is 0), whatever the
handler had emitted; a result without error exposes exactly the features the
handler emitted, in the order of emission. The last part shows a parse in which
the handler has emitted a feature and the exposed sequence is empty: a Point
object followed by a syntax error of the tokenizer. -/
theorem C23_no_partial_output_on_failure {ν : Type} (x0 a b : ν) (json : List Char)
    (tk : Tokenizer ν) (m t : String) (off : Nat → Nat) :
    ((GeoJSON.new x0 json tk).isValid = true ↔
      (((init x0).feed tk.events).1 = true ∧ tk.syntaxError = none)) ∧
    ((GeoJSON.new x0 json tk).isValid = false →
      (GeoJSON.new x0 json tk).size = 0 ∧ (GeoJSON.new x0 json tk).features = []) ∧
    ((GeoJSON.new x0 json tk).isValid = true →
      (GeoJSON.new x0 json tk).features = ((init x0).feed tk.events).2.inserter) ∧
    (((init x0).feed (JSON.obj [("type", .str "Point"),
        ("coordinates", .arr [.num a, .num b])]).events).2.inserter
          = [⟨Geometry.Point [(a, b)]⟩] ∧
      GeoJSON.new x0 json ⟨(JSON.obj [("type", .str "Point"),
        ("coordinates", .arr [.num a, .num b])]).events, some m, t, off⟩ =
          ⟨some ⟨m, (offsetToRowAndCol json (off 9)).1, (offsetToRowAndCol json (off 9)).2⟩,
            []⟩) := by
  refine ⟨?_, ?_, ?_, rfl, rfl⟩
  all_goals
    simp only [GeoJSON.new, GeoJSON.isValid, GeoJSON.size]
    rcases (init x0).feed tk.events with ⟨ok, s⟩
    cases ok <;> cases hsyn : tk.syntaxError <;>
      by_cases he : s.error.1 = Expected.None <;> simp [he]

/-! ## C25: a handler rejection without expectation -/

/-- C25, code defect: in the root object `{"coordinates": n}` the number is
accepted (no type is known, and the depth 0 is taken as the deduced depth), and
the closing brace is then rejected by the default branch of `EndObject`, which
records `Expected::None`. The handler rejection is reported with the message
of the tokenizer for a parse a handler stopped, not in the form "Expected ...,
but got ... instead."; the same happens for the geometry object of a Feature. -/
theorem C25_rejection_reported_with_tokenizer_message {ν : Type} (x0 n : ν) (json : List Char)
    (msg : String) (off : Nat → Nat) :
    ((init x0).feed [Event.startObject, .key "coordinates", .number n]).1 = true ∧
    (((init x0).feed [Event.startObject, .key "coordinates", .number n]).2.handle
      Event.endObject).1 = false ∧
    (((init x0).feed [Event.startObject, .key "coordinates", .number n]).2.handle
      Event.endObject).2.error = (Expected.None, Actual.ObjectEnded) ∧
    decode x0 (.obj [("coordinates", .num n)]) json msg off =
      ⟨some ⟨msg, (offsetToRowAndCol json (off 3)).1, (offsetToRowAndCol json (off 3)).2⟩, []⟩ ∧
    decode x0 (.obj [("type", .str "Feature"), ("geometry", .obj [("coordinates", .num n)])])
        json msg off =
      ⟨some ⟨msg, (offsetToRowAndCol json (off 7)).1, (offsetToRowAndCol json (off 7)).2⟩, []⟩ :=
  ⟨rfl, rfl, rfl, rfl, rfl⟩

/-! ## C28, C29: a string in a coordinates value -/

/-- C28, code defect: a string given directly as the `coordinates` value of a
root object whose type is not yet known is accepted, and leaves the stack as
`[Ignored, Root]` instead of `[Root]`: the `GeometryCoordinates` frame is turned
into an `Ignored` frame that is not popped. The next member is consumed by that
frame: in `{"coordinates": "<str>", "type": "Feature", "geometry": {"type":
"Point", "coordinates": [a, b]}}` the member `type` is skipped and the decode
fails with "Expected a key 'type' in the root object, ...", while the same
document without the `coordinates` member decodes to the point `(a, b)`. When
the value is an array, whatever it holds, the reader is back between two
members of the root object once every event of it was accepted. -/
theorem C28_string_as_coordinates_value_leaves_ignored_frame {ν : Type} (x0 a b : ν)
    (str : String) (json : List Char) (msg : String) (off : Nat → Nat) :
    ((init x0).feed [Event.startObject, .key "coordinates", .string str]).1 = true ∧
    ((init x0).feed [Event.startObject, .key "coordinates", .string str]).2.expect =
      [Expected.Ignored, Expected.Root] ∧
    ((init x0).feed [Event.startObject]).2.expect = [Expected.Root] ∧
    decode x0 (.obj [("coordinates", .str str), ("type", .str "Feature"),
        ("geometry", .obj [("type", .str "Point"), ("coordinates", .arr [.num a, .num b])])])
        json msg off =
      ⟨some ⟨"Expected a key 'type' in the root object, but got a prematurely closed object instead.",
        (offsetToRowAndCol json (off 15)).1, (offsetToRowAndCol json (off 15)).2⟩, []⟩ ∧
    decode x0 (.obj [("type", .str "Feature"),
        ("geometry", .obj [("type", .str "Point"), ("coordinates", .arr [.num a, .num b])])])
        json msg off = ⟨none, [⟨Geometry.Point [(a, b)]⟩]⟩ ∧
    (∀ (elements : List (JSON ν)) (s : GeoJSONReader ν),
      (init x0).feed (Event.startObject :: Event.key "coordinates" ::
        (JSON.arr elements).events) = (true, s) → AtBoundary [Expected.Root] s) := by
  refine ⟨rfl, rfl, rfl, rfl, rfl, ?_⟩
  intro elements s hf
  have hpre : (init x0).feed [Event.startObject, Event.key "coordinates"] =
      (true, (init x0).parseRootCoordinates) := rfl
  have hsplit : Event.startObject :: Event.key "coordinates" :: (JSON.arr elements).events =
      [Event.startObject, Event.key "coordinates"] ++ (JSON.arr elements).events := rfl
  rw [hsplit, feed_append, hpre] at hf
  simp only [if_true] at hf
  exact atBoundary_after_array elements [Expected.Root] (init x0).parseRootCoordinates s
    rfl rfl rfl hf

/-- C29, code defect: with the type `Point` already read, a string met where a
coordinate or an array is expected is accepted: the coordinates value is turned
into an ignored value, whether or not it is parsed speculatively. The object
`{"type": "Point", "coordinates": ["<str>"]}` does not fail at the string (event
5) but at its closing brace (event 7), with "Expected a 'coordinates' key value
pair, ...", and after an earlier `coordinates: [a, b]` the string is skipped
silently and the document decodes to the point `(a, b)`. A string after one or
two ordinates of a point is rejected at that token. -/
theorem C29_string_in_coordinates_of_known_type_is_skipped {ν : Type} (x0 a b : ν)
    (str : String) (json : List Char) (msg : String) (off : Nat → Nat) :
    decode x0 (.obj [("type", .str "Point"), ("coordinates", .arr [.str str])]) json msg off =
      ⟨some ⟨"Expected a 'coordinates' key value pair, but got a prematurely closed object instead.",
        (offsetToRowAndCol json (off 7)).1, (offsetToRowAndCol json (off 7)).2⟩, []⟩ ∧
    decode x0 (.obj [("type", .str "Point"), ("coordinates", .arr [.num a, .num b]),
        ("coordinates", .arr [.str str])]) json msg off =
      ⟨none, [⟨Geometry.Point [(a, b)]⟩]⟩ ∧
    decode x0 (.obj [("type", .str "Point"), ("coordinates", .arr [.num a, .str str])])
        json msg off =
      ⟨some ⟨"Expected a second coordinate, but got a string instead.",
        (offsetToRowAndCol json (off 6)).1, (offsetToRowAndCol json (off 6)).2⟩, []⟩ ∧
    decode x0 (.obj [("type", .str "Point"),
        ("coordinates", .arr [.num a, .num b, .str str])]) json msg off =
      ⟨some ⟨"Expected a closing bracket, or a coordinate, but got a string instead.",
        (offsetToRowAndCol json (off 7)).1, (offsetToRowAndCol json (off 7)).2⟩, []⟩ :=
  ⟨rfl, rfl, rfl, rfl⟩

/-! ## C24: syntax errors of the tokenizer -/

theorem GeoJSONReader.error_of_setGeometryType {ν : Type} (s : GeoJSONReader ν)
    (t : GeometryType) (h : (s.setGeometryType t).1 = true) :
    (s.setGeometryType t).2.error = s.error := by
  simp only [setGeometryType, fail] at h ⊢
  split_ifs at h ⊢
  rfl

theorem GeoJSONReader.error_of_setRootAndGeometryType {ν : Type} (s : GeoJSONReader ν)
    (r : RootType) (t : GeometryType) (h : (s.setRootAndGeometryType r t).1 = true) :
    (s.setRootAndGeometryType r t).2.error = s.error := by
  simp only [setRootAndGeometryType, setRootType, if_true] at h ⊢
  exact error_of_setGeometryType _ t h

theorem GeoJSONReader.error_of_rootTypeString {ν : Type} (s : GeoJSONReader ν) (x : String)
    (h : (s.rootTypeString x).1 = true) (hx : x ≠ "FeatureCollection") :
    (s.rootTypeString x).2.error = s.error := by
  simp only [rootTypeString] at h ⊢
  split_ifs at h ⊢
  · rfl
  all_goals exact error_of_setRootAndGeometryType _ _ _ h

theorem GeoJSONReader.error_of_geometryTypeString {ν : Type} (s : GeoJSONReader ν) (x : String)
    (h : (s.geometryTypeString x).1 = true) :
    (s.geometryTypeString x).2.error = s.error := by
  simp only [geometryTypeString] at h ⊢
  split_ifs at h ⊢
  all_goals exact error_of_setGeometryType _ _ h

theorem GeoJSONReader.error_of_accepted_string {ν : Type} (s : GeoJSONReader ν) (x : String)
    (h : (s.handle (Event.string x)).1 = true) (hx : x ≠ "FeatureCollection") :
    (s.handle (Event.string x)).2.error = s.error := by
  cases htop : top s.expect <;> simp only [handle, String_, htop] at h ⊢
  case Ignored => simp only [ignored]; split_ifs <;> rfl
  case Type_ => exact error_of_rootTypeString s x h hx
  case GeometryType => exact error_of_geometryTypeString s x h
  all_goals first | rfl | exact absurd h (by simp [fail])

set_option maxHeartbeats 1600000 in
theorem GeoJSONReader.error_of_accepted_other {ν : Type} {s s' : GeoJSONReader ν} (e : Event ν)
    (h : s.handle e = (true, s')) (hne : ∀ x, e ≠ Event.string x) : s'.error = s.error := by
  cases e with
  | string x => exact absurd rfl (hne x)
  | _ =>
    cases htop : top s.expect <;>
      simp only [handle, StartObject, EndObject, StartArray, EndArray, Key, handleNumber, Null,
        Bool_, htop, fail, endIgnored, endRootObject, endGeometryObject, endCoordinatesArray,
        startCoordinatesArray, parseGeometry, parseRootCoordinates, parseGeometryCoordinates]
        at h
    all_goals try split at h
    all_goals try split at h
    all_goals try split_ifs at h
    all_goals try simp only [Prod.mk.injEq, true_and, false_and, Bool.true_eq_false,
        Bool.false_eq_true] at h
    all_goals (subst h; first | rfl | (split <;> rfl))

theorem GeoJSONReader.error_of_feed {ν : Type} (es : List (Event ν)) (s s' : GeoJSONReader ν)
    (h : s.feed es = (true, s')) (hne : ∀ e ∈ es, e ≠ Event.string "FeatureCollection") :
    s'.error = s.error := by
  induction es generalizing s with
  | nil =>
    simp only [feed, Prod.mk.injEq, true_and] at h
    rw [h]
  | cons e es ih =>
    obtain ⟨s1, h1, h2⟩ := feed_cons_ok h
    have hstep : s1.error = s.error := by
      cases e with
      | string x =>
        have := error_of_accepted_string s x (by rw [h1])
          (fun hx => hne (Event.string x) (List.mem_cons_self _ _) (by rw [hx]))
        rw [h1] at this
        exact this
      | _ => exact error_of_accepted_other _ h1 (fun x hx => Event.noConfusion hx)
    exact (ih s1 h2 (fun e he => hne e (List.mem_cons_of_mem _ he))).trans hstep

theorem accepted_of_ok {ν : Type} (s s1 : GeoJSONReader ν) (es : List (Event ν))
    (h : s.feed es = (true, s1)) : s.accepted es = es.length := by
  have := accepted_append_of_ok s s1 es [] h
  simpa [accepted] using this

/-- C24, code defect: the text `{"type": "FeatureCollection"` breaks off after the
string; the handler has accepted its three events and the tokenizer raises its
syntax error `m`. The Error message is not `m` but "Expected one of 'Point',
..., or 'FeatureCollection', but got an invalid keyword instead.":
`rootTypeString` writes `error` in the branch that accepts "FeatureCollection",
and the constructor takes any recorded expectation for a format error. For
every stream of accepted events without the string "FeatureCollection" the
syntax error of the tokenizer is passed through unchanged. -/
theorem C24_syntax_error_after_feature_collection_is_replaced {ν : Type} (x0 : ν)
    (json : List Char) (m t : String) (off : Nat → Nat) :
    GeoJSON.new x0 json
        ⟨[Event.startObject, .key "type", .string "FeatureCollection"], some m, t, off⟩ =
      ⟨some ⟨"Expected one of 'Point', 'MultiPoint', 'LineString', 'MultiLineString', 'Polygon', 'MultiPolygon', 'GeometryCollection', 'Feature', or 'FeatureCollection', but got an invalid keyword instead.",
        (offsetToRowAndCol json (off 3)).1, (offsetToRowAndCol json (off 3)).2⟩, []⟩ ∧
    ((init x0).feed [Event.startObject, .key "type", .string "FeatureCollection"]).1 = true ∧
    (∀ es : List (Event ν), (∀ e ∈ es, e ≠ Event.string "FeatureCollection") →
      ((init x0).feed es).1 = true →
      GeoJSON.new x0 json ⟨es, some m, t, off⟩ =
        ⟨some ⟨m, (offsetToRowAndCol json (off es.length)).1,
          (offsetToRowAndCol json (off es.length)).2⟩, []⟩) := by
  refine ⟨rfl, rfl, ?_⟩
  intro es hne hok
  rcases hf : (init x0).feed es with ⟨ok, s⟩
  rw [hf] at hok
  simp only at hok
  subst hok
  have herr : s.error.1 = Expected.None := by
    rw [error_of_feed es _ _ hf hne]
    rfl
  simp [GeoJSON.new, hf, herr, accepted_of_ok _ _ _ hf]

/-- C24, witness: a Polygon text that breaks off before its closing brace, in the
manner of the test `PolygonNoClosingBrace`: the message is the tokenizer's. -/
theorem C24_witness_polygon_without_closing_brace :
    GeoJSON.new (0 : Int) [] ⟨[Event.startObject, .key "type", .string "Polygon",
        .key "coordinates", .startArray, .startArray, .startArray, .number 1, .number 2,
        .endArray, .endArray, .endArray], some "Missing a comma or '\x7d' after an object member.",
        "", fun _ => 0⟩ =
      ⟨some ⟨"Missing a comma or '\x7d' after an object member.", 0, 0⟩, []⟩ :=
  (C24_syntax_error_after_feature_collection_is_replaced (0 : Int) []
    "Missing a comma or '\x7d' after an object member." "" (fun _ => 0)).2.2 _ (by decide)
    (by decide)

/-! ## C26: a second `type` member -/

theorem GeoJSONReader.rootTypeString_keyword {ν : Type} (s : GeoJSONReader ν)
    (t : GeometryType) (ht : t.isGeometry = true) :
    s.rootTypeString t.keyword =
      ((s.setRootAndGeometryType t.toRootType t).1,
        { (s.setRootAndGeometryType t.toRootType t).2 with
          expect := pop (s.setRootAndGeometryType t.toRootType t).2.expect }) := by
  cases t <;> first | exact absurd ht (by decide) | rfl

theorem GeoJSONReader.geometryTypeString_keyword {ν : Type} (s : GeoJSONReader ν)
    (t : GeometryType) (ht : t.isGeometry = true) :
    s.geometryTypeString t.keyword =
      ((s.setGeometryType t).1,
        { (s.setGeometryType t).2 with expect := pop (s.setGeometryType t).2.expect }) := by
  cases t <;> first | exact absurd ht (by decide) | rfl

/-- C26, counterexample: the second `type` member is accepted and overwrites the
first. `{"type": "LineString", "type": "MultiPoint", "coordinates": [[1, 2]]}`
decodes to a Feature of variant Point (a LineString would give variant Line),
and `{"type": "Point", "type": "Feature", "geometry": ...}` decodes as a Feature.
When the second keyword is rejected (`Point`, then `LineString`) the stored root
type is `LineString` all the same. -/
theorem C26_counterexample_second_type_overwrites :
    decode (0 : Int) (.obj [("type", .str "LineString"), ("type", .str "MultiPoint"),
        ("coordinates", .arr [.arr [.num 1, .num 2]])]) [] "" (fun _ => 0) =
      ⟨none, [⟨Geometry.Point [(1, 2)]⟩]⟩ ∧
    decode (0 : Int) (.obj [("type", .str "LineString"),
        ("coordinates", .arr [.arr [.num 1, .num 2]])]) [] "" (fun _ => 0) =
      ⟨none, [⟨Geometry.Line [[(1, 2)]]⟩]⟩ ∧
    decode (0 : Int) (.obj [("type", .str "Point"), ("type", .str "Feature"),
        ("geometry", .obj [("type", .str "Point"), ("coordinates", .arr [.num 1, .num 2])])])
        [] "" (fun _ => 0) =
      ⟨none, [⟨Geometry.Point [(1, 2)]⟩]⟩ ∧
    ((init (0 : Int)).feed [Event.startObject, .key "type", .string "Point", .key "type",
        .string "LineString"]).1 = false ∧
    ((init (0 : Int)).feed [Event.startObject, .key "type", .string "Point", .key "type",
        .string "LineString"]).2.rootType = RootType.LineString := by
  decide

/-- C26, amended: a second `type` member whose value is one of the six geometry
keywords is rejected exactly when the depth it requires differs from the depth
already fixed (by the first keyword, or by a coordinates value); the stored
geometry type is then left as it was, and otherwise overwritten by the second
keyword. At the root, the stored root type is overwritten by the second keyword
in both cases. A second `type: "Feature"` of the root object is accepted and
overwrites the root type. -/
theorem C26_second_type_overwrites_unless_depth_differs {ν : Type} (x0 : ν)
    (s : GeoJSONReader ν) (t1 t2 : GeometryType) (ht1 : t1.isGeometry = true)
    (ht2 : t2.isGeometry = true) :
    (top s.expect = Expected.Type_ →
      ((s.handle (.string t2.keyword)).1 =
        decide (¬ (s.deducedGeometryDepth > 0 ∧
          s.deducedGeometryDepth ≠ getExpectedGeometryDepth t2))) ∧
      (s.handle (.string t2.keyword)).2.rootType = t2.toRootType ∧
      (s.handle (.string t2.keyword)).2.geometryType =
        (if (s.handle (.string t2.keyword)).1 = true then t2 else s.geometryType) ∧
      (s.handle (.string "Feature")).1 = true ∧
      (s.handle (.string "Feature")).2.rootType = RootType.Feature ∧
      (s.handle (.string "Feature")).2.geometryType = s.geometryType) ∧
    (top s.expect = Expected.GeometryType →
      ((s.handle (.string t2.keyword)).1 =
        decide (¬ (s.deducedGeometryDepth > 0 ∧
          s.deducedGeometryDepth ≠ getExpectedGeometryDepth t2))) ∧
      (s.handle (.string t2.keyword)).2.rootType = s.rootType ∧
      (s.handle (.string t2.keyword)).2.geometryType =
        (if (s.handle (.string t2.keyword)).1 = true then t2 else s.geometryType)) ∧
    (((init x0).feed [Event.startObject, .key "type", .string t1.keyword, .key "type",
        .string t2.keyword]).1 =
        decide (getExpectedGeometryDepth t1 = getExpectedGeometryDepth t2) ∧
      ((init x0).feed [Event.startObject, .key "type", .string t1.keyword, .key "type",
        .string t2.keyword]).2.rootType = t2.toRootType ∧
      ((init x0).feed [Event.startObject, .key "type", .string t1.keyword, .key "type",
        .string t2.keyword]).2.geometryType =
        (if getExpectedGeometryDepth t1 = getExpectedGeometryDepth t2 then t2 else t1)) ∧
    (((init x0).feed [Event.startObject, .key "type", .string "Feature", .key "geometry",
        .startObject, .key "type", .string t1.keyword, .key "type", .string t2.keyword]).1 =
        decide (getExpectedGeometryDepth t1 = getExpectedGeometryDepth t2) ∧
      ((init x0).feed [Event.startObject, .key "type", .string "Feature", .key "geometry",
        .startObject, .key "type", .string t1.keyword, .key "type",
        .string t2.keyword]).2.geometryType =
        (if getExpectedGeometryDepth t1 = getExpectedGeometryDepth t2 then t2 else t1)) := by
  refine ⟨?_, ?_, ?_, ?_⟩
  · intro htop
    simp only [handle, String_, htop, rootTypeString_keyword s t2 ht2, setRootAndGeometryType,
      setRootType, setGeometryType, fail, if_true]
    refine ⟨?_, ?_, ?_, rfl, rfl, rfl⟩
    · split_ifs with h <;> simp_all
      by_cases h0 : 0 < s.deducedGeometryDepth
      · exact Or.inr (h h0)
      · exact Or.inl (not_lt.mp h0)
    · split_ifs <;> rfl
    · split_ifs <;> simp_all
  · intro htop
    simp only [handle, String_, htop, geometryTypeString_keyword s t2 ht2, setGeometryType, fail]
    refine ⟨?_, ?_, ?_⟩
    · split_ifs with h <;> simp_all
      by_cases h0 : 0 < s.deducedGeometryDepth
      · exact Or.inr (h h0)
      · exact Or.inl (not_lt.mp h0)
    · split_ifs <;> rfl
    · split_ifs <;> simp_all
  · cases t1 <;> cases t2 <;> first
      | exact absurd ht1 (by decide)
      | exact absurd ht2 (by decide)
      | exact ⟨rfl, rfl, rfl⟩
  · cases t1 <;> cases t2 <;> first
      | exact absurd ht1 (by decide)
      | exact absurd ht2 (by decide)
      | exact ⟨rfl, rfl⟩

/-- C26, witness: `LineString` then `MultiPoint` (same depth), with the reader
taken after the first `type` member and the second `type` key. -/
theorem C26_witness_linestring_then_multipoint :
    GeometryType.LineString.isGeometry = true ∧ GeometryType.MultiPoint.isGeometry = true ∧
    ((init (0 : Int)).feed [Event.startObject, .key "type", .string "LineString", .key "type",
        .string "MultiPoint"]).1 = true ∧
    ((init (0 : Int)).feed [Event.startObject, .key "type", .string "LineString", .key "type",
        .string "MultiPoint"]).2.rootType = RootType.MultiPoint ∧
    ((init (0 : Int)).feed [Event.startObject, .key "type", .string "LineString", .key "type",
        .string "MultiPoint"]).2.geometryType = GeometryType.MultiPoint :=
  ⟨rfl, rfl, (C26_second_type_overwrites_unless_depth_differs (0 : Int) (init 0)
    GeometryType.LineString GeometryType.MultiPoint rfl rfl).2.2.1⟩

/-! ## What the members other than the root `type` leave untouched -/

theorem GeoJSONReader.root_of_frame {ν : Type} {s s' : GeoJSONReader ν}
    (h : s'.frame = s.frame) : s'.rootType = s.rootType ∧ s'.inserter = s.inserter :=
  ⟨congrArg (fun f => f.1) h, congrArg (fun f => f.2.2.2) h⟩

theorem GeoJSONReader.root_of_setGeometryType {ν : Type} (s : GeoJSONReader ν)
    (t : GeometryType) :
    (s.setGeometryType t).2.rootType = s.rootType ∧
      (s.setGeometryType t).2.inserter = s.inserter := by
  simp only [setGeometryType, fail]
  split_ifs <;> exact ⟨rfl, rfl⟩

theorem GeoJSONReader.root_of_geometryTypeString {ν : Type} (s : GeoJSONReader ν) (x : String) :
    (s.geometryTypeString x).2.rootType = s.rootType ∧
      (s.geometryTypeString x).2.inserter = s.inserter := by
  simp only [geometryTypeString]
  split_ifs
  all_goals first
    | exact root_of_setGeometryType _ _
    | exact ⟨rfl, rfl⟩

/-- A well-typed member of a geometry object leaves the root type and the output
as they were. -/
theorem GeoJSONReader.root_of_geometryMember {ν : Type} {rest : List Expected}
    {s s' : GeoJSONReader ν} (hb : AtBoundary (Expected.Geometry :: rest) s) (k : String)
    (v : JSON ν) (hw : wellTypedGeometryMember (k, v) = true)
    (hf : s.feed (Event.key k :: v.events) = (true, s')) :
    s'.rootType = s.rootType ∧ s'.inserter = s.inserter := by
  by_cases hk1 : k = "type"
  · obtain ⟨s1, h1, h2⟩ := feed_cons_ok hf
    have htop : top s.expect = Expected.Geometry := by rw [hb.1]; rfl
    simp only [handle, Key, htop] at h1
    rw [if_pos hk1] at h1
    simp only [Prod.mk.injEq, true_and] at h1
    subst h1
    cases v <;> simp [wellTypedGeometryMember, JSON.isStr, hk1] at hw
    rename_i x
    have h3 := feed_singleton_ok h2
    simp only [handle, String_, top] at h3
    have := root_of_geometryTypeString
      ({ s with expect := Expected.GeometryType :: s.expect } : GeoJSONReader ν) x
    rw [h3] at this
    exact this
  · exact root_of_frame (frame_geometryMember hb k v
      (by simp [plainGeometryMember, hw, hk1]) hf)

theorem GeoJSONReader.root_of_geometryMembers {ν : Type} {rest : List Expected}
    (ms : List (String × JSON ν)) {s s' : GeoJSONReader ν}
    (hb : AtBoundary (Expected.Geometry :: rest) s)
    (hw : ms.all wellTypedGeometryMember = true)
    (hf : s.feed (JSON.memberEvents ms) = (true, s')) :
    s'.rootType = s.rootType ∧ s'.inserter = s.inserter := by
  induction ms generalizing s with
  | nil =>
    simp only [JSON.memberEvents, feed, Prod.mk.injEq, true_and] at hf
    exact hf ▸ ⟨rfl, rfl⟩
  | cons m ms ih =>
    obtain ⟨k, v⟩ := m
    simp only [List.all_cons, Bool.and_eq_true] at hw
    simp only [JSON.memberEvents] at hf
    have hf2 : s.feed ((Event.key k :: v.events) ++ JSON.memberEvents ms) = (true, s') := by
      simpa using hf
    obtain ⟨s1, h1, h2⟩ := feed_append_ok hf2
    have hb1 := atBoundary_geometryMember hb k v hw.1 h1
    obtain ⟨e1, e2⟩ := root_of_geometryMember hb k v hw.1 h1
    obtain ⟨e3, e4⟩ := ih hb1 hw.2 h2
    exact ⟨e3.trans e1, e4.trans e2⟩

theorem GeoJSONReader.root_of_endGeometryObject {ν : Type} {rest : List Expected}
    {s s' : GeoJSONReader ν} (hb : AtBoundary (Expected.Geometry :: rest) s)
    (h : s.handle Event.endObject = (true, s')) :
    s'.rootType = s.rootType ∧ s'.inserter = s.inserter := by
  obtain ⟨hx, h0, hd⟩ := hb
  simp only [handle, EndObject, hx, top, endGeometryObject, fail, pop] at h
  split at h <;> (try split at h) <;>
    simp only [Prod.mk.injEq, true_and, false_and, Bool.true_eq_false, Bool.false_eq_true] at h <;>
    (subst h; exact ⟨rfl, rfl⟩)

theorem GeoJSONReader.root_of_geometryObject {ν : Type} {rest : List Expected}
    (ms : List (String × JSON ν)) {s s' : GeoJSONReader ν}
    (hb : AtBoundary (Expected.Geometry :: rest) s)
    (hw : ms.all wellTypedGeometryMember = true)
    (hf : s.feed (JSON.obj ms).events = (true, s')) :
    s'.rootType = s.rootType ∧ s'.inserter = s.inserter := by
  simp only [JSON.events] at hf
  obtain ⟨s1, h1, h2⟩ := feed_cons_ok hf
  obtain ⟨s2, h3, h4⟩ := feed_append_ok h2
  have htop : top s.expect = Expected.Geometry := by rw [hb.1]; rfl
  simp only [handle, StartObject, htop, Prod.mk.injEq, true_and] at h1
  subst h1
  obtain ⟨e1, e2⟩ := root_of_geometryMembers ms hb hw h3
  obtain ⟨e3, e4⟩ := root_of_endGeometryObject (atBoundary_geometryMembers ms hb hw h3)
    (feed_singleton_ok h4)
  exact ⟨e3.trans e1, e4.trans e2⟩

/-- A well-typed member of the root object other than `type` leaves the root type
and the output as they were. -/
theorem GeoJSONReader.root_of_rootMember {ν : Type} {rest : List Expected}
    {s s' : GeoJSONReader ν} (hb : AtBoundary (Expected.Root :: rest) s) (k : String)
    (v : JSON ν) (hw : untypedRootMember (k, v) = true)
    (hf : s.feed (Event.key k :: v.events) = (true, s')) :
    s'.rootType = s.rootType ∧ s'.inserter = s.inserter := by
  simp only [untypedRootMember, Bool.and_eq_true, bne_iff_ne, ne_eq] at hw
  obtain ⟨hw, hk1⟩ := hw
  obtain ⟨s1, h1, h2⟩ := feed_cons_ok hf
  have htop : top s.expect = Expected.Root := by rw [hb.1]; rfl
  simp only [handle, Key, htop] at h1
  rw [if_neg hk1] at h1
  by_cases hk2 : k = "geometry"
  · rw [if_pos hk2] at h1
    simp only [Prod.mk.injEq, true_and] at h1
    subst h1
    cases v <;> simp [wellTypedRootMember, hk2] at hw
    rename_i members
    have hpg : s.parseGeometry.rootType = s.rootType ∧ s.parseGeometry.inserter = s.inserter := by
      unfold parseGeometry; split <;> exact ⟨rfl, rfl⟩
    rcases parseGeometry_cases s with hc | ⟨hc1, hc2, hc3⟩
    · rw [hc, feed_value_after_ignored_pushed _ s hb.2.1] at h2
      simp only [Prod.mk.injEq, true_and] at h2
      rw [h2]
      exact ⟨rfl, rfl⟩
    · obtain ⟨e1, e2⟩ := root_of_geometryObject members
        ⟨by rw [hc1, hb.1], by rw [hc3, hb.2.1], by rw [hc2, hb.2.2]⟩ (by simpa using hw) h2
      exact ⟨e1.trans hpg.1, e2.trans hpg.2⟩
  · rw [if_neg hk2] at h1
    by_cases hk3 : k = "coordinates"
    · rw [if_pos hk3] at h1
      simp only [Prod.mk.injEq, true_and] at h1
      subst h1
      cases v <;> simp [wellTypedRootMember, JSON.isArr, hk3] at hw
      rename_i elements
      have hpc : s.parseRootCoordinates.rootType = s.rootType ∧
          s.parseRootCoordinates.inserter = s.inserter := by
        unfold parseRootCoordinates; split <;> exact ⟨rfl, rfl⟩
      rcases parseRootCoordinates_cases s with hc | ⟨hc1, hc2, hc3⟩
      · rw [hc, feed_value_after_ignored_pushed _ s hb.2.1] at h2
        simp only [Prod.mk.injEq, true_and] at h2
        rw [h2]
        exact ⟨rfl, rfl⟩
      · obtain ⟨e1, e2⟩ := root_of_frame (frame_after_array elements (Expected.Root :: rest) _ s'
          (by rw [hc1, hb.1]) (by rw [hc2, hb.2.2]) (by rw [hc3, hb.2.1]) h2)
        exact ⟨e1.trans hpc.1, e2.trans hpc.2⟩
    · rw [if_neg hk3] at h1
      simp only [Prod.mk.injEq, true_and] at h1
      subst h1
      rw [feed_value_after_ignored_pushed _ s hb.2.1] at h2
      simp only [Prod.mk.injEq, true_and] at h2
      rw [h2]
      exact ⟨rfl, rfl⟩

theorem untypedRootMember_wellTyped {ν : Type} (m : String × JSON ν)
    (h : untypedRootMember m = true) : wellTypedRootMember m = true := by
  simp only [untypedRootMember, Bool.and_eq_true] at h
  exact h.1

theorem GeoJSONReader.root_of_rootMembers {ν : Type} {rest : List Expected}
    (ms : List (String × JSON ν)) {s s' : GeoJSONReader ν}
    (hb : AtBoundary (Expected.Root :: rest) s)
    (hw : ms.all untypedRootMember = true)
    (hf : s.feed (JSON.memberEvents ms) = (true, s')) :
    AtBoundary (Expected.Root :: rest) s' ∧ s'.rootType = s.rootType ∧
      s'.inserter = s.inserter := by
  induction ms generalizing s with
  | nil =>
    simp only [JSON.memberEvents, feed, Prod.mk.injEq, true_and] at hf
    exact hf ▸ ⟨hb, rfl, rfl⟩
  | cons m ms ih =>
    obtain ⟨k, v⟩ := m
    simp only [List.all_cons, Bool.and_eq_true] at hw
    simp only [JSON.memberEvents] at hf
    have hf2 : s.feed ((Event.key k :: v.events) ++ JSON.memberEvents ms) = (true, s') := by
      simpa using hf
    obtain ⟨s1, h1, h2⟩ := feed_append_ok hf2
    have hb1 := atBoundary_rootMember hb k v (untypedRootMember_wellTyped _ hw.1) h1
    obtain ⟨e1, e2⟩ := root_of_rootMember hb k v hw.1 h1
    obtain ⟨hb2, e3, e4⟩ := ih hb1 hw.2 h2
    exact ⟨hb2, e3.trans e1, e4.trans e2⟩

/-! ## C22: a root object of type FeatureCollection -/

theorem GeoJSONReader.feed_type_featureCollection {ν : Type} {rest : List Expected}
    (s : GeoJSONReader ν) (hb : AtBoundary (Expected.Root :: rest) s) :
    s.feed [Event.key "type", Event.string "FeatureCollection"] =
      (true, { s with rootType := RootType.FeatureCollection
                      error := (Expected.Type_, Actual.Keyword) }) := by
  obtain ⟨hx, h0, hd⟩ := hb
  cases s
  simp_all [feed, handle, Key, String_, top, rootTypeString, setRootType, pop]

/-- A member other than `type` of a root object of type FeatureCollection is
skipped, whatever its value. -/
theorem GeoJSONReader.feed_member_of_featureCollection {ν : Type} {rest : List Expected}
    (s : GeoJSONReader ν) (hb : AtBoundary (Expected.Root :: rest) s)
    (hr : s.rootType = RootType.FeatureCollection) (k : String) (v : JSON ν)
    (hk : k ≠ "type") :
    s.feed (Event.key k :: v.events) = (true, s) := by
  have hkey : s.handle (Event.key k) = (true, { s with expect := Expected.Ignored :: s.expect }) := by
    by_cases hk2 : k = "geometry" <;> by_cases hk3 : k = "coordinates" <;>
      simp [handle, Key, hb.1, top, hk, hk2, hk3, parseRootCoordinates, parseGeometry, hr]
  rw [feed_cons, hkey]
  exact feed_value_after_ignored_pushed v s hb.2.1

theorem GeoJSONReader.feed_members_of_featureCollection {ν : Type} {rest : List Expected}
    (ms : List (String × JSON ν)) (s : GeoJSONReader ν)
    (hb : AtBoundary (Expected.Root :: rest) s) (hr : s.rootType = RootType.FeatureCollection)
    (hk : ∀ m ∈ ms, m.1 ≠ "type") :
    s.feed (JSON.memberEvents ms) = (true, s) := by
  induction ms with
  | nil => rfl
  | cons m ms ih =>
    obtain ⟨k, v⟩ := m
    have : JSON.memberEvents ((k, v) :: ms) = (Event.key k :: v.events) ++ JSON.memberEvents ms := by
      simp [JSON.memberEvents]
    rw [this, feed_append,
      feed_member_of_featureCollection s hb hr k v (hk (k, v) (List.mem_cons_self _ _))]
    exact ih (fun m hm => hk m (List.mem_cons_of_mem _ hm))

/-- Members with keys other than `type`, `geometry` and `coordinates` are skipped,
whatever their values. -/
theorem GeoJSONReader.feed_members_with_unknown_keys {ν : Type} {rest : List Expected}
    (ms : List (String × JSON ν)) (s : GeoJSONReader ν)
    (hb : AtBoundary (Expected.Root :: rest) s)
    (hk : ∀ m ∈ ms, m.1 ≠ "type" ∧ m.1 ≠ "geometry" ∧ m.1 ≠ "coordinates") :
    s.feed (JSON.memberEvents ms) = (true, s) := by
  induction ms with
  | nil => rfl
  | cons m ms ih =>
    obtain ⟨k, v⟩ := m
    have : JSON.memberEvents ((k, v) :: ms) = Event.key k :: (v.events ++ JSON.memberEvents ms) := by
      simp [JSON.memberEvents]
    rw [this, feed_unknown_member s k v _ (hk (k, v) (List.mem_cons_self _ _))
      (Or.inl (by rw [hb.1]; rfl)) hb.2.1]
    exact ih (fun m hm => hk m (List.mem_cons_of_mem _ hm))

/-- C22, counterexample: the root object `{"type": "GeometryCollection"}` is
rejected with the invalid-keyword error, and a root object of type
FeatureCollection is rejected when a member ahead of `type` is: an empty
`coordinates` array at its closing bracket, a `geometry` object without `type`
at its closing brace. -/
theorem C22_counterexample_collections_rejected :
    (decode (0 : Int) (.obj [("type", .str "GeometryCollection")]) [] ""
        (fun _ => 0)).error.map Error.message =
      some "Expected one of 'Point', 'MultiPoint', 'LineString', 'MultiLineString', 'Polygon', 'MultiPolygon', 'GeometryCollection', 'Feature', or 'FeatureCollection', but got an invalid keyword instead." ∧
    decode (0 : Int) (.obj [("coordinates", .arr []), ("type", .str "FeatureCollection")]) [] ""
        (fun _ => 0) =
      ⟨some ⟨"Expected a coordinate, but got a prematurely closed array instead.", 0, 0⟩, []⟩ ∧
    decode (0 : Int) (.obj [("geometry", .obj []), ("type", .str "FeatureCollection")]) [] ""
        (fun _ => 0) =
      ⟨some ⟨"Expected a key 'type' in the geometry object, but got a prematurely closed object instead.",
        0, 0⟩, []⟩ :=
  ⟨rfl, rfl, rfl⟩

/-- C22, amended: a root object whose one `type` member is `type:
"FeatureCollection"` is accepted and not decoded further - the decode reports no
error and yields no feature - whatever members, with whatever values, follow
`type`, provided the members ahead of `type` are well typed and none of them is
rejected; none is rejected when they are neither `coordinates` nor `geometry`
members. -/
theorem C22_feature_collection_is_accepted_and_not_decoded {ν : Type} (x0 : ν)
    (pre post : List (String × JSON ν)) (json : List Char) (msg : String) (off : Nat → Nat)
    (hpost : ∀ m ∈ post, m.1 ≠ "type") :
    (pre.all untypedRootMember = true →
      ((init x0).feed (Event.startObject :: JSON.memberEvents pre)).1 = true →
      decode x0 (.obj (pre ++ ("type", .str "FeatureCollection") :: post)) json msg off =
        ⟨none, []⟩) ∧
    ((∀ m ∈ pre, m.1 ≠ "type" ∧ m.1 ≠ "geometry" ∧ m.1 ≠ "coordinates") →
      decode x0 (.obj (pre ++ ("type", .str "FeatureCollection") :: post)) json msg off =
        ⟨none, []⟩) := by
  have hev : (JSON.obj (pre ++ ("type", .str "FeatureCollection") :: post)).events =
      (Event.startObject :: JSON.memberEvents pre) ++
        ([Event.key "type", Event.string "FeatureCollection"] ++
          (JSON.memberEvents post ++ [Event.endObject])) := by
    simp [JSON.events, JSON.memberEvents_append, JSON.memberEvents]
  have hb0 := (atBoundary_init_startObject x0).2
  have key : ∀ s1 : GeoJSONReader ν,
      (init x0).feed (Event.startObject :: JSON.memberEvents pre) = (true, s1) →
      AtBoundary [Expected.Root] s1 → s1.inserter = [] →
      decode x0 (.obj (pre ++ ("type", .str "FeatureCollection") :: post)) json msg off =
        ⟨none, []⟩ := by
    intro s1 hf hb1 hins
    apply decode_of_emitted
    rw [hev, feed_append, hf]
    simp only [if_true]
    rw [feed_append, feed_type_featureCollection s1 hb1]
    simp only [if_true]
    rw [feed_append, @feed_members_of_featureCollection ν [] post
      { s1 with rootType := RootType.FeatureCollection
                error := (Expected.Type_, Actual.Keyword) } hb1 rfl hpost]
    simp [feed, handle, EndObject, hb1.1, top, endRootObject, emitted, hins]
  constructor
  · intro hpre hacc
    rcases hf : (init x0).feed (Event.startObject :: JSON.memberEvents pre) with ⟨ok, s1⟩
    rw [hf] at hacc
    simp only at hacc
    subst hacc
    obtain ⟨s0, h0, h1⟩ := feed_cons_ok hf
    rw [(atBoundary_init_startObject x0).1] at h0
    simp only [Prod.mk.injEq, true_and] at h0
    subst h0
    obtain ⟨hb1, -, hins⟩ := root_of_rootMembers pre hb0 hpre h1
    exact key s1 hf hb1 hins
  · intro hk
    have hf : (init x0).feed (Event.startObject :: JSON.memberEvents pre) = (true, init x0) := by
      rw [feed_cons, (atBoundary_init_startObject x0).1]
      exact feed_members_with_unknown_keys pre _ hb0 hk
    exact key (init x0) hf hb0 rfl

/-- C22, witness: a FeatureCollection with a `features` member after `type` and a
`coordinates` member ahead of it. -/
theorem C22_witness_feature_collection :
    decode (0 : Int) (.obj ([("coordinates", .arr [.num 1, .num 2])] ++
        ("type", .str "FeatureCollection") ::
        [("features", .arr [.obj [("type", .str "Feature")]])])) [] "" (fun _ => 0) =
      ⟨none, []⟩ :=
  (C22_feature_collection_is_accepted_and_not_decoded (0 : Int)
    [("coordinates", .arr [.num 1, .num 2])] [("features", .arr [.obj [("type", .str "Feature")]])]
    [] "" (fun _ => 0) (by decide)).1 (by decide) (by decide)

/-! ## C27: root-level `coordinates` of a Feature -/

/-- A `coordinates` member of the root object read after the root type `Feature`
is skipped, whatever its value. -/
theorem GeoJSONReader.feed_coordinates_of_feature {ν : Type} {rest : List Expected}
    (s : GeoJSONReader ν) (hb : AtBoundary (Expected.Root :: rest) s)
    (hr : s.rootType = RootType.Feature) (v : JSON ν) (tail : List (Event ν)) :
    s.feed (Event.key "coordinates" :: (v.events ++ tail)) = s.feed tail := by
  have hkey : s.handle (Event.key "coordinates") =
      (true, { s with expect := Expected.Ignored :: s.expect }) := by
    simp [handle, Key, hb.1, top, parseRootCoordinates, hr]
  rw [feed_cons, hkey]
  simp only [if_true]
  rw [feed_append, feed_value_after_ignored_pushed v s hb.2.1]
  simp

theorem GeoJSONReader.feed_coordinates_insertion_after_type {ν : Type} (x0 : ν) (v : JSON ν)
    (r1 r2 r3 : List (String × JSON ν)) (hr1 : r1.all wellTypedRootMember = true)
    (hr2 : r2.all untypedRootMember = true) :
    (init x0).feed (JSON.obj (r1 ++ ("type", .str "Feature") ::
        (r2 ++ ("coordinates", v) :: r3))).events =
      (init x0).feed (JSON.obj (r1 ++ ("type", .str "Feature") :: (r2 ++ r3))).events := by
  have e1 : (JSON.obj (r1 ++ ("type", .str "Feature") ::
      (r2 ++ ("coordinates", v) :: r3))).events =
      (Event.startObject :: JSON.memberEvents r1) ++
        ([Event.key "type", Event.string "Feature"] ++ (JSON.memberEvents r2 ++
          (Event.key "coordinates" :: (v.events ++ (JSON.memberEvents r3 ++
            [Event.endObject]))))) := by
    simp [JSON.events, JSON.memberEvents_append, JSON.memberEvents]
  have e2 : (JSON.obj (r1 ++ ("type", .str "Feature") :: (r2 ++ r3))).events =
      (Event.startObject :: JSON.memberEvents r1) ++
        ([Event.key "type", Event.string "Feature"] ++ (JSON.memberEvents r2 ++
          (JSON.memberEvents r3 ++ [Event.endObject]))) := by
    simp [JSON.events, JSON.memberEvents_append, JSON.memberEvents]
  rw [e1, e2, feed_append, feed_append (init x0) (Event.startObject :: JSON.memberEvents r1)]
  rcases root_start x0 r1 hr1 with hfail | ⟨s, hs, hb⟩
  · simp [hfail]
  · rw [hs]
    simp only [if_true]
    rw [feed_append, feed_append s [Event.key "type", Event.string "Feature"],
      feed_type_feature s hb]
    simp only [if_true]
    rw [feed_append, feed_append _ (JSON.memberEvents r2)]
    rcases hf : ({ s with rootType := RootType.Feature } : GeoJSONReader ν).feed
        (JSON.memberEvents r2) with ⟨ok, s3⟩
    cases ok
    · simp
    · simp only [if_true]
      obtain ⟨hb3, hr3, -⟩ := @root_of_rootMembers ν [] r2
        { s with rootType := RootType.Feature } s3 hb hr2 hf
      exact feed_coordinates_of_feature s3 hb3 hr3 v _

/-- C27, counterexample: in front of the root `type` a root-level `coordinates`
member changes the result of a Feature document that decodes to the point
`(3, 4)`: with `[[1, 2]]` the depth 2 is deduced and the geometry type `Point`
is then rejected, with `[]` the closing bracket is rejected; and between the
`geometry` member and the root `type` the value `[1, 2]` is rejected against the
depth of the geometry type `Polygon` read before. -/
theorem C27_counterexample_root_coordinates_ahead_of_type :
    decode (0 : Int) (.obj [("type", .str "Feature"), ("geometry", .obj [("type", .str "Point"),
        ("coordinates", .arr [.num 3, .num 4])])]) [] "" (fun _ => 0) =
      ⟨none, [⟨Geometry.Point [(3, 4)]⟩]⟩ ∧
    decode (0 : Int) (.obj [("coordinates", .arr [.arr [.num 1, .num 2]]),
        ("type", .str "Feature"), ("geometry", .obj [("type", .str "Point"),
        ("coordinates", .arr [.num 3, .num 4])])]) [] "" (fun _ => 0) =
      ⟨some ⟨"Expected 'LineString', or 'MultiPoint', but got 'Point' instead.", 0, 0⟩, []⟩ ∧
    decode (0 : Int) (.obj [("coordinates", .arr []),
        ("type", .str "Feature"), ("geometry", .obj [("type", .str "Point"),
        ("coordinates", .arr [.num 3, .num 4])])]) [] "" (fun _ => 0) =
      ⟨some ⟨"Expected a coordinate, but got a prematurely closed array instead.", 0, 0⟩, []⟩ ∧
    decode (0 : Int) (.obj [("geometry", .obj [("type", .str "Polygon"),
        ("coordinates", .arr [.arr [.arr [.num 3, .num 4]]])]), ("type", .str "Feature")])
        [] "" (fun _ => 0) =
      ⟨none, [⟨Geometry.Polygon [[(3, 4)]]⟩]⟩ ∧
    decode (0 : Int) (.obj [("geometry", .obj [("type", .str "Polygon"),
        ("coordinates", .arr [.arr [.arr [.num 3, .num 4]]])]),
        ("coordinates", .arr [.num 1, .num 2]), ("type", .str "Feature")])
        [] "" (fun _ => 0) =
      ⟨some ⟨"Expected a coordinate array, but got a number instead.", 0, 0⟩, []⟩ := by
  decide

/-- C27, amended: for every root object with the member `type: "Feature"`, adding
a root-level `coordinates` member - with any value - at any position after that
`type` member, before or after the `geometry` member, leaves the decode result
as it is without it: the same features and the same error message, if any; in
particular a document that decodes successfully still decodes to the same
features. (The members ahead of the inserted one are well typed, and `type:
"Feature"` is the last `type` member ahead of it.) -/
theorem C27_root_coordinates_after_feature_type_are_skipped {ν : Type} (x0 : ν) (v : JSON ν)
    (r1 r2 r3 : List (String × JSON ν)) (json1 json2 : List Char) (msg : String)
    (off1 off2 : Nat → Nat) (hr1 : r1.all wellTypedRootMember = true)
    (hr2 : r2.all untypedRootMember = true) :
    GeoJSON.sameResult
      (decode x0 (.obj (r1 ++ ("type", .str "Feature") :: (r2 ++ ("coordinates", v) :: r3)))
        json1 msg off1)
      (decode x0 (.obj (r1 ++ ("type", .str "Feature") :: (r2 ++ r3))) json2 msg off2) ∧
    (∀ fs, decode x0 (.obj (r1 ++ ("type", .str "Feature") :: (r2 ++ r3))) json2 msg off2 =
        ⟨none, fs⟩ →
      decode x0 (.obj (r1 ++ ("type", .str "Feature") :: (r2 ++ ("coordinates", v) :: r3)))
        json1 msg off1 = ⟨none, fs⟩) := by
  have hs := sameResult_new_of_feed_eq x0 json1 json2 _ _ msg off1 off2
    (feed_coordinates_insertion_after_type x0 v r1 r2 r3 hr1 hr2)
  refine ⟨hs, ?_⟩
  intro fs hfs
  unfold decode Tokenizer.ofDocument at hfs ⊢
  rw [hfs] at hs
  obtain ⟨h1, h2⟩ := hs
  rcases hd : GeoJSON.new x0 json1 ⟨(JSON.obj (r1 ++ ("type", .str "Feature") ::
      (r2 ++ ("coordinates", v) :: r3))).events, none, msg, off1⟩ with ⟨err, feats⟩
  rw [hd] at h1 h2
  simp only at h1 h2
  cases err with
  | none => rw [h1]
  | some e => simp at h2

/-- C27, witness: the document of the test `FeatureWithIgnoredCoordinates` (one
ring of one point), with `coordinates: []` between the root `type` and the
`geometry` member. -/
theorem C27_witness_ignored_coordinates :
    decode (0 : Int) (.obj ([] ++ ("type", .str "Feature") :: ([] ++ ("coordinates", .arr []) ::
        [("geometry", .obj [("type", .str "Polygon"),
          ("coordinates", .arr [.arr [.arr [.num 100, .num 0]]])])]))) [] "" (fun _ => 0) =
      ⟨none, [⟨Geometry.Polygon [[(100, 0)]]⟩]⟩ :=
  (C27_root_coordinates_after_feature_type_are_skipped (0 : Int) (.arr []) [] []
    [("geometry", .obj [("type", .str "Polygon"),
      ("coordinates", .arr [.arr [.arr [.num 100, .num 0]]])])] [] [] "" (fun _ => 0)
    (fun _ => 0) (by decide) (by decide)).2 _ (by decide)

/-! ## C31: coordinates values nested deeper than four arrays -/

namespace GeoJSONReader

variable {ν : Type}

/-- While no geometry type is known, every array of a coordinates value is
opened, however deep. -/
theorem feed_open_untyped (n : Nat) (s : GeoJSONReader ν) (rest : List (Event ν))
    (ht : top s.expect = Expected.GeometryCoordinates)
    (hg : s.geometryType = GeometryType.None) :
    s.feed (List.replicate n Event.startArray ++ rest) =
      ({ s with geometryDepth := s.geometryDepth + n } : GeoJSONReader ν).feed rest := by
  induction n generalizing s with
  | zero => simp
  | succ n ih =>
    have hstep : s.handle Event.startArray =
        (true, { s with geometryDepth := s.geometryDepth + 1 }) := by
      simp [handle, StartArray, ht, startCoordinatesArray, hg]
    rw [List.replicate_succ, List.cons_append, feed_cons, hstep]
    simp only [if_true]
    have h1 := ih { s with geometryDepth := s.geometryDepth + 1 } ht hg
    rw [h1]
    simp only [Nat.cast_add, Nat.cast_one]
    congr 2
    omega

theorem accepted_open_untyped (n : Nat) (s : GeoJSONReader ν) (rest : List (Event ν))
    (ht : top s.expect = Expected.GeometryCoordinates)
    (hg : s.geometryType = GeometryType.None) :
    s.accepted (List.replicate n Event.startArray ++ rest) =
      n + ({ s with geometryDepth := s.geometryDepth + n } : GeoJSONReader ν).accepted rest := by
  induction n generalizing s with
  | zero => simp
  | succ n ih =>
    have hstep : s.handle Event.startArray =
        (true, { s with geometryDepth := s.geometryDepth + 1 }) := by
      simp [handle, StartArray, ht, startCoordinatesArray, hg]
    rw [List.replicate_succ, List.cons_append, accepted, hstep]
    simp only
    have h1 := ih { s with geometryDepth := s.geometryDepth + 1 } ht hg
    rw [h1]
    simp only [Nat.cast_add, Nat.cast_one]
    have : ({ s with geometryDepth := s.geometryDepth + 1 + (n : Int) } : GeoJSONReader ν) =
        { s with geometryDepth := s.geometryDepth + ((n : Int) + 1) } := by
      congr 1
      omega
    rw [this]
    omega

/-- The first point and four closing brackets of a coordinates value read while
no depth is known, at least five arrays deep. -/
theorem feed_point_and_four_brackets (s : GeoJSONReader ν) (g : Int) (rest : List Expected)
    (a b : ν) (hexp : s.expect = Expected.GeometryCoordinates :: rest)
    (hd : s.deducedGeometryDepth = 0) (hgd : s.geometryDepth = g) (h5 : 5 ≤ g) :
    s.feed [.number a, .number b, .endArray, .endArray, .endArray, .endArray] =
      (true, { s with deducedGeometryDepth := g, geometryDepth := g - 4, x := a, points := []
                      polygon := s.polygon ++ [s.points ++ [(a, b)]] }) := by
  rcases s with ⟨ins, ex, gt, rt, igd, gd, dd, po, x, pts, poly, co, ge, er, pc, sp⟩
  simp only at hexp hd hgd
  subst hexp hd hgd
  have f1 : gd ≠ 0 := by omega
  have f2 : ¬ gd - 1 = 0 := by omega
  have f3 : ¬ gd ≤ gd - 1 := by omega
  have f4 : gd - (gd - 1 - 1) = 2 := by omega
  have f5 : ¬ gd - 1 - 1 = 0 := by omega
  have f6 : ¬ gd ≤ gd - 1 - 1 := by omega
  have f7 : gd - (gd - 1 - 1 - 1) = 3 := by omega
  have f8 : ¬ gd - 1 - 1 - 1 = 0 := by omega
  have f9 : ¬ gd ≤ gd - 1 - 1 - 1 := by omega
  have f10 : gd - (gd - 4) = 4 := by omega
  have f11 : ¬ gd - 4 = 0 := by omega
  have f12 : gd - 1 - 1 - 1 - 1 = gd - 4 := by omega
  have g1 : ¬ (3 : Int) = 2 := by decide
  have g2 : ¬ (4 : Int) = 2 := by decide
  simp only [feed, handle, handleNumber, EndArray, endCoordinatesArray, top, pop, setTop,
    if_true, if_false, f1, f2, f3, f4, f5, f6, f7, f8, f9, f10, f11, f12, g1, g2,
    lt_self_iff_false, true_or, or_true, List.nil_append]

/-- A closing bracket at a depth difference outside 2..4: the `default:` branch
of `endCoordinatesArray`, which rejects the event and records nothing. -/
theorem handle_endArray_default (s : GeoJSONReader ν)
    (ht : top s.expect = Expected.GeometryCoordinates)
    (h1 : ¬ s.deducedGeometryDepth ≤ s.geometryDepth)
    (h2 : ¬ (s.deducedGeometryDepth - (s.geometryDepth - 1) = 2 ∨
      s.deducedGeometryDepth - (s.geometryDepth - 1) = 3 ∨
      s.deducedGeometryDepth - (s.geometryDepth - 1) = 4)) :
    s.handle Event.endArray = (false, { s with geometryDepth := s.geometryDepth - 1 }) := by
  simp only [handle, EndArray, ht, endCoordinatesArray, h1, h2, if_false]

end GeoJSONReader

/-- When the handler rejects the event `e` after accepting `es` and has recorded
no expectation, the result carries the tokenizer's message for a parse that a
handler stopped, at the position of `e`, and no feature. -/
theorem new_of_rejected_without_expectation {ν : Type} (x0 : ν) (json : List Char)
    (es : List (Event ν)) (e : Event ν) (tail : List (Event ν)) (syn : Option String)
    (msg : String) (off : Nat → Nat) (s s' : GeoJSONReader ν)
    (h1 : (GeoJSONReader.init x0).feed es = (true, s)) (h2 : s.handle e = (false, s'))
    (he : s'.error.1 = Expected.None) :
    GeoJSON.new x0 json ⟨es ++ e :: tail, syn, msg, off⟩ =
      ⟨some ⟨msg, (offsetToRowAndCol json (off es.length)).1,
        (offsetToRowAndCol json (off es.length)).2⟩, []⟩ := by
  have hf : (GeoJSONReader.init x0).feed (es ++ [e]) = (false, s') := by
    rw [GeoJSONReader.feed_append, h1]
    simp [GeoJSONReader.feed, h2]
  have ha : (GeoJSONReader.init x0).accepted (es ++ [e]) = es.length := by
    rw [accepted_append_of_ok _ _ _ _ h1]
    simp [GeoJSONReader.accepted, h2]
  have hs : es ++ e :: tail = (es ++ [e]) ++ tail := by simp
  have hf2 : (GeoJSONReader.init x0).feed ((es ++ [e]) ++ tail) = (false, s') := by
    rw [GeoJSONReader.feed_append, hf]
    simp
  have ha2 : (GeoJSONReader.init x0).accepted ((es ++ [e]) ++ tail) = es.length := by
    rw [accepted_append_of_rejected _ _ _ (by rw [hf]), ha]
  rw [← hs] at hf2 ha2
  unfold GeoJSON.new
  simp [hf2, ha2, he]

/-- C31 (code defect): a `coordinates` value `n + 5` arrays deep, read before any
`type` is known, is not rejected as it is opened: the `n + 5` opening brackets,
the first point and four closing brackets are all accepted; the fifth closing
bracket then finds the depth difference 5 and is rejected by the `default:`
branch of `endCoordinatesArray` (`assert(false); return false;`), which records
no expectation, so the decode fails with the tokenizer's message for a parse
that a handler stopped instead of a coordinate-shape error. When the type is
known, an array opened at depth 4 or deeper is rejected with "Expected a
coordinate, but got an array instead.". -/
theorem C31_untyped_value_deeper_than_four_reaches_default_branch {ν : Type} (x0 a b : ν)
    (n : Nat) (json : List Char) (tail : List (Event ν)) (syn : Option String) (msg : String)
    (off : Nat → Nat) :
    (∃ s : GeoJSONReader ν,
      (GeoJSONReader.init x0).feed ([Event.startObject, .key "coordinates"] ++
        (List.replicate (n + 5) Event.startArray ++
          [.number a, .number b, .endArray, .endArray, .endArray, .endArray])) = (true, s) ∧
      top s.expect = Expected.GeometryCoordinates ∧
      s.deducedGeometryDepth - (s.geometryDepth - 1) = 5 ∧
      s.handle Event.endArray = (false, { s with geometryDepth := s.geometryDepth - 1 }) ∧
      s.error = (Expected.None, Actual.None)) ∧
    GeoJSON.new x0 json ⟨([Event.startObject, .key "coordinates"] ++
        (List.replicate (n + 5) Event.startArray ++
          [.number a, .number b, .endArray, .endArray, .endArray, .endArray])) ++
        Event.endArray :: tail, syn, msg, off⟩ =
      ⟨some ⟨msg, (offsetToRowAndCol json (off (n + 13))).1,
        (offsetToRowAndCol json (off (n + 13))).2⟩, []⟩ ∧
    decode x0 (.obj [("coordinates", .arr [.arr [.arr [.arr [.arr [.num a, .num b]]]]])])
        json msg off =
      ⟨some ⟨msg, (offsetToRowAndCol json (off 13)).1, (offsetToRowAndCol json (off 13)).2⟩,
        []⟩ ∧
    decode x0 (.obj [("type", .str "MultiPolygon"),
        ("coordinates", .arr [.arr [.arr [.arr [.arr [.num a, .num b]]]]])]) json msg off =
      ⟨some ⟨"Expected a coordinate, but got an array instead.",
        (offsetToRowAndCol json (off 8)).1, (offsetToRowAndCol json (off 8)).2⟩, []⟩ ∧
    (∀ s : GeoJSONReader ν, top s.expect = Expected.GeometryCoordinates →
      s.geometryType.isGeometry = true → 4 ≤ s.geometryDepth →
      s.handle Event.startArray =
        (false, { s with geometryDepth := s.geometryDepth + 1
                         error := (Expected.FirstGeometryCoordinate, Actual.Array) })) := by
  have hfeed : (GeoJSONReader.init x0).feed ([Event.startObject, .key "coordinates"] ++
        (List.replicate (n + 5) Event.startArray ++
          [.number a, .number b, .endArray, .endArray, .endArray, .endArray])) =
      (true, { (GeoJSONReader.init x0).parseRootCoordinates with
        deducedGeometryDepth := ((n + 5 : Nat) : Int)
        geometryDepth := ((n + 5 : Nat) : Int) - 4
        x := a
        points := []
        polygon := [[(a, b)]] }) := by
    have h0 : (GeoJSONReader.init x0).feed [Event.startObject, .key "coordinates"] =
        (true, (GeoJSONReader.init x0).parseRootCoordinates) := rfl
    rw [GeoJSONReader.feed_append, h0]
    simp only [if_true]
    rw [GeoJSONReader.feed_open_untyped (n + 5) (GeoJSONReader.init x0).parseRootCoordinates _
      rfl rfl]
    rw [GeoJSONReader.feed_point_and_four_brackets _ ((n + 5 : Nat) : Int) [Expected.Root] a b
      rfl rfl (by simp [GeoJSONReader.parseRootCoordinates, GeoJSONReader.init]) (by omega)]
    rfl
  have hrej := GeoJSONReader.handle_endArray_default
    ({ (GeoJSONReader.init x0).parseRootCoordinates with
        deducedGeometryDepth := ((n + 5 : Nat) : Int)
        geometryDepth := ((n + 5 : Nat) : Int) - 4
        x := a
        points := []
        polygon := [[(a, b)]] } : GeoJSONReader ν) rfl
    (by simp only; omega) (by simp only; omega)
  refine ⟨⟨_, hfeed, rfl, by simp only; omega, hrej, rfl⟩, ?_, ?_, rfl, ?_⟩
  · rw [new_of_rejected_without_expectation x0 json _ _ tail syn msg off _ _ hfeed hrej rfl]
    have hl : ([Event.startObject, Event.key "coordinates"] ++
        (List.replicate (n + 5) (Event.startArray : Event ν) ++
          [Event.number a, Event.number b, Event.endArray, Event.endArray, Event.endArray,
            Event.endArray])).length = n + 13 := by
      simp
    rw [hl]
  · rfl
  · intro s ht hg h4
    have h5 : s.geometryDepth + 1 > GeoJSONReader.getExpectedGeometryDepth s.geometryType := by
      cases hgt : s.geometryType <;> rw [hgt] at hg <;>
        simp [GeometryType.isGeometry, GeoJSONReader.getExpectedGeometryDepth] at hg ⊢ <;> omega
    cases hgt : s.geometryType <;> rw [hgt] at hg h5 <;>
      simp [GeometryType.isGeometry] at hg <;>
      simp [GeoJSONReader.handle, GeoJSONReader.StartArray, ht,
        GeoJSONReader.startCoordinatesArray, hgt, h5, GeoJSONReader.fail]

/-- C31, witness: the fifth array of the coordinates value of a MultiPolygon. -/
theorem C31_witness_fifth_array_of_a_multipolygon :
    top ((GeoJSONReader.init (0 : Int)).feed [Event.startObject, .key "type",
      .string "MultiPolygon", .key "coordinates", .startArray, .startArray, .startArray,
      .startArray]).2.expect = Expected.GeometryCoordinates ∧
    (((GeoJSONReader.init (0 : Int)).feed [Event.startObject, .key "type",
      .string "MultiPolygon", .key "coordinates", .startArray, .startArray, .startArray,
      .startArray]).2.handle Event.startArray).1 = false :=
  ⟨by decide, congrArg Prod.fst
    ((C31_untyped_value_deeper_than_four_reaches_default_branch (0 : Int) 0 0 0 [] [] none ""
      (fun _ => 0)).2.2.2.2 _ (by decide) (by decide) (by decide))⟩

/-! ## C32: rows and columns -/

/-- The loop of `offsetToRowAndCol` over any text `l`: the line count is the
number of newlines in `l`, and the column is the distance from `start`, the
index just after the last newline (0 when there is none), to the end. -/
theorem rowAndCol_foldl (l : List Char) :
    (l.foldl (fun (lc : Nat × Nat) c =>
        if c = Char.ofNat 10 then (lc.1 + 1, 0) else (lc.1, lc.2 + 1)) (0, 0)).1 =
      l.count (Char.ofNat 10) ∧
    ∃ start, start + (l.foldl (fun (lc : Nat × Nat) c =>
        if c = Char.ofNat 10 then (lc.1 + 1, 0) else (lc.1, lc.2 + 1)) (0, 0)).2 = l.length ∧
      (∀ i, start ≤ i → l[i]? ≠ some (Char.ofNat 10)) ∧
      (start = 0 ∨ l[start - 1]? = some (Char.ofNat 10)) := by
  induction l using List.reverseRecOn with
  | nil => exact ⟨rfl, 0, rfl, fun i _ => by simp, Or.inl rfl⟩
  | append_singleton l c ih =>
    obtain ⟨ih1, start, h1, h2, h3⟩ := ih
    rw [List.foldl_append]
    simp only [List.foldl_cons, List.foldl_nil, List.count_append, List.length_append,
      List.length_singleton]
    by_cases hc : c = Char.ofNat 10
    · subst hc
      simp only [if_true, ih1, List.count_singleton_self, true_and]
      refine ⟨l.length + 1, rfl, ?_, Or.inr ?_⟩
      · intro i hi
        rw [List.getElem?_eq_none (by simp; omega)]
        simp
      · simp
    · simp only [hc, if_false, ih1]
      refine ⟨by simp [List.count_singleton, Ne.symm hc], start, by omega, ?_, ?_⟩
      · intro i hi
        rcases Nat.lt_or_ge i l.length with hlt | hge
        · rw [List.getElem?_append_left hlt]
          exact h2 i hi
        · rcases Nat.eq_or_lt_of_le hge with heq | hgt
          · rw [← heq]
            simp [hc]
          · rw [List.getElem?_eq_none (by simp; omega)]
            simp
      · rcases h3 with h3 | h3
        · exact Or.inl h3
        · refine Or.inr ?_
          have hlt : start - 1 < l.length := by
            by_contra hge
            rw [List.getElem?_eq_none (by omega)] at h3
            simp at h3
          rw [List.getElem?_append_left hlt]
          exact h3

/-- Up to the length of the text the bytes read by `offsetToRowAndCol` are the
first `offset` bytes of the text. -/
theorem offsetToRowAndCol_of_le (json : List Char) (offset : Nat) (h : offset ≤ json.length) :
    offsetToRowAndCol json offset =
      (json.take offset).foldl (fun (lc : Nat × Nat) c =>
        if c = Char.ofNat 10 then (lc.1 + 1, 0) else (lc.1, lc.2 + 1)) (0, 0) := by
  unfold offsetToRowAndCol
  induction offset with
  | zero => rfl
  | succ n ih =>
    have hn : n < json.length := by omega
    rw [List.range_succ, List.foldl_append, ih (by omega), List.take_succ, List.foldl_append,
      List.getElem?_eq_getElem hn]
    simp [List.getD_eq_getElem?_getD, List.getElem?_eq_getElem hn]

/-- C32: for every text and every offset up to its length, `offsetToRowAndCol`
returns as row the number of newline characters among the first `offset`
bytes, and as column the distance from `start` to `offset`, where `start` is
the index just after the last of those newlines (a newline stands at
`start - 1`, none between `start` and `offset`) and 0 when there is none; so
both are zero-based and `start + column = offset`. -/
theorem C32_row_and_column_count_from_last_newline (json : List Char) (offset : Nat)
    (h : offset ≤ json.length) :
    (offsetToRowAndCol json offset).1 = (json.take offset).count (Char.ofNat 10) ∧
    ∃ start, start + (offsetToRowAndCol json offset).2 = offset ∧
      (∀ i, start ≤ i → i < offset → json[i]? ≠ some (Char.ofNat 10)) ∧
      (start = 0 ∨ json[start - 1]? = some (Char.ofNat 10)) := by
  have hrun := offsetToRowAndCol_of_le json offset h
  obtain ⟨h1, start, h2, h3, h4⟩ := rowAndCol_foldl (json.take offset)
  rw [← hrun] at h1 h2
  have hlen : (json.take offset).length = offset := by
    rw [List.length_take]
    omega
  refine ⟨h1, start, ?_, ?_, ?_⟩
  · rw [hlen] at h2
    exact h2
  · intro i hi hlt
    have := h3 i hi
    rwa [List.getElem?_take_of_lt hlt] at this
  · rcases h4 with h4 | h4
    · exact Or.inl h4
    · refine Or.inr ?_
      have hlt : start - 1 < offset := by
        by_contra hge
        rw [List.getElem?_eq_none (by omega)] at h4
        simp at h4
      rwa [List.getElem?_take_of_lt hlt] at h4

/-- C32, witness: the texts of the tests `WrongRootType` (one line, error at byte
12) and `CoordinatesWithoutType` (error right after the closing brace on the
third line). -/
theorem C32_witness_positions_of_two_tests :
    offsetToRowAndCol "\x7b \"type\": \"\" \x7d".toList 12 = (0, 12) ∧
    offsetToRowAndCol "\x7b\n  \"coordinates\": [ 1, 2 ]\n\x7d".toList 29 = (2, 1) ∧
    (offsetToRowAndCol "\x7b\n  \"coordinates\": [ 1, 2 ]\n\x7d".toList 29).1 =
      ("\x7b\n  \"coordinates\": [ 1, 2 ]\n\x7d".toList.take 29).count (Char.ofNat 10) :=
  ⟨by decide, by decide,
    (C32_row_and_column_count_from_last_newline
      "\x7b\n  \"coordinates\": [ 1, 2 ]\n\x7d".toList 29 (by decide)).1⟩

set_option maxRecDepth 100000 in
/-- The text of the test `PolygonNoClosingBrace` ends with a newline and lacks
the closing brace; the syntax error is reported one byte past the end of the
text, where the loop has read the terminating NUL: row 3, column 1. -/
theorem offsetToRowAndCol_one_past_the_end :
    ("\x7b\n  \"type\": \"Polygon\",\n  \"coordinates\": [ [ [ 100, 0 ], [ 101.0, 0 ], [ 101.0, 1.0 ], [ 100.0, 1.0 ], [ 100.0, 0.0 ] ] ]\n".toList).length = 121 ∧
    offsetToRowAndCol
      "\x7b\n  \"type\": \"Polygon\",\n  \"coordinates\": [ [ [ 100, 0 ], [ 101.0, 0 ], [ 101.0, 1.0 ], [ 100.0, 1.0 ], [ 100.0, 0.0 ] ] ]\n".toList
      122 = (3, 1) := by
  constructor
  · decide
  · decide

/-! ## C33: the depth resolver on a well-formed value -/

/-- C33 (code defect): for each depth `d` from 1 to 4, after `initialize(d)` as
after `initialize(0)`, the `d` array-open calls and the two numbers of the first
point `[a, b]` return `ParseError::None`, and the call that closes the point
returns `ParseError::LogicError`, whatever calls follow: the difference
`deducedGeometryDepth - geometryDepth` is 1 there, which the switch of
`endArray` leaves to its `default:` branch. So no well-formed value is read
without error. -/
theorem C33_closing_a_point_is_a_logic_error {ν : Type} (x0 a b : ν)
    (tail : List (CoordinatesCall ν)) :
    ((((CoordinatesReader.fresh x0).initialise 1).calls
        (.startArray :: .number a :: .number b :: .endArray :: tail)).1.take 4 =
      [ParseError.None, ParseError.None, ParseError.None, ParseError.LogicError]) ∧
    ((((CoordinatesReader.fresh x0).initialise 0).calls
        (.startArray :: .number a :: .number b :: .endArray :: tail)).1.take 4 =
      [ParseError.None, ParseError.None, ParseError.None, ParseError.LogicError]) ∧
    ((((CoordinatesReader.fresh x0).initialise 2).calls
        (.startArray :: .startArray :: .number a :: .number b :: .endArray :: tail)).1.take 5 =
      [ParseError.None, ParseError.None, ParseError.None, ParseError.None,
        ParseError.LogicError]) ∧
    ((((CoordinatesReader.fresh x0).initialise 0).calls
        (.startArray :: .startArray :: .number a :: .number b :: .endArray :: tail)).1.take 5 =
      [ParseError.None, ParseError.None, ParseError.None, ParseError.None,
        ParseError.LogicError]) ∧
    ((((CoordinatesReader.fresh x0).initialise 3).calls
        (.startArray :: .startArray :: .startArray :: .number a :: .number b :: .endArray ::
          tail)).1.take 6 =
      [ParseError.None, ParseError.None, ParseError.None, ParseError.None, ParseError.None,
        ParseError.LogicError]) ∧
    ((((CoordinatesReader.fresh x0).initialise 0).calls
        (.startArray :: .startArray :: .startArray :: .number a :: .number b :: .endArray ::
          tail)).1.take 6 =
      [ParseError.None, ParseError.None, ParseError.None, ParseError.None, ParseError.None,
        ParseError.LogicError]) ∧
    ((((CoordinatesReader.fresh x0).initialise 4).calls
        (.startArray :: .startArray :: .startArray :: .startArray :: .number a :: .number b ::
          .endArray :: tail)).1.take 7 =
      [ParseError.None, ParseError.None, ParseError.None, ParseError.None, ParseError.None,
        ParseError.None, ParseError.LogicError]) ∧
    ((((CoordinatesReader.fresh x0).initialise 0).calls
        (.startArray :: .startArray :: .startArray :: .startArray :: .number a :: .number b ::
          .endArray :: tail)).1.take 7 =
      [ParseError.None, ParseError.None, ParseError.None, ParseError.None, ParseError.None,
        ParseError.None, ParseError.LogicError]) ∧
    ((CoordinatesReader.fresh x0).initialise 1).calls
        [.startArray, .number a, .number b, .endArray] =
      ([ParseError.None, ParseError.None, ParseError.None, ParseError.LogicError],
        { geometryDepth := 0, deducedGeometryDepth := 1, coordinateIndex := 0, x := a,
          points := [(a, b)], lines := [] }) := by
  simp [CoordinatesReader.calls, CoordinatesReader.call, CoordinatesReader.startArray,
    CoordinatesReader.endArray, CoordinatesReader.number, CoordinatesReader.initialise,
    CoordinatesReader.fresh]

/-! ## C34: excess ordinates in the depth resolver -/

namespace CoordinatesReader

variable {ν : Type}

/-- The `(j+1)`-th, ..., `(j + ns.length)`-th number of one innermost array, for
`2 ≤ j` and `j + ns.length ≤ 257`: every call returns `None` and `points` stays
as it is; `coordinateIndex`, which is `j` modulo 256, moves on by one each. -/
theorem calls_excess_numbers (ns : List ν) (j : Nat) (r : CoordinatesReader ν)
    (hg : r.geometryDepth ≠ 0) (hd : r.deducedGeometryDepth = r.geometryDepth)
    (hj : 2 ≤ j) (hci : r.coordinateIndex = j % 256) (hlen : j + ns.length ≤ 257) :
    (r.calls (ns.map CoordinatesCall.number)).1 = List.replicate ns.length ParseError.None ∧
    (r.calls (ns.map CoordinatesCall.number)).2.points = r.points ∧
    (r.calls (ns.map CoordinatesCall.number)).2.geometryDepth = r.geometryDepth ∧
    (r.calls (ns.map CoordinatesCall.number)).2.deducedGeometryDepth = r.geometryDepth ∧
    (r.calls (ns.map CoordinatesCall.number)).2.coordinateIndex = (j + ns.length) % 256 := by
  induction ns generalizing j r with
  | nil => exact ⟨rfl, rfl, rfl, hd, hci⟩
  | cons n ns ih =>
    simp only [List.length_cons] at hlen
    have hstep : r.call (CoordinatesCall.number n) =
        (ParseError.None,
          { (if r.coordinateIndex = 0 then { r with x := n } else r) with
            coordinateIndex := (j + 1) % 256 }) := by
      have h1 : ¬ (r.geometryDepth = 0 ∨
          (r.deducedGeometryDepth > 0 ∧ r.geometryDepth ≠ r.deducedGeometryDepth)) := by
        rw [hd]
        omega
      have h2 : r.deducedGeometryDepth ≠ 0 := by
        rw [hd]
        exact hg
      have h3 : r.coordinateIndex ≠ 1 := by
        rw [hci]
        omega
      have h4 : (r.coordinateIndex + 1) % 256 = (j + 1) % 256 := by
        rw [hci]
        omega
      simp only [call, number, h1, h2, if_false]
      by_cases h0 : r.coordinateIndex = 0
      · simp only [h0, if_true]
        rw [h0] at h4
        rw [← h4]
      · simp only [h0, h3, if_false, h4]
    have ih1 := ih (j + 1) (r.call (CoordinatesCall.number n)).2
      (by rw [hstep]; split <;> exact hg) (by rw [hstep]; split <;> exact hd) (by omega)
      (by rw [hstep]) (by omega)
    have hp : (r.call (CoordinatesCall.number n)).2.points = r.points := by
      rw [hstep]
      split <;> rfl
    have hgd : (r.call (CoordinatesCall.number n)).2.geometryDepth = r.geometryDepth := by
      rw [hstep]
      split <;> rfl
    obtain ⟨i1, i2, i3, i4, i5⟩ := ih1
    simp only [List.map_cons, calls, List.length_cons, List.replicate_succ]
    refine ⟨?_, ?_, ?_, ?_, ?_⟩
    · rw [i1, hstep]
    · rw [i2, hp]
    · rw [i3, hgd]
    · rw [i4, hgd]
    · rw [i5]
      congr 1
      omega

theorem calls_append (r : CoordinatesReader ν) (xs ys : List (CoordinatesCall ν)) :
    r.calls (xs ++ ys) =
      ((r.calls xs).1 ++ ((r.calls xs).2.calls ys).1, ((r.calls xs).2.calls ys).2) := by
  induction xs generalizing r with
  | nil => rfl
  | cons x xs ih =>
    show r.calls (x :: (xs ++ ys)) = _
    simp only [calls, ih, List.cons_append]

/-- The first two numbers of an innermost array: both calls return `None`, the
point is appended, and the depth is fixed if it was not. -/
theorem calls_first_point (r : CoordinatesReader ν) (a1 a2 : ν) (hg : r.geometryDepth ≠ 0)
    (hd : r.deducedGeometryDepth = 0 ∨ r.deducedGeometryDepth = r.geometryDepth)
    (hci : r.coordinateIndex = 0) :
    r.calls [CoordinatesCall.number a1, CoordinatesCall.number a2] =
      ([ParseError.None, ParseError.None],
        { r with deducedGeometryDepth := r.geometryDepth, coordinateIndex := 2, x := a1
                 points := r.points ++ [(a1, a2)] }) := by
  rcases r with ⟨gd, dd, ci, x, ps, ls⟩
  simp only at hg hd hci
  subst hci
  rcases hd with hd | hd <;> subst hd <;> simp [calls, call, number, hg]

end CoordinatesReader

/-- C34 (code defect): in one innermost array (depth fixed to the current depth,
or still unknown), `k` numbers with `2 ≤ k ≤ 257` all return
`ParseError::None` and append the one point `(n1, n2)`. But `coordinateIndex`
is back at 0 after 256 numbers: when two more numbers `a`, `b` follow 256
numbers, all 258 calls return `None` and a second point `(a, b)` is appended. -/
theorem C34_ordinates_257_and_258_make_a_second_point {ν : Type} (r : CoordinatesReader ν)
    (a1 a2 : ν) (rest : List ν) (hg : r.geometryDepth ≠ 0)
    (hd : r.deducedGeometryDepth = 0 ∨ r.deducedGeometryDepth = r.geometryDepth)
    (hci : r.coordinateIndex = 0) :
    (rest.length ≤ 255 →
      (r.calls ((a1 :: a2 :: rest).map CoordinatesCall.number)).1 =
        List.replicate (rest.length + 2) ParseError.None ∧
      (r.calls ((a1 :: a2 :: rest).map CoordinatesCall.number)).2.points =
        r.points ++ [(a1, a2)]) ∧
    (rest.length = 254 → ∀ a b : ν,
      (r.calls ((a1 :: a2 :: (rest ++ [a, b])).map CoordinatesCall.number)).1 =
        List.replicate 258 ParseError.None ∧
      (r.calls ((a1 :: a2 :: (rest ++ [a, b])).map CoordinatesCall.number)).2.points =
        r.points ++ [(a1, a2), (a, b)]) := by
  have h2 := CoordinatesReader.calls_first_point r a1 a2 hg hd hci
  have happ : ∀ l : List ν, r.calls ((a1 :: a2 :: l).map CoordinatesCall.number) =
      ([ParseError.None, ParseError.None] ++
          (({ r with deducedGeometryDepth := r.geometryDepth, coordinateIndex := 2, x := a1
                     points := r.points ++ [(a1, a2)] } : CoordinatesReader ν).calls
            (l.map CoordinatesCall.number)).1,
        (({ r with deducedGeometryDepth := r.geometryDepth, coordinateIndex := 2, x := a1
                   points := r.points ++ [(a1, a2)] } : CoordinatesReader ν).calls
          (l.map CoordinatesCall.number)).2) := by
    intro l
    have := CoordinatesReader.calls_append r
      [CoordinatesCall.number a1, CoordinatesCall.number a2] (l.map CoordinatesCall.number)
    rw [h2] at this
    exact this
  constructor
  · intro hlen
    obtain ⟨i1, i2, -, -, -⟩ := CoordinatesReader.calls_excess_numbers rest 2
      ({ r with deducedGeometryDepth := r.geometryDepth, coordinateIndex := 2, x := a1
                points := r.points ++ [(a1, a2)] } : CoordinatesReader ν)
      hg rfl (le_refl 2) rfl (by omega)
    rw [happ rest]
    refine ⟨?_, i2⟩
    simp only [i1]
    simp [List.replicate_succ, List.replicate_add]
  · intro hlen a b
    obtain ⟨r2, hr2⟩ : ∃ r2 : CoordinatesReader ν, r2 =
        { r with deducedGeometryDepth := r.geometryDepth, coordinateIndex := 2, x := a1
                 points := r.points ++ [(a1, a2)] } := ⟨_, rfl⟩
    obtain ⟨i1, i2, i3, i4, i5⟩ := CoordinatesReader.calls_excess_numbers rest 2 r2
      (by rw [hr2]; exact hg) (by rw [hr2]) (le_refl 2) (by rw [hr2]) (by omega)
    rw [happ (rest ++ [a, b]), ← hr2, List.map_append, CoordinatesReader.calls_append]
    rw [hlen] at i1 i5
    rcases hq : r2.calls (rest.map CoordinatesCall.number) with ⟨res, gd, dd, ci, x, ps, ls⟩
    rw [hq] at i1 i2 i3 i4 i5
    rw [hr2] at i2 i3 i4
    simp only at i1 i2 i3 i4 i5
    have h0 : ci = 0 := i5
    subst i1 i2 i3 i4 h0
    simp only [List.map_cons, List.map_nil, CoordinatesReader.calls, CoordinatesReader.call,
      CoordinatesReader.number]
    simp only [hg, false_or, gt_iff_lt, ne_eq, not_true_eq_false, and_false, if_false, if_true,
      Nat.zero_add, Nat.reduceMod, OfNat.ofNat_ne_zero, OfNat.zero_ne_ofNat, one_ne_zero]
    refine ⟨?_, by simp⟩
    show List.replicate 2 ParseError.None ++
        (List.replicate 254 ParseError.None ++ List.replicate 2 ParseError.None) =
      List.replicate (2 + (254 + 2)) ParseError.None
    rw [List.replicate_add, List.replicate_add]

/-- C34, witness: in a depth-1 array opened after `initialize(1)`, the numbers
1, 2, then 254 times 7, then 257, 258. -/
theorem C34_witness_two_points_from_258_numbers :
    ((((CoordinatesReader.fresh (0 : Int)).initialise 1).startArray.2.calls
        (((1 : Int) :: 2 :: (List.replicate 254 7 ++ [257, 258])).map
          CoordinatesCall.number)).1 = List.replicate 258 ParseError.None) ∧
    (((CoordinatesReader.fresh (0 : Int)).initialise 1).startArray.2.calls
        (((1 : Int) :: 2 :: (List.replicate 254 7 ++ [257, 258])).map
          CoordinatesCall.number)).2.points =
      ((CoordinatesReader.fresh (0 : Int)).initialise 1).startArray.2.points ++
        [(1, 2), (257, 258)] :=
  (C34_ordinates_257_and_258_make_a_second_point
    ((CoordinatesReader.fresh (0 : Int)).initialise 1).startArray.2 1 2 (List.replicate 254 7)
    (by decide) (by decide) (by decide)).2 (List.length_replicate _ _) 257 258

/-! ## C35: re-initialising the depth resolver -/

/-- C35: `initialize(expectedDepth)` empties `points` and `lines`, stores
`expectedDepth` in `deducedGeometryDepth`, and leaves `geometryDepth`,
`coordinateIndex` and `x` as they were. So a reader re-initialised inside an
unfinished value does not start again at depth 0: the next array is opened at
the old depth plus one, and after `[[a` the re-initialised reader still is at
depth 2 waiting for the second ordinate, which it pairs with `a`. -/
theorem C35_initialize_resets_accumulators_only {ν : Type} (r : CoordinatesReader ν) (d : Nat)
    (x0 a b : ν) :
    (r.initialise d).points = [] ∧ (r.initialise d).lines = [] ∧
    (r.initialise d).deducedGeometryDepth = d ∧
    (r.initialise d).geometryDepth = r.geometryDepth ∧
    (r.initialise d).coordinateIndex = r.coordinateIndex ∧
    (r.initialise d).x = r.x ∧
    (r.initialise d).startArray.2.geometryDepth = (r.geometryDepth + 1) % 256 ∧
    ((((CoordinatesReader.fresh x0).initialise 0).calls
        [.startArray, .startArray, .number a]).2.initialise 0).calls [.number b] =
      ([ParseError.None],
        { geometryDepth := 2, deducedGeometryDepth := 2, coordinateIndex := 2, x := a,
          points := [(a, b)], lines := [] }) := by
  refine ⟨rfl, rfl, rfl, rfl, rfl, rfl, ?_, rfl⟩
  simp only [CoordinatesReader.startArray]
  split <;> rfl

/-! ## C36: the two depth tables -/

/-- C36: `getExpectedGeometryDepth(GeometryType)` is 1 for Point, 2 for LineString
and MultiPoint, 3 for Polygon and MultiLineString and 4 for MultiPolygon; and for
every depth `d` from 1 to 4 the description of the expectation
`getExpectedGeometryDepth(d)` names a geometry type (its quoted keyword occurs
in the text) exactly when that type requires depth `d`. -/
theorem C36_depth_tables_agree :
    GeoJSONReader.getExpectedGeometryDepth GeometryType.Point = 1 ∧
    GeoJSONReader.getExpectedGeometryDepth GeometryType.LineString = 2 ∧
    GeoJSONReader.getExpectedGeometryDepth GeometryType.MultiPoint = 2 ∧
    GeoJSONReader.getExpectedGeometryDepth GeometryType.Polygon = 3 ∧
    GeoJSONReader.getExpectedGeometryDepth GeometryType.MultiLineString = 3 ∧
    GeoJSONReader.getExpectedGeometryDepth GeometryType.MultiPolygon = 4 ∧
    (GeoJSONReader.getExpectedGeometryDepthInt 1).describe = "'Point'" ∧
    (GeoJSONReader.getExpectedGeometryDepthInt 2).describe = "'LineString', or 'MultiPoint'" ∧
    (GeoJSONReader.getExpectedGeometryDepthInt 3).describe = "'Polygon', or 'MultiLineString'" ∧
    (GeoJSONReader.getExpectedGeometryDepthInt 4).describe = "'MultiPolygon'" ∧
    ∀ (t : GeometryType) (d : Int), t.isGeometry = true → 1 ≤ d → d ≤ 4 →
      ((GeoJSONReader.getExpectedGeometryDepthInt d).names t ↔
        GeoJSONReader.getExpectedGeometryDepth t = d) := by
  refine ⟨rfl, rfl, rfl, rfl, rfl, rfl, rfl, rfl, rfl, rfl, ?_⟩
  intro t d ht h1 h4
  interval_cases d <;> cases t <;> first | exact absurd ht (by decide) | decide

/-- C36, witness: `MultiLineString` is named by the description for depth 3. -/
theorem C36_witness_multilinestring_at_depth_three :
    ((GeoJSONReader.getExpectedGeometryDepthInt 3).names GeometryType.MultiLineString ↔
      GeoJSONReader.getExpectedGeometryDepth GeometryType.MultiLineString = 3) :=
  C36_depth_tables_agree.2.2.2.2.2.2.2.2.2.2 GeometryType.MultiLineString 3 rfl (by decide)
    (by decide)

/-! ## C37: the deduced depth -/

namespace GeoJSONReader

variable {ν : Type}

theorem deduced_of_setGeometryType (s : GeoJSONReader ν) (t : GeometryType)
    (h : 0 < s.deducedGeometryDepth) :
    (s.setGeometryType t).2.deducedGeometryDepth = s.deducedGeometryDepth := by
  unfold setGeometryType
  simp only [fail]
  split
  · rfl
  · rename_i hn
    simp only
    by_contra hne
    exact hn ⟨h, fun heq => hne heq.symm⟩

theorem deduced_of_rootTypeString (s : GeoJSONReader ν) (v : String)
    (h : 0 < s.deducedGeometryDepth) :
    (s.rootTypeString v).2.deducedGeometryDepth = s.deducedGeometryDepth := by
  have hr : ∀ r, ({ s with rootType := r } : GeoJSONReader ν).deducedGeometryDepth =
      s.deducedGeometryDepth := fun _ => rfl
  unfold rootTypeString
  simp only [setRootAndGeometryType, setRootType, if_true]
  split_ifs <;> first | rfl | exact deduced_of_setGeometryType { s with rootType := _ } _ h

theorem deduced_of_geometryTypeString (s : GeoJSONReader ν) (v : String)
    (h : 0 < s.deducedGeometryDepth) :
    (s.geometryTypeString v).2.deducedGeometryDepth = s.deducedGeometryDepth := by
  unfold geometryTypeString
  simp only
  split_ifs <;> first | rfl | exact deduced_of_setGeometryType s _ h

set_option maxHeartbeats 1600000 in
/-- No handler changes a positive deduced depth, whether it accepts the event or
not. -/
theorem deduced_of_handle (s : GeoJSONReader ν) (e : Event ν)
    (h : 0 < s.deducedGeometryDepth) :
    (s.handle e).2.deducedGeometryDepth = s.deducedGeometryDepth := by
  have h0 : s.deducedGeometryDepth ≠ 0 := by omega
  cases e with
  | string x =>
    cases htop : top s.expect <;> simp only [handle, String_, htop, fail, ignored]
    all_goals first
      | rfl
      | exact deduced_of_rootTypeString s x h
      | exact deduced_of_geometryTypeString s x h
      | (split <;> rfl)
  | _ =>
    cases htop : top s.expect <;>
      simp only [handle, StartObject, EndObject, StartArray, EndArray, Key, handleNumber, Null,
        Bool_, htop, fail, endIgnored, endRootObject, endGeometryObject, endCoordinatesArray,
        startCoordinatesArray, parseGeometry, parseRootCoordinates, parseGeometryCoordinates,
        h0, if_false]
    all_goals try split
    all_goals try split
    all_goals try split
    all_goals try split
    all_goals rfl

theorem deduced_of_feed (es : List (Event ν)) (s : GeoJSONReader ν)
    (h : 0 < s.deducedGeometryDepth) :
    (s.feed es).2.deducedGeometryDepth = s.deducedGeometryDepth := by
  induction es generalizing s with
  | nil => rfl
  | cons e es ih =>
    have h1 := deduced_of_handle s e h
    rw [feed_cons]
    split
    · rw [ih _ (by rw [h1]; exact h), h1]
    · exact h1

/-- A type keyword whose depth differs from the positive deduced depth is
rejected, and the expectation recorded is what `getExpectedGeometryDepth(int)`
gives for the deduced depth (the types of that depth, for the depths 1 to 4). -/
theorem setGeometryType_mismatch (s : GeoJSONReader ν) (t : GeometryType)
    (h : 0 < s.deducedGeometryDepth)
    (hne : getExpectedGeometryDepth t ≠ s.deducedGeometryDepth) :
    s.setGeometryType t =
      (false, { s with error := (getExpectedGeometryDepthInt s.deducedGeometryDepth,
        getActualGeometryType t) }) := by
  unfold setGeometryType
  simp only [fail]
  rw [if_pos ⟨h, fun heq => hne heq.symm⟩]

end GeoJSONReader

/-! ## C38: the expectation stack -/

theorem wellStacked_ne_nil {l : List Expected} (h : wellStacked l = true) : l ≠ [] := by
  intro hl
  subst hl
  simp [wellStacked] at h

theorem wellStacked_getLast {l : List Expected} (h : wellStacked l = true) :
    l.getLast? = some Expected.Root := by
  induction l with
  | nil => simp [wellStacked] at h
  | cons e l ih =>
    cases l with
    | nil => simpa [wellStacked] using h
    | cons f rest =>
      simp only [wellStacked, Bool.and_eq_true] at h
      rw [List.getLast?_cons_cons]
      exact ih h.2

theorem wellStacked_below {l : List Expected} (h : wellStacked l = true)
    (pre : List Expected) (f g : Expected) (post : List Expected)
    (hl : l = pre ++ f :: g :: post)
    (hf : f = Expected.SecondGeometryCoordinate ∨ f = Expected.ExcessGeometryCoordinates) :
    g = Expected.GeometryCoordinates := by
  induction pre generalizing l with
  | nil =>
    subst hl
    simp only [List.nil_append, wellStacked, Bool.and_eq_true, Bool.or_eq_true,
      decide_eq_true_eq] at h
    rcases h.1.2 with h2 | h2
    · rcases hf with hf | hf
      · exact absurd hf h2.1
      · exact absurd hf h2.2
    · exact h2
  | cons p pre ih =>
    subst hl
    obtain ⟨q, tl, htl⟩ : ∃ q tl, pre ++ f :: g :: post = q :: tl := by
      cases pre <;> simp
    rw [List.cons_append, htl] at h
    simp only [wellStacked, Bool.and_eq_true] at h
    exact ih (by rw [htl]; exact h.2) rfl

theorem wellStacked_frames {l : List Expected} (h : wellStacked l = true) :
    ∃ frames, l = frames ++ [Expected.Root] ∧ Expected.Root ∉ frames := by
  induction l with
  | nil => simp [wellStacked] at h
  | cons e l ih =>
    cases l with
    | nil =>
      simp only [wellStacked, decide_eq_true_eq] at h
      exact ⟨[], by rw [h]; rfl, by simp⟩
    | cons f rest =>
      simp only [wellStacked, Bool.and_eq_true, decide_eq_true_eq] at h
      obtain ⟨frames, h1, h2⟩ := ih h.2
      refine ⟨e :: frames, by rw [h1]; rfl, ?_⟩
      simp only [List.mem_cons, not_or]
      exact ⟨fun hr => h.1.1.1 hr.symm, h2⟩

namespace GeoJSONReader

variable {ν : Type}

theorem expect_of_fail (s : GeoJSONReader ν) (e : Expected) (a : Actual) :
    (s.fail e a).2.expect = s.expect := rfl

set_option maxHeartbeats 1600000 in
/-- Every handler call leaves the stack well shaped, whether it accepts the
event or not. -/
theorem wellStacked_handle (s : GeoJSONReader ν) (e : Event ν)
    (h : wellStacked s.expect = true) : wellStacked (s.handle e).2.expect = true := by
  rcases hs : s.expect with _ | ⟨e1, _ | ⟨e2, rest⟩⟩
  · rw [hs] at h
    simp [wellStacked] at h
  · rw [hs] at h
    simp only [wellStacked, decide_eq_true_eq] at h
    subst h
    cases e <;>
      simp only [handle, StartObject, EndObject, StartArray, EndArray, Key, handleNumber, Null,
        Bool_, String_, hs, top, fail, endRootObject, parseGeometry, parseRootCoordinates]
    all_goals try split
    all_goals try split
    all_goals try split
    all_goals try split
    all_goals simp [hs, wellStacked]
  · rw [hs] at h
    simp only [wellStacked, Bool.and_eq_true, decide_eq_true_eq, Bool.or_eq_true] at h
    obtain ⟨⟨⟨h1, h1b⟩, h2⟩, h3⟩ := h
    cases e <;> cases e1 <;>
      simp only [handle, StartObject, EndObject, StartArray, EndArray, Key, handleNumber, Null,
        Bool_, String_, hs, top, fail, endRootObject, endGeometryObject, endIgnored,
        endCoordinatesArray, startCoordinatesArray, ignored,
        parseGeometry, parseRootCoordinates, parseGeometryCoordinates, rootTypeString,
        geometryTypeString, setRootAndGeometryType, setRootType, setGeometryType]
    all_goals try (exact absurd rfl h1)
    all_goals try (exact absurd rfl h1b)
    all_goals try split
    all_goals try split
    all_goals try split
    all_goals try split
    all_goals try split
    all_goals try split
    all_goals try split
    all_goals try (simp [hs, wellStacked, pop, setTop, h3]; done)
    all_goals try (simp only [ne_eq, not_true_eq_false, and_false, false_and, false_or,
      reduceCtorEq, not_false_eq_true, and_true] at h2; subst h2)
    all_goals try (simp [hs, wellStacked, pop, setTop, h3]; done)
    all_goals try split_ifs
    all_goals try (simp [hs, wellStacked, pop, setTop, h3]; done)
    all_goals (cases rest <;> simp [wellStacked, pop] at h3 ⊢)
    all_goals simp [h3]

theorem wellStacked_feed (es : List (Event ν)) (s : GeoJSONReader ν)
    (h : wellStacked s.expect = true) : wellStacked (s.feed es).2.expect = true := by
  induction es generalizing s with
  | nil => exact h
  | cons e es ih =>
    rw [feed_cons]
    split
    · exact ih _ (wellStacked_handle s e h)
    · exact wellStacked_handle s e h

end GeoJSONReader

/-- C38: after any sequence of events whatsoever (up to the first one rejected,
if any), and again after one more handler call, the expectation stack consists
of frames other than `Root` on top of the one `Root` at its bottom, and directly
below every `SecondGeometryCoordinate` and `ExcessGeometryCoordinates` frame
lies `GeometryCoordinates`. No handler pushes after it has popped, so a stack
that still ends in `Root` after the call means that every `expect.top()` and
`expect.pop()` of the call found a non-empty stack. -/
theorem C38_stack_keeps_root_at_the_bottom {ν : Type} (x0 : ν) (es : List (Event ν))
    (e : Event ν) :
    ((GeoJSONReader.init x0).feed es).2.expect ≠ [] ∧
    (∃ frames, ((GeoJSONReader.init x0).feed es).2.expect = frames ++ [Expected.Root] ∧
      Expected.Root ∉ frames) ∧
    (∀ pre f g post, ((GeoJSONReader.init x0).feed es).2.expect = pre ++ f :: g :: post →
      f = Expected.SecondGeometryCoordinate ∨ f = Expected.ExcessGeometryCoordinates →
      g = Expected.GeometryCoordinates) ∧
    (∃ frames, (((GeoJSONReader.init x0).feed es).2.handle e).2.expect =
        frames ++ [Expected.Root] ∧ Expected.Root ∉ frames) ∧
    (∀ pre f g post,
      (((GeoJSONReader.init x0).feed es).2.handle e).2.expect = pre ++ f :: g :: post →
      f = Expected.SecondGeometryCoordinate ∨ f = Expected.ExcessGeometryCoordinates →
      g = Expected.GeometryCoordinates) := by
  have h1 : wellStacked ((GeoJSONReader.init x0).feed es).2.expect = true :=
    GeoJSONReader.wellStacked_feed es _ rfl
  have h2 := GeoJSONReader.wellStacked_handle _ e h1
  exact ⟨wellStacked_ne_nil h1, wellStacked_frames h1,
    fun pre f g post hl hf => wellStacked_below h1 pre f g post hl hf,
    wellStacked_frames h2, fun pre f g post hl hf => wellStacked_below h2 pre f g post hl hf⟩

/-- C38, witness: inside the point of `{"coordinates": [1, 2` the stack is
`[ExcessGeometryCoordinates, GeometryCoordinates, Root]`, and the closing
bracket pops the two frames above `Root`. -/
theorem C38_witness_stack_inside_a_point :
    ((GeoJSONReader.init (0 : Int)).feed [Event.startObject, .key "coordinates", .startArray,
      .number 1, .number 2]).2.expect =
      [] ++ Expected.ExcessGeometryCoordinates :: Expected.GeometryCoordinates ::
        [Expected.Root] ∧
    (((GeoJSONReader.init (0 : Int)).feed [Event.startObject, .key "coordinates", .startArray,
      .number 1, .number 2]).2.handle Event.endArray).2.expect = [Expected.Root] ∧
    Expected.GeometryCoordinates = Expected.GeometryCoordinates :=
  ⟨by decide, by decide,
    (C38_stack_keeps_root_at_the_bottom (0 : Int) [Event.startObject, .key "coordinates",
      .startArray, .number 1, .number 2] Event.endArray).2.2.1 [] _ _ [Expected.Root]
      (by decide) (Or.inr rfl)⟩

/-! ## C39: the stored coordinates of a Point -/

namespace GeoJSONReader

variable {ν : Type}

theorem depth_pos_of_isGeometry (t : GeometryType) (ht : t.isGeometry = true) :
    0 < getExpectedGeometryDepth t := by
  cases t <;> first | exact absurd ht (by decide) | decide

/-- An accepted type sets the type and its depth, which is the deduced depth if
that was positive. -/
theorem setGeometryType_ok {s s' : GeoJSONReader ν} (t : GeometryType)
    (h : s.setGeometryType t = (true, s')) :
    s' = { s with geometryType := t, deducedGeometryDepth := getExpectedGeometryDepth t } ∧
    (0 < s.deducedGeometryDepth → s.deducedGeometryDepth = getExpectedGeometryDepth t) := by
  unfold setGeometryType at h
  simp only [fail] at h
  split at h
  · simp at h
  · rename_i hn
    simp only [Prod.mk.injEq, true_and] at h
    refine ⟨h.symm, fun hp => ?_⟩
    by_contra hne
    exact hn ⟨hp, hne⟩

theorem depthsAgree_of_setGeometryType {s s' : GeoJSONReader ν} (t : GeometryType)
    (h : s.setGeometryType t = (true, s'))
    (hb : (geometryTypeFromRootType s.rootType).isGeometry = true →
      t = geometryTypeFromRootType s.rootType ∨
      s.deducedGeometryDepth =
        getExpectedGeometryDepth (geometryTypeFromRootType s.rootType))
    (hc : s.coordinates = some [] → s.deducedGeometryDepth = 3 ∨ s.deducedGeometryDepth = 4) :
    ({ s' with expect := pop s'.expect } : GeoJSONReader ν).DepthsAgree := by
  obtain ⟨h1, h2⟩ := setGeometryType_ok t h
  subst h1
  refine ⟨fun _ => rfl, fun hr => ?_, fun hco => ?_⟩
  · rcases hb hr with hb | hb
    · show getExpectedGeometryDepth t = getExpectedGeometryDepth (geometryTypeFromRootType _)
      rw [hb]
    · show getExpectedGeometryDepth t = getExpectedGeometryDepth (geometryTypeFromRootType _)
      have hp := depth_pos_of_isGeometry _ hr
      rw [← hb]
      exact (h2 (by rw [hb]; exact hp)).symm
  · have h3 := hc hco
    show getExpectedGeometryDepth t = 3 ∨ getExpectedGeometryDepth t = 4
    rw [← h2 (by omega)]
    exact h3

theorem depthsAgree_rootTypeString {s s' : GeoJSONReader ν} (v : String) (hs : s.DepthsAgree)
    (h : s.rootTypeString v = (true, s')) : s'.DepthsAgree := by
  unfold rootTypeString at h
  simp only [setRootAndGeometryType, setRootType, if_true] at h
  split_ifs at h
  all_goals (
    simp only [Prod.mk.injEq] at h
    obtain ⟨hok, hs'⟩ := h
    subst hs'
    first
    | exact Bool.noConfusion hok
    | exact depthsAgree_of_setGeometryType _ (Prod.ext hok rfl) (fun _ => Or.inl rfl) hs.2.2
    | exact ⟨hs.1, fun hr => Bool.noConfusion hr, hs.2.2⟩)

theorem depthsAgree_geometryTypeString {s s' : GeoJSONReader ν} (v : String)
    (hs : s.DepthsAgree) (h : s.geometryTypeString v = (true, s')) : s'.DepthsAgree := by
  unfold geometryTypeString at h
  simp only at h
  split_ifs at h
  all_goals (
    simp only [Prod.mk.injEq] at h
    obtain ⟨hok, hs'⟩ := h
    subst hs'
    first
    | exact Bool.noConfusion hok
    | exact depthsAgree_of_setGeometryType _ (Prod.ext hok rfl)
        (fun hr => Or.inr (hs.2.1 hr)) hs.2.2)

set_option maxHeartbeats 1600000 in
/-- Every accepted event keeps the depth bookkeeping. -/
theorem depthsAgree_handle {s s' : GeoJSONReader ν} (e : Event ν) (hs : s.DepthsAgree)
    (h : s.handle e = (true, s')) : s'.DepthsAgree := by
  cases e with
  | string x =>
    cases htop : top s.expect <;> simp only [handle, String_, htop, fail, ignored] at h
    all_goals try (simp at h; done)
    all_goals first
      | exact depthsAgree_rootTypeString x hs h
      | exact depthsAgree_geometryTypeString x hs h
      | skip
    all_goals try split at h
    all_goals (simp only [Prod.mk.injEq, true_and] at h; subst h; exact hs)
  | _ =>
    cases htop : top s.expect <;>
      simp only [handle, StartObject, EndObject, StartArray, EndArray, Key, handleNumber, Null,
        Bool_, htop, fail, endIgnored, endRootObject, endGeometryObject, endCoordinatesArray,
        startCoordinatesArray, parseGeometry, parseRootCoordinates, parseGeometryCoordinates]
        at h
    all_goals try split at h
    all_goals try split at h
    all_goals try split at h
    all_goals try split_ifs at h
    all_goals try split at h
    all_goals try simp only [Prod.mk.injEq, true_and, false_and, Bool.true_eq_false,
        Bool.false_eq_true] at h
    all_goals try (subst h; exact hs)
    all_goals try (subst h; exact ⟨hs.2.1, hs.2.1, hs.2.2⟩)
    all_goals try (
      subst h
      refine ⟨hs.1, hs.2.1, fun hc => ?_⟩
      simp at hc
      done)
    all_goals try (
      subst h
      rename_i h1 h2 h3 h4
      have h5 : s.geometryDepth - 1 = 0 := h4
      refine ⟨hs.1, hs.2.1, fun _ => ?_⟩
      show s.deducedGeometryDepth = 3 ∨ s.deducedGeometryDepth = 4
      omega)
    all_goals try (
      subst h
      rename_i h1 h2
      have h3 : s.deducedGeometryDepth = 0 := h1
      refine ⟨fun hg => ?_, fun hr => ?_, fun hc => ?_⟩
      · have hg1 : s.geometryType.isGeometry = true := hg
        have h4 := hs.1 hg1
        have h5 := depth_pos_of_isGeometry _ hg1
        omega
      · have hr1 : (geometryTypeFromRootType s.rootType).isGeometry = true := hr
        have h4 := hs.2.1 hr1
        have h5 := depth_pos_of_isGeometry _ hr1
        omega
      · have hc1 : s.coordinates = some [] := hc
        have h4 := hs.2.2 hc1
        omega)

theorem depthsAgree_init (x0 : ν) : (init x0).DepthsAgree :=
  ⟨fun h => Bool.noConfusion h, fun h => Bool.noConfusion h, fun h => Option.noConfusion h⟩

theorem depthsAgree_feed (es : List (Event ν)) (s s' : GeoJSONReader ν) (hs : s.DepthsAgree)
    (h : s.feed es = (true, s')) : s'.DepthsAgree := by
  induction es generalizing s with
  | nil =>
    simp only [feed, Prod.mk.injEq, true_and] at h
    rw [← h]
    exact hs
  | cons e es ih =>
    obtain ⟨s1, h1, h2⟩ := feed_cons_ok h
    exact ih s1 (depthsAgree_handle e hs h1) h2

end GeoJSONReader

/-- C39: in every run of the handlers on a sequence of events, as long as no
event was rejected, a stored `coordinates` list is not empty whenever the stored
root type, or the stored geometry type, is Point or MultiPoint: the list was
closed at the deduced depth 1 or 2 that these types require, where a ring is
always appended. So the Point/MultiPoint case of `endRootObject` (which
switches on the root type) and of `endGeometryObject` (on the geometry type)
finds `coordinates->size() >= 1`, and `front` returns the first ring. -/
theorem C39_point_coordinates_are_not_empty {ν : Type} (x0 : ν) (es : List (Event ν))
    (s : GeoJSONReader ν) (c : Polygon ν) (h : (GeoJSONReader.init x0).feed es = (true, s))
    (hc : s.coordinates = some c) :
    (s.rootType = RootType.Point ∨ s.rootType = RootType.MultiPoint → 1 ≤ c.length) ∧
    (s.geometryType = GeometryType.Point ∨ s.geometryType = GeometryType.MultiPoint →
      1 ≤ c.length) ∧
    (s.rootType = RootType.Point ∨ s.rootType = RootType.MultiPoint →
      ∃ ring rest, c = ring :: rest ∧
        s.endRootObject = (true, { s with inserter := s.inserter ++ [⟨Geometry.Point ring⟩] })) ∧
    (s.geometryType = GeometryType.Point ∨ s.geometryType = GeometryType.MultiPoint →
      ∃ ring rest, c = ring :: rest ∧
        s.endGeometryObject =
          (true, { s with expect := pop s.expect, geometry := some [Geometry.Point ring]
                          coordinates := none })) := by
  have hd := GeoJSONReader.depthsAgree_feed es _ s (GeoJSONReader.depthsAgree_init x0) h
  have hroot : s.rootType = RootType.Point ∨ s.rootType = RootType.MultiPoint →
      1 ≤ c.length := by
    intro hr
    cases c with
    | nil =>
      have h1 := hd.2.2 hc
      have h2 := hd.2.1 (by rcases hr with hr | hr <;> rw [hr] <;> rfl)
      rcases hr with hr | hr <;> rw [hr] at h2 <;>
        simp only [GeoJSONReader.geometryTypeFromRootType,
          GeoJSONReader.getExpectedGeometryDepth] at h2 <;> omega
    | cons ring rest => simp
  have hgeo : s.geometryType = GeometryType.Point ∨ s.geometryType = GeometryType.MultiPoint →
      1 ≤ c.length := by
    intro hr
    cases c with
    | nil =>
      have h1 := hd.2.2 hc
      have h2 := hd.1 (by rcases hr with hr | hr <;> rw [hr] <;> rfl)
      rcases hr with hr | hr <;> rw [hr] at h2 <;>
        simp only [GeoJSONReader.getExpectedGeometryDepth] at h2 <;> omega
    | cons ring rest => simp
  refine ⟨hroot, hgeo, fun hr => ?_, fun hr => ?_⟩
  · have hl := hroot hr
    cases c with
    | nil => simp at hl
    | cons ring rest =>
      refine ⟨ring, rest, rfl, ?_⟩
      rcases hr with hr | hr <;> simp [GeoJSONReader.endRootObject, hr, hc, front]
  · have hl := hgeo hr
    cases c with
    | nil => simp at hl
    | cons ring rest =>
      refine ⟨ring, rest, rfl, ?_⟩
      rcases hr with hr | hr <;> simp [GeoJSONReader.endGeometryObject, hr, hc, front]

/-- C39, witness: the MultiPoint `{"type": "MultiPoint", "coordinates": []` at
its closing brace: the stored list holds one (empty) ring. -/
theorem C39_witness_multipoint_without_points :
    ((GeoJSONReader.init (0 : Int)).feed [Event.startObject, .key "type", .string "MultiPoint",
      .key "coordinates", .startArray, .endArray]).2.coordinates = some [[]] ∧
    1 ≤ ([[]] : Polygon Int).length :=
  ⟨by decide,
    (C39_point_coordinates_are_not_empty (0 : Int) [Event.startObject, .key "type",
      .string "MultiPoint", .key "coordinates", .startArray, .endArray]
      ((GeoJSONReader.init (0 : Int)).feed [Event.startObject, .key "type",
        .string "MultiPoint", .key "coordinates", .startArray, .endArray]).2 [[]]
      (by decide) (by decide)).1 (Or.inr (by decide))⟩

/-! ## C40: the loops of `calculate_dist` and `calculate_area` -/

/-- The loop of `calculate_dist` started at the element `a` that follows `pre`,
with as many iterations to go as elements follow `a`: every read is inside the
vector, the terms of the consecutive pairs are added up and the pairs recorded. -/
theorem vt_line_string.dist_loop_consecutive {ν : Type} [LinearOrderedField ν] (w : List (vt_point ν))
    (pre : List (vt_point ν)) (a : vt_point ν) (st : ν × List (Nat × Nat)) :
    vt_line_string.loop (pre ++ a :: w) w.length pre.length st =
      some (st.1 + (List.zipWith (fun p q => |q.x - p.x| + |q.y - p.y|) (a :: w) w).sum,
        st.2 ++ (List.range' pre.length w.length).map (fun i => (i, i + 1))) := by
  induction w generalizing pre a st with
  | nil => simp [vt_line_string.loop]
  | cons b w ih =>
    have h1 : (pre ++ a :: b :: w)[pre.length]? = some a := by
      rw [List.getElem?_append_right (le_refl _)]
      simp
    have h2 : (pre ++ a :: b :: w)[pre.length + 1]? = some b := by
      rw [List.getElem?_append_right (by omega)]
      simp
    have h3 : pre ++ a :: b :: w = (pre ++ [a]) ++ b :: w := by simp
    have h4 : pre.length + 1 = (pre ++ [a]).length := by simp
    simp only [List.length_cons, vt_line_string.loop, h1, h2]
    rw [h3, h4, ih]
    simp [List.range'_succ, add_assoc]

/-- The loop of `calculate_area`, as `vt_line_string.dist_loop_consecutive`. -/
theorem vt_linear_ring.area_loop_consecutive {ν : Type} [LinearOrderedField ν] (w : List (vt_point ν))
    (pre : List (vt_point ν)) (a : vt_point ν) (st : ν × List (Nat × Nat)) :
    vt_linear_ring.loop (pre ++ a :: w) w.length pre.length st =
      some (st.1 + (List.zipWith (fun p q => p.x * q.y - q.x * p.y) (a :: w) w).sum,
        st.2 ++ (List.range' pre.length w.length).map (fun i => (i, i + 1))) := by
  induction w generalizing pre a st with
  | nil => simp [vt_linear_ring.loop]
  | cons b w ih =>
    have h1 : (pre ++ a :: b :: w)[pre.length]? = some a := by
      rw [List.getElem?_append_right (le_refl _)]
      simp
    have h2 : (pre ++ a :: b :: w)[pre.length + 1]? = some b := by
      rw [List.getElem?_append_right (by omega)]
      simp
    have h3 : pre ++ a :: b :: w = (pre ++ [a]) ++ b :: w := by simp
    have h4 : pre.length + 1 = (pre ++ [a]).length := by simp
    simp only [List.length_cons, vt_linear_ring.loop, h1, h2]
    rw [h3, h4, ih]
    simp [List.range'_succ, add_assoc]

theorem loopBound_zero : loopBound 0 = 18446744073709551614 + 1 := by
  unfold loopBound
  norm_num

theorem loopBound_succ (n : Nat) (hn : n + 1 < 2 ^ 64) : loopBound (n + 1) = n := by
  unfold loopBound
  omega

/-- On an empty vector the first iteration of the loop already reads out of
bounds. -/
theorem vt_line_string.dist_loop_empty {ν : Type} [LinearOrderedField ν] (n i : Nat)
    (st : ν × List (Nat × Nat)) : vt_line_string.loop [] (n + 1) i st = none := by
  simp [vt_line_string.loop]

theorem vt_linear_ring.area_loop_empty {ν : Type} [LinearOrderedField ν] (n i : Nat)
    (st : ν × List (Nat × Nat)) : vt_linear_ring.loop [] (n + 1) i st = none := by
  simp [vt_linear_ring.loop]

/-- C40 (code defect): on an empty sequence the bound `size() - 1` is
`2^64 - 1`, and the first iteration of either loop reads the elements 0 and 1,
which do not exist. On a sequence of `n ≥ 1` points (`n < 2^64`) no read is
out of bounds: the loops visit exactly the `n - 1` pairs `(i, i + 1)` in order,
`dist` becomes the sum of the Manhattan distances of the consecutive pairs
and `area` half the absolute value of the sum of their cross products; for one
point no element is read and both are 0. -/
theorem C40_empty_sequence_is_read_out_of_bounds {ν : Type} [LinearOrderedField ν] :
    loopBound 0 = 2 ^ 64 - 1 ∧
    (∀ d : ν, vt_line_string.calculate_dist ⟨[], d⟩ = none) ∧
    (∀ d : ν, vt_linear_ring.calculate_area ⟨[], d⟩ = none) ∧
    (∀ (p : vt_point ν) (d : ν),
      vt_line_string.calculate_dist ⟨[p], d⟩ = some (⟨[p], 0⟩, []) ∧
      vt_linear_ring.calculate_area ⟨[p], d⟩ = some (⟨[p], 0⟩, [])) ∧
    (∀ (p : vt_point ν) (w : List (vt_point ν)) (d : ν), w.length + 1 < 2 ^ 64 →
      vt_line_string.calculate_dist ⟨p :: w, d⟩ =
        some (⟨p :: w, (List.zipWith (fun p q => |q.x - p.x| + |q.y - p.y|) (p :: w) w).sum⟩,
          (List.range w.length).map (fun i => (i, i + 1))) ∧
      vt_linear_ring.calculate_area ⟨p :: w, d⟩ =
        some (⟨p :: w, |(List.zipWith (fun p q => p.x * q.y - q.x * p.y) (p :: w) w).sum / 2|⟩,
          (List.range w.length).map (fun i => (i, i + 1)))) := by
  refine ⟨?_, fun d => ?_, fun d => ?_, fun p d => ⟨?_, ?_⟩, fun p w d hw => ?_⟩
  · unfold loopBound
    norm_num
  · unfold vt_line_string.calculate_dist
    simp only [List.length_nil]
    rw [loopBound_zero, vt_line_string.dist_loop_empty]
    rfl
  · unfold vt_linear_ring.calculate_area
    simp only [List.length_nil]
    rw [loopBound_zero, vt_linear_ring.area_loop_empty]
    rfl
  · unfold vt_line_string.calculate_dist
    simp only [List.length_singleton]
    rw [loopBound_succ 0 (by norm_num)]
    rfl
  · unfold vt_linear_ring.calculate_area
    simp only [List.length_singleton]
    rw [loopBound_succ 0 (by norm_num)]
    simp [vt_linear_ring.loop]
  · have h1 := vt_line_string.dist_loop_consecutive w [] p ((0 : ν), [])
    have h2 := vt_linear_ring.area_loop_consecutive w [] p ((0 : ν), [])
    simp only [List.nil_append, List.length_nil, zero_add] at h1 h2
    simp only [vt_line_string.calculate_dist, vt_linear_ring.calculate_area, List.length_cons,
      loopBound_succ _ hw, h1, h2, Option.map_some', List.range_eq_range']
    exact ⟨trivial, trivial⟩

/-- C40, witness: a line of three points, and the same points as a ring. -/
theorem C40_witness_three_points :
    vt_line_string.calculate_dist (⟨[⟨1, 2, 0⟩, ⟨3, 5, 0⟩, ⟨1, 1, 0⟩], 0⟩ : vt_line_string ℚ) =
      some (⟨[⟨1, 2, 0⟩, ⟨3, 5, 0⟩, ⟨1, 1, 0⟩], 11⟩, [(0, 1), (1, 2)]) ∧
    vt_linear_ring.calculate_area (⟨[⟨1, 2, 0⟩, ⟨3, 5, 0⟩, ⟨1, 1, 0⟩], 0⟩ : vt_linear_ring ℚ) =
      some (⟨[⟨1, 2, 0⟩, ⟨3, 5, 0⟩, ⟨1, 1, 0⟩], 3 / 2⟩, [(0, 1), (1, 2)]) := by
  have h := (@C40_empty_sequence_is_read_out_of_bounds ℚ _).2.2.2.2 ⟨1, 2, 0⟩
    [⟨3, 5, 0⟩, ⟨1, 1, 0⟩] 0 (by norm_num)
  have h32 : |(3 : ℚ) / 2| = 3 / 2 := abs_of_pos (by norm_num)
  norm_num [List.range_succ] at h
  rw [h32] at h
  exact h

/-! ## C4, C5, C6: line, multi-point and multi-polygon root objects in both key orders -/

/-- A coordinates value read ahead of `type` in which an array closes before any
number was read: the `k` opening brackets are accepted, the closing bracket is
rejected, whatever follows. -/
theorem new_of_coordinatesFirst_closed_early {ν : Type} (x0 : ν) (k : Nat)
    (tail : List (Event ν)) (json : List Char) (syn : Option String) (msg : String)
    (off : Nat → Nat) :
    GeoJSON.new x0 json ⟨([Event.startObject, .key "coordinates"] ++
        List.replicate (k + 1) Event.startArray) ++ Event.endArray :: tail, syn, msg, off⟩ =
      ⟨some ⟨"Expected a coordinate, but got a prematurely closed array instead.",
        (offsetToRowAndCol json (off (k + 3))).1, (offsetToRowAndCol json (off (k + 3))).2⟩,
        []⟩ := by
  have hfeed : (init x0).feed ([Event.startObject, .key "coordinates"] ++
      List.replicate (k + 1) Event.startArray) =
      (true, { (init x0).parseRootCoordinates with geometryDepth := ((k + 1 : Nat) : Int) }) := by
    have h0 : (init x0).feed [Event.startObject, .key "coordinates"] =
        (true, (init x0).parseRootCoordinates) := rfl
    rw [feed_append, h0]
    simp only [if_true]
    have h1 := feed_open_untyped (k + 1) (init x0).parseRootCoordinates [] rfl rfl
    rw [List.append_nil] at h1
    rw [h1]
    simp [feed, parseRootCoordinates, init]
  have hrej : ({ (init x0).parseRootCoordinates with
      geometryDepth := ((k + 1 : Nat) : Int) } : GeoJSONReader ν).handle Event.endArray =
      (false, { (init x0).parseRootCoordinates with
        geometryDepth := ((k + 1 : Nat) : Int)
        error := (Expected.FirstGeometryCoordinate, Actual.ArrayEnded) }) := by
    have hle : (0 : Int) ≤ ((k + 1 : Nat) : Int) := by omega
    simp [handle, EndArray, top, parseRootCoordinates, init, endCoordinatesArray, fail]
    omega
  rw [new_of_rejected_at x0 json _ _ tail syn msg off _ _ hfeed hrej (fun h => Expected.noConfusion h)]
  have hl : ([Event.startObject, Event.key "coordinates"] ++
      List.replicate (k + 1) (Event.startArray : Event ν)).length = k + 3 := by
    simp
  rw [hl]
  rfl

/-- A root object with `coordinates` ahead of `type` whose coordinates value
starts with `k + 1` opening brackets and a closing bracket is rejected at that
closing bracket. -/
theorem decode_coordinatesFirst_closed_early {ν : Type} (x0 : ν) (kw : String) (c : JSON ν)
    (k : Nat) (tail : List (Event ν)) (json : List Char) (msg : String) (off : Nat → Nat)
    (hc : c.events = List.replicate (k + 1) Event.startArray ++ Event.endArray :: tail) :
    decode x0 (.obj [("coordinates", c), ("type", .str kw)]) json msg off =
      ⟨some ⟨"Expected a coordinate, but got a prematurely closed array instead.",
        (offsetToRowAndCol json (off (k + 3))).1, (offsetToRowAndCol json (off (k + 3))).2⟩,
        []⟩ := by
  have h := new_of_coordinatesFirst_closed_early x0 k
    (tail ++ [Event.key "type", .string kw, Event.endObject]) json none msg off
  have hev : (JSON.obj [("coordinates", c), ("type", .str kw)]).events =
      ([Event.startObject, .key "coordinates"] ++ List.replicate (k + 1) Event.startArray) ++
        Event.endArray :: (tail ++ [Event.key "type", .string kw, Event.endObject]) := by
    rw [events_coordinatesFirst, hc]
    simp
  unfold decode Tokenizer.ofDocument
  rw [hev]
  exact h

/-- C4, counterexample: a LineString with the coordinates `[]` and a
MultiLineString with the coordinates `[[]]` decode when `type` comes first, and
are rejected at the first closing bracket when `coordinates` comes first. -/
theorem C4_counterexample_empty_line_coordinates_first :
    decode (0 : Int) (.obj [("type", .str "LineString"), ("coordinates", .arr [])]) [] ""
        (fun _ => 0) = ⟨none, [⟨Geometry.Line [[]]⟩]⟩ ∧
    decode (0 : Int) (.obj [("coordinates", .arr []), ("type", .str "LineString")]) [] ""
        (fun _ => 0) =
      ⟨some ⟨"Expected a coordinate, but got a prematurely closed array instead.", 0, 0⟩, []⟩ ∧
    decode (0 : Int) (.obj [("type", .str "MultiLineString"), ("coordinates", .arr [.arr []])])
        [] "" (fun _ => 0) = ⟨none, [⟨Geometry.Line [[]]⟩]⟩ ∧
    decode (0 : Int) (.obj [("coordinates", .arr [.arr []]), ("type", .str "MultiLineString")])
        [] "" (fun _ => 0) =
      ⟨some ⟨"Expected a coordinate, but got a prematurely closed array instead.", 0, 0⟩, []⟩ := by
  decide

/-- C4, amended: a root object of type LineString with coordinates
`[p1, ..., pn]` decodes to exactly one Feature of variant Line holding exactly
the one ring `[p1, ..., pn]`, and a root object of type MultiLineString with
coordinates `[L1, ..., Lm]` to exactly one Feature of variant Line whose rings
are `L1, ..., Lm` in that order, each with its points in input order - with
`type` ahead of `coordinates` for every value, and with `coordinates` ahead of
`type` when the value starts with a point (`n >= 1`, resp. `L1` not empty).
With `coordinates` ahead of `type` and a value in which an array closes before
any number (`[]`, `[[], ...]`), the decode fails at that closing bracket. -/
theorem C4_linestring_and_multilinestring_decode_in_both_orders {ν : Type} (x0 : ν)
    (p : Point ν) (ps : Points ν) (Ls rs : Polygon ν) (json : List Char) (msg : String)
    (off : Nat → Nat) :
    decode x0 (.obj [("type", .str "LineString"), ("coordinates", .points ps)]) json msg off
      = ⟨none, [⟨Geometry.Line [ps]⟩]⟩ ∧
    decode x0 (.obj [("type", .str "MultiLineString"), ("coordinates", .rings Ls)]) json msg off
      = ⟨none, [⟨Geometry.Line Ls⟩]⟩ ∧
    decode x0 (.obj [("coordinates", .points (p :: ps)), ("type", .str "LineString")])
        json msg off
      = ⟨none, [⟨Geometry.Line [p :: ps]⟩]⟩ ∧
    decode x0 (.obj [("coordinates", .rings ((p :: ps) :: rs)), ("type", .str "MultiLineString")])
        json msg off
      = ⟨none, [⟨Geometry.Line ((p :: ps) :: rs)⟩]⟩ ∧
    decode x0 (.obj [("coordinates", .points []), ("type", .str "LineString")]) json msg off
      = ⟨some ⟨"Expected a coordinate, but got a prematurely closed array instead.",
          (offsetToRowAndCol json (off 3)).1, (offsetToRowAndCol json (off 3)).2⟩, []⟩ ∧
    decode x0 (.obj [("coordinates", .rings []), ("type", .str "MultiLineString")]) json msg off
      = ⟨some ⟨"Expected a coordinate, but got a prematurely closed array instead.",
          (offsetToRowAndCol json (off 3)).1, (offsetToRowAndCol json (off 3)).2⟩, []⟩ ∧
    decode x0 (.obj [("coordinates", .rings ([] :: rs)), ("type", .str "MultiLineString")])
        json msg off
      = ⟨some ⟨"Expected a coordinate, but got a prematurely closed array instead.",
          (offsetToRowAndCol json (off 4)).1, (offsetToRowAndCol json (off 4)).2⟩, []⟩ := by
  refine ⟨(typeFirst_lines_decode x0 ps Ls json msg off).1,
    (typeFirst_lines_decode x0 ps Ls json msg off).2,
    coordinatesFirst_accepted x0 GeometryType.LineString (.points p ps) json msg off rfl rfl,
    coordinatesFirst_accepted x0 GeometryType.MultiLineString (.rings p ps rs) json msg off
      rfl rfl, ?_, ?_, ?_⟩
  · exact decode_coordinatesFirst_closed_early x0 _ _ 0 [] json msg off rfl
  · exact decode_coordinatesFirst_closed_early x0 _ _ 0 [] json msg off rfl
  · exact decode_coordinatesFirst_closed_early x0 _ _ 1
      (JSON.elementEvents (rs.map JSON.points) ++ [Event.endArray]) json msg off
      (by simp [JSON.rings, JSON.points, JSON.events, JSON.elementEvents])

/-- C5, counterexample: a MultiPoint with the coordinates `[]` decodes to an empty
points list when `type` comes first and is rejected at the closing bracket when
`coordinates` comes first. -/
theorem C5_counterexample_empty_multipoint_coordinates_first :
    decode (0 : Int) (.obj [("type", .str "MultiPoint"), ("coordinates", .arr [])]) [] ""
        (fun _ => 0) = ⟨none, [⟨Geometry.Point []⟩]⟩ ∧
    decode (0 : Int) (.obj [("coordinates", .arr []), ("type", .str "MultiPoint")]) [] ""
        (fun _ => 0) =
      ⟨some ⟨"Expected a coordinate, but got a prematurely closed array instead.", 0, 0⟩, []⟩ := by
  decide

/-- C5, amended: a root object of type MultiPoint with coordinates
`[[x1, y1], ..., [xn, yn]]` decodes to exactly one Feature of variant Point
whose points list is `[(x1, y1), ..., (xn, yn)]` in input order - with `type`
ahead of `coordinates` for every `n >= 0`, the empty array `[]` included, which
gives an empty points list, and with `coordinates` ahead of `type` for every
`n >= 1`. With `coordinates` ahead of `type` the empty array `[]` is rejected at
its closing bracket. -/
theorem C5_multipoint_decodes_in_both_orders {ν : Type} (x0 : ν) (p : Point ν) (ps : Points ν)
    (json : List Char) (msg : String) (off : Nat → Nat) :
    decode x0 (.obj [("type", .str "MultiPoint"), ("coordinates", .points ps)]) json msg off
      = ⟨none, [⟨Geometry.Point ps⟩]⟩ ∧
    decode x0 (.obj [("type", .str "MultiPoint"), ("coordinates", .arr [])]) json msg off
      = ⟨none, [⟨Geometry.Point []⟩]⟩ ∧
    decode x0 (.obj [("coordinates", .points (p :: ps)), ("type", .str "MultiPoint")])
        json msg off
      = ⟨none, [⟨Geometry.Point (p :: ps)⟩]⟩ ∧
    decode x0 (.obj [("coordinates", .arr []), ("type", .str "MultiPoint")]) json msg off
      = ⟨some ⟨"Expected a coordinate, but got a prematurely closed array instead.",
          (offsetToRowAndCol json (off 3)).1, (offsetToRowAndCol json (off 3)).2⟩, []⟩ :=
  ⟨(typeFirst_multipoint_decodes x0 ps json msg off).1,
    (typeFirst_multipoint_decodes x0 ps json msg off).2,
    coordinatesFirst_accepted x0 GeometryType.MultiPoint (.points p ps) json msg off rfl rfl,
    decode_coordinatesFirst_closed_early x0 _ _ 0 [] json msg off rfl⟩

/-- C6, counterexample: a MultiPolygon with the coordinates `[]`, or `[[]]`,
decodes to a Feature without rings when `type` comes first and is rejected at
the first closing bracket when `coordinates` comes first. -/
theorem C6_counterexample_empty_multipolygon_coordinates_first :
    decode (0 : Int) (.obj [("type", .str "MultiPolygon"), ("coordinates", .arr [])]) [] ""
        (fun _ => 0) = ⟨none, [⟨Geometry.Polygon []⟩]⟩ ∧
    decode (0 : Int) (.obj [("coordinates", .arr []), ("type", .str "MultiPolygon")]) [] ""
        (fun _ => 0) =
      ⟨some ⟨"Expected a coordinate, but got a prematurely closed array instead.", 0, 0⟩, []⟩ ∧
    decode (0 : Int) (.obj [("type", .str "MultiPolygon"), ("coordinates", .arr [.arr []])])
        [] "" (fun _ => 0) = ⟨none, [⟨Geometry.Polygon []⟩]⟩ ∧
    decode (0 : Int) (.obj [("coordinates", .arr [.arr []]), ("type", .str "MultiPolygon")])
        [] "" (fun _ => 0) =
      ⟨some ⟨"Expected a coordinate, but got a prematurely closed array instead.", 0, 0⟩, []⟩ := by
  decide

/-- C6, amended: for every MultiPolygon root object whose coordinates are the
polygon groups `G1, ..., Gk` (each a list of rings), decoding yields exactly one
Feature of variant Polygon whose rings list is the concatenation
`G1 ++ ... ++ Gk` (the number of rings is the sum of the group sizes, ring order
and point order are those of the input) - with `type` ahead of `coordinates`
for every value, and with `coordinates` ahead of `type` when the value starts
with a point (the first ring of `G1` is not empty). With `coordinates` ahead of
`type` and a value in which an array closes before any number (`[]`,
`[[], ...]`, `[[[], ...], ...]`), the decode fails at that closing bracket. -/
theorem C6_multipolygon_rings_are_concatenated_in_both_orders {ν : Type} (x0 : ν)
    (p : Point ν) (ps : Points ν) (rs : Polygon ν) (gs : List (Polygon ν)) (json : List Char)
    (msg : String) (off : Nat → Nat) :
    decode x0 (.obj [("type", .str "MultiPolygon"), ("coordinates", .polygons gs)]) json msg off
      = ⟨none, [⟨Geometry.Polygon gs.flatten⟩]⟩ ∧
    gs.flatten.length = (gs.map List.length).sum ∧
    decode x0 (.obj [("coordinates", .polygons (((p :: ps) :: rs) :: gs)),
        ("type", .str "MultiPolygon")]) json msg off
      = ⟨none, [⟨Geometry.Polygon ((((p :: ps) :: rs) :: gs).flatten)⟩]⟩ ∧
    decode x0 (.obj [("coordinates", .polygons []), ("type", .str "MultiPolygon")]) json msg off
      = ⟨some ⟨"Expected a coordinate, but got a prematurely closed array instead.",
          (offsetToRowAndCol json (off 3)).1, (offsetToRowAndCol json (off 3)).2⟩, []⟩ ∧
    decode x0 (.obj [("coordinates", .polygons ([] :: gs)), ("type", .str "MultiPolygon")])
        json msg off
      = ⟨some ⟨"Expected a coordinate, but got a prematurely closed array instead.",
          (offsetToRowAndCol json (off 4)).1, (offsetToRowAndCol json (off 4)).2⟩, []⟩ ∧
    decode x0 (.obj [("coordinates", .polygons (([] :: rs) :: gs)),
        ("type", .str "MultiPolygon")]) json msg off
      = ⟨some ⟨"Expected a coordinate, but got a prematurely closed array instead.",
          (offsetToRowAndCol json (off 5)).1, (offsetToRowAndCol json (off 5)).2⟩, []⟩ := by
  refine ⟨(typeFirst_multipolygon_decodes x0 gs json msg off).1,
    (typeFirst_multipolygon_decodes x0 gs json msg off).2,
    coordinatesFirst_accepted x0 GeometryType.MultiPolygon (.polygons p ps rs gs) json msg off
      rfl rfl, ?_, ?_, ?_⟩
  · exact decode_coordinatesFirst_closed_early x0 _ _ 0 [] json msg off rfl
  · exact decode_coordinatesFirst_closed_early x0 _ _ 1
      (JSON.elementEvents (gs.map JSON.rings) ++ [Event.endArray]) json msg off
      (by simp [JSON.polygons, JSON.rings, JSON.events, JSON.elementEvents])
  · exact decode_coordinatesFirst_closed_early x0 _ _ 2
      (JSON.elementEvents (rs.map JSON.points) ++ (Event.endArray ::
        (JSON.elementEvents (gs.map JSON.rings) ++ [Event.endArray]))) json msg off
      (by simp [JSON.polygons, JSON.rings, JSON.points, JSON.events, JSON.elementEvents])

/-! ## C37: the deduced depth along the events of a document -/

theorem grammarRun_append {ν : Type} (es1 es2 : List (Event ν)) (ctx : List Frame) :
    grammarRun ctx (es1 ++ es2) = (grammarRun ctx es1).bind (fun c => grammarRun c es2) := by
  induction es1 generalizing ctx with
  | nil => rfl
  | cons e es ih =>
    simp only [List.cons_append, grammarRun]
    cases grammarStep ctx e with
    | none => rfl
    | some c => exact ih c

mutual
theorem grammarRun_events {ν : Type} (v : JSON ν) (ctx ctx1 : List Frame)
    (h : completed ctx = some ctx1) : grammarRun ctx v.events = some ctx1 := by
  cases v with
  | null => simp [JSON.events, grammarRun, grammarStep, h]
  | bool b => simp [JSON.events, grammarRun, grammarStep, h]
  | num n => simp [JSON.events, grammarRun, grammarStep, h]
  | str x => simp [JSON.events, grammarRun, grammarStep, h]
  | arr elements =>
    simp only [JSON.events, grammarRun, grammarStep, h, Option.map_some']
    rw [grammarRun_append, grammarRun_elementEvents elements ctx]
    simp [grammarRun, grammarStep, h]
  | obj members =>
    simp only [JSON.events, grammarRun, grammarStep, h, Option.map_some']
    rw [grammarRun_append, grammarRun_memberEvents members ctx]
    simp [grammarRun, grammarStep, h]
theorem grammarRun_elementEvents {ν : Type} (vs : List (JSON ν)) (r : List Frame) :
    grammarRun (Frame.array :: r) (JSON.elementEvents vs) = some (Frame.array :: r) := by
  cases vs with
  | nil => rfl
  | cons v vs =>
    simp only [JSON.elementEvents]
    rw [grammarRun_append, grammarRun_events v (Frame.array :: r) (Frame.array :: r) rfl]
    exact grammarRun_elementEvents vs r
theorem grammarRun_memberEvents {ν : Type} (ms : List (String × JSON ν)) (r : List Frame) :
    grammarRun (Frame.object :: r) (JSON.memberEvents ms) = some (Frame.object :: r) := by
  cases ms with
  | nil => rfl
  | cons m ms =>
    obtain ⟨k, v⟩ := m
    simp only [JSON.memberEvents, grammarRun, grammarStep]
    rw [grammarRun_append, grammarRun_events v (Frame.value :: r) (Frame.object :: r) rfl]
    exact grammarRun_memberEvents ms r
end

/-- The events of a document are a sequence the tokenizer delivers, from the
first event to the end of the root value. -/
theorem grammarRun_document {ν : Type} (doc : JSON ν) :
    grammarRun [Frame.root] doc.events = some [Frame.done] :=
  grammarRun_events doc _ _ rfl

theorem grammarRun_initial {ν : Type} (es1 es2 : List (Event ν)) (ctx c : List Frame)
    (h : grammarRun ctx (es1 ++ es2) = some c) : ∃ c1, grammarRun ctx es1 = some c1 := by
  rw [grammarRun_append] at h
  cases h1 : grammarRun ctx es1 with
  | none => rw [h1] at h; exact Option.noConfusion h
  | some c1 => exact ⟨c1, rfl⟩

theorem coordinateDepth_nonneg (ctx : List Frame) (g : Int) (h : coordinateDepth ctx = some g) :
    0 ≤ g := by
  induction ctx generalizing g with
  | nil => exact Option.noConfusion h
  | cons f r ih =>
    cases f <;> simp only [coordinateDepth] at h
    · exact Option.noConfusion h
    · exact Option.noConfusion h
    · exact Option.noConfusion h
    · cases h
      exact le_refl _
    · cases hr : coordinateDepth r with
      | none => rw [hr] at h; exact Option.noConfusion h
      | some d =>
        rw [hr] at h
        simp only [Option.map_some', Option.some.injEq] at h
        have := ih d hr
        omega

theorem coordinateDepth_pos (ctx : List Frame) (g : Int) (h : coordinateDepth ctx = some g)
    (hg : g ≠ 0) : ∃ r, ctx = Frame.array :: r ∧ coordinateDepth r = some (g - 1) := by
  cases ctx with
  | nil => exact Option.noConfusion h
  | cons f r =>
    cases f <;> simp only [coordinateDepth] at h
    · exact Option.noConfusion h
    · exact Option.noConfusion h
    · exact Option.noConfusion h
    · cases h
      exact absurd rfl hg
    · cases hr : coordinateDepth r with
      | none => rw [hr] at h; exact Option.noConfusion h
      | some d =>
        rw [hr] at h
        simp only [Option.map_some', Option.some.injEq] at h
        exact ⟨r, rfl, by rw [hr]; congr 1; omega⟩

theorem coordinateDepth_zero (ctx : List Frame) (h : coordinateDepth ctx = some 0) :
    ∃ r, ctx = Frame.value :: r := by
  cases ctx with
  | nil => exact Option.noConfusion h
  | cons f r =>
    cases f <;> simp only [coordinateDepth] at h
    · exact Option.noConfusion h
    · exact Option.noConfusion h
    · exact Option.noConfusion h
    · exact ⟨r, rfl⟩
    · cases hr : coordinateDepth r with
      | none => rw [hr] at h; exact Option.noConfusion h
      | some d =>
        rw [hr] at h
        simp only [Option.map_some', Option.some.injEq] at h
        have := coordinateDepth_nonneg r d hr
        omega

theorem coordinateDepth_key {ν : Type} (ctx ctx1 : List Frame) (k : String)
    (hg : grammarStep ctx (Event.key k : Event ν) = some ctx1) :
    coordinateDepth ctx1 = some 0 := by
  cases ctx with
  | nil => exact Option.noConfusion hg
  | cons f r =>
    cases f <;> simp only [grammarStep] at hg
    all_goals first
      | exact Option.noConfusion hg
      | (cases hg; rfl)

theorem coordinateDepth_startArray {ν : Type} (ctx ctx1 : List Frame) (g : Int)
    (h : coordinateDepth ctx = some g)
    (hg : grammarStep ctx (Event.startArray : Event ν) = some ctx1) :
    coordinateDepth ctx1 = some (g + 1) := by
  simp only [grammarStep] at hg
  cases hc : completed ctx with
  | none => rw [hc] at hg; exact Option.noConfusion hg
  | some c =>
    rw [hc] at hg
    cases hg
    simp only [coordinateDepth, h, Option.map_some']

theorem coordinateDepth_endArray {ν : Type} (ctx ctx1 : List Frame) (g : Int)
    (h : coordinateDepth ctx = some g)
    (hg : grammarStep ctx (Event.endArray : Event ν) = some ctx1) (hne : g - 1 ≠ 0) :
    coordinateDepth ctx1 = some (g - 1) := by
  cases ctx with
  | nil => exact Option.noConfusion hg
  | cons f r =>
    cases f <;> simp only [grammarStep] at hg
    all_goals try exact Option.noConfusion hg
    have hg0 : g ≠ 0 := by
      intro h0
      rw [h0] at h
      obtain ⟨r1, hr1⟩ := coordinateDepth_zero _ h
      cases hr1
    obtain ⟨r1, hr1, hd1⟩ := coordinateDepth_pos _ g h hg0
    cases hr1
    obtain ⟨r2, hr2, -⟩ := coordinateDepth_pos _ (g - 1) hd1 hne
    subst hr2
    cases hg
    exact hd1

theorem coordinateDepth_first_number (ctx ctx1 : List Frame) (g : Int)
    (h : coordinateDepth ctx = some g) (hg : completed ctx = some ctx1) :
    (0 < g ∧ coordinateDepth ctx1 = some g) ∨ (g = 0 ∧ ctx1.head? = some Frame.object) := by
  by_cases h0 : g = 0
  · subst h0
    obtain ⟨r, hr⟩ := coordinateDepth_zero _ h
    subst hr
    cases hg
    exact Or.inr ⟨rfl, rfl⟩
  · obtain ⟨r, hr, -⟩ := coordinateDepth_pos _ g h h0
    subst hr
    cases hg
    have := coordinateDepth_nonneg _ g h
    exact Or.inl ⟨by omega, h⟩

theorem coordinateDepth_next_number (ctx ctx1 : List Frame) (g : Int)
    (h : (0 < g ∧ coordinateDepth ctx = some g) ∨ (g = 0 ∧ ctx.head? = some Frame.object))
    (hg : completed ctx = some ctx1) : 0 < g ∧ coordinateDepth ctx1 = some g := by
  rcases h with ⟨hpos, h⟩ | ⟨-, h⟩
  · obtain ⟨r, hr, -⟩ := coordinateDepth_pos _ g h (by omega)
    subst hr
    cases hg
    exact ⟨hpos, h⟩
  · cases ctx with
    | nil => exact Option.noConfusion hg
    | cons f r =>
      simp only [List.head?_cons, Option.some.injEq] at h
      subst h
      exact Option.noConfusion hg

namespace GeoJSONReader

variable {ν : Type}

theorem tracks_init (x0 : ν) : Tracks [Frame.root] (init x0) :=
  ⟨by simp [init, expectStacks], le_refl _, rfl⟩

theorem tracks_nonneg (ctx : List Frame) (s : GeoJSONReader ν) (h : Tracks ctx s) :
    0 ≤ s.geometryDepth := by
  obtain ⟨hs, -, ht⟩ := h
  simp only [expectStacks, List.mem_cons, List.mem_singleton, List.not_mem_nil, or_false] at hs
  rcases hs with hs | hs | hs | hs | hs | hs | hs | hs | hs | hs | hs | hs <;>
    (rw [hs] at ht; simp only [top] at ht)
  all_goals first
    | omega
    | exact coordinateDepth_nonneg _ _ ht

theorem setGeometryType_fields (s : GeoJSONReader ν) (t : GeometryType)
    (hd : 0 ≤ s.deducedGeometryDepth) :
    (s.setGeometryType t).2.expect = s.expect ∧
    (s.setGeometryType t).2.geometryDepth = s.geometryDepth ∧
    0 ≤ (s.setGeometryType t).2.deducedGeometryDepth := by
  unfold setGeometryType
  simp only [fail]
  split
  · exact ⟨rfl, rfl, hd⟩
  · refine ⟨rfl, rfl, ?_⟩
    cases t <;> simp [getExpectedGeometryDepth]

theorem rootTypeString_fields (s : GeoJSONReader ν) (v : String)
    (hd : 0 ≤ s.deducedGeometryDepth) :
    (s.rootTypeString v).2.expect = pop s.expect ∧
    (s.rootTypeString v).2.geometryDepth = s.geometryDepth ∧
    0 ≤ (s.rootTypeString v).2.deducedGeometryDepth := by
  have hr : ∀ (r : RootType) (t : GeometryType),
      (({ s with rootType := r } : GeoJSONReader ν).setGeometryType t).2.expect = s.expect ∧
      (({ s with rootType := r } : GeoJSONReader ν).setGeometryType t).2.geometryDepth =
        s.geometryDepth ∧
      0 ≤ (({ s with rootType := r } : GeoJSONReader ν).setGeometryType t).2.deducedGeometryDepth :=
    fun r t => setGeometryType_fields { s with rootType := r } t hd
  unfold rootTypeString
  simp only [setRootAndGeometryType, setRootType, if_true]
  split_ifs
  all_goals first
    | exact ⟨rfl, rfl, hd⟩
    | exact ⟨congrArg pop (hr _ _).1, (hr _ _).2.1, (hr _ _).2.2⟩

theorem geometryTypeString_fields (s : GeoJSONReader ν) (v : String)
    (hd : 0 ≤ s.deducedGeometryDepth) :
    (s.geometryTypeString v).2.expect = pop s.expect ∧
    (s.geometryTypeString v).2.geometryDepth = s.geometryDepth ∧
    0 ≤ (s.geometryTypeString v).2.deducedGeometryDepth := by
  have hr := fun t => setGeometryType_fields s t hd
  unfold geometryTypeString
  simp only
  split_ifs
  all_goals first
    | exact ⟨rfl, rfl, hd⟩
    | exact ⟨congrArg pop (hr _).1, (hr _).2.1, (hr _).2.2⟩

set_option maxHeartbeats 1600000 in
theorem tracks_handle (ctx ctx1 : List Frame) (s s1 : GeoJSONReader ν) (e : Event ν)
    (h : Tracks ctx s) (hg : grammarStep ctx e = some ctx1) (hh : s.handle e = (true, s1)) :
    Tracks ctx1 s1 := by
  obtain ⟨hs, hd, ht⟩ := h
  have hroot : ∀ x, s.rootTypeString x = (true, s1) →
      s.expect = [Expected.Type_, Expected.Root] → s.geometryDepth = 0 → Tracks ctx1 s1 := by
    intro x hx hs h0
    have hf := rootTypeString_fields s x hd
    rw [hx] at hf
    simp only [hs, pop] at hf
    unfold Tracks
    rw [hf.1, hf.2.1]
    refine ⟨?_, hf.2.2, h0⟩
    simp [expectStacks]
  have hgeo : ∀ x, s.geometryTypeString x = (true, s1) →
      s.expect = [Expected.GeometryType, Expected.Geometry, Expected.Root] →
      s.geometryDepth = 0 → Tracks ctx1 s1 := by
    intro x hx hs h0
    have hf := geometryTypeString_fields s x hd
    rw [hx] at hf
    simp only [hs, pop] at hf
    unfold Tracks
    rw [hf.1, hf.2.1]
    refine ⟨?_, hf.2.2, h0⟩
    simp [expectStacks]
  simp only [expectStacks, List.mem_cons, List.mem_singleton, List.not_mem_nil, or_false] at hs
  rcases hs with hs | hs | hs | hs | hs | hs | hs | hs | hs | hs | hs | hs <;>
    (rw [hs] at ht; simp only [top] at ht)
  all_goals
    cases e <;>
      simp only [handle, StartObject, EndObject, StartArray, EndArray, Key, String_, handleNumber,
        Null, Bool_, hs, top, fail, endRootObject, endGeometryObject, endIgnored,
        parseGeometry, parseRootCoordinates, parseGeometryCoordinates, ignored,
        startCoordinatesArray, endCoordinatesArray, Prod.mk.injEq, Bool.false_eq_true,
        false_and] at hh
  all_goals first
    | exact hroot _ hh hs ht
    | exact hgeo _ hh hs ht
    | skip
  all_goals clear hroot hgeo
  all_goals (repeat' split at hh)
  all_goals (try simp only [Prod.mk.injEq, Bool.false_eq_true, false_and, true_and] at hh)
  all_goals (try subst hh)
  all_goals (unfold Tracks; simp only [hs, top, pop, setTop])
  all_goals (refine ⟨?_, ?_, ?_⟩)
  all_goals first
    | exact hd
    | exact ht
    | assumption
    | (simp [expectStacks])
    | exact coordinateDepth_nonneg _ _ ht
    | (rw [ht]; exact coordinateDepth_key _ _ _ hg)
    | exact coordinateDepth_startArray _ _ _ ht hg
    | exact coordinateDepth_endArray _ _ _ ht hg (by assumption)
    | exact coordinateDepth_endArray _ _ _ ht.2 hg (by assumption)
    | exact coordinateDepth_first_number _ _ _ ht hg
    | exact coordinateDepth_next_number _ _ _ ht hg
    | exact coordinateDepth_next_number _ _ _ (Or.inl ht) hg

/-- Whether it accepts the event or not, no handler makes the deduced depth
negative as long as the depth counter is not. -/
theorem deduced_nonneg_handle (s : GeoJSONReader ν) (e : Event ν)
    (hd : 0 ≤ s.deducedGeometryDepth) (hg : 0 ≤ s.geometryDepth) :
    0 ≤ (s.handle e).2.deducedGeometryDepth := by
  rcases lt_or_ge 0 s.deducedGeometryDepth with hpos | hle
  · rw [deduced_of_handle s e hpos]
    exact hd
  · cases e with
    | string x =>
      cases htop : top s.expect <;> simp only [handle, String_, htop, fail, ignored]
      all_goals first
        | exact hd
        | exact (rootTypeString_fields s x hd).2.2
        | exact (geometryTypeString_fields s x hd).2.2
        | (split <;> exact hd)
    | _ =>
      cases htop : top s.expect <;>
        simp only [handle, StartObject, EndObject, StartArray, EndArray, Key, handleNumber, Null,
          Bool_, htop, fail, endIgnored, endRootObject, endGeometryObject, endCoordinatesArray,
          startCoordinatesArray, parseGeometry, parseRootCoordinates, parseGeometryCoordinates]
      all_goals try split
      all_goals try split
      all_goals try split
      all_goals try split
      all_goals first
        | exact hd
        | exact hg

/-- The reader keeps track of the tokenizer along every sequence of events that
the tokenizer delivers and the handlers accept. -/
theorem tracks_feed (es : List (Event ν)) (ctx ctx1 : List Frame) (s s1 : GeoJSONReader ν)
    (h : Tracks ctx s) (hg : grammarRun ctx es = some ctx1) (hf : s.feed es = (true, s1)) :
    Tracks ctx1 s1 := by
  induction es generalizing ctx s with
  | nil =>
    cases hg
    cases hf
    exact h
  | cons e es ih =>
    simp only [grammarRun] at hg
    cases hstep : grammarStep ctx e with
    | none => rw [hstep] at hg; exact Option.noConfusion hg
    | some c =>
      rw [hstep] at hg
      rw [feed_cons] at hf
      cases hok : (s.handle e).1 with
      | false =>
        rw [hok] at hf
        simp only [Bool.false_eq_true, if_false] at hf
        rw [hf] at hok
        exact Bool.noConfusion hok
      | true =>
        rw [hok] at hf
        simp only [if_true] at hf
        exact ih c _ (tracks_handle ctx c s _ e h hstep (Prod.ext hok rfl)) hg hf

/-- Along every sequence of events that the tokenizer delivers, the deduced depth
is never negative, whether the handlers accept all of the events or stop. -/
theorem deduced_nonneg_feed (es : List (Event ν)) (ctx ctx1 : List Frame) (s : GeoJSONReader ν)
    (h : Tracks ctx s) (hg : grammarRun ctx es = some ctx1) :
    0 ≤ (s.feed es).2.deducedGeometryDepth := by
  induction es generalizing ctx s with
  | nil => exact h.2.1
  | cons e es ih =>
    simp only [grammarRun] at hg
    cases hstep : grammarStep ctx e with
    | none => rw [hstep] at hg; exact Option.noConfusion hg
    | some c =>
      rw [hstep] at hg
      rw [feed_cons]
      cases hok : (s.handle e).1 with
      | false =>
        simp only [Bool.false_eq_true, if_false]
        exact deduced_nonneg_handle s e h.2.1 (tracks_nonneg ctx s h)
      | true =>
        simp only [if_true]
        exact ih c _ (tracks_handle ctx c s _ e h hstep (Prod.ext hok rfl)) hg

end GeoJSONReader

/-- C37: on the events the tokenizer delivers - `es1`, then `es2`, being any
initial part of the events of a JSON document, which is also what the tokenizer
has delivered when it stops in a malformed text - the deduced depth is frozen
once it is known: if `deducedGeometryDepth` is non-zero after `es1`, it is
positive, it has the same value after `es1 ++ es2`, whatever `es2` holds (a
further coordinates value, a nested geometry object, a value demoted to
ignored), and no handler call changes it then. So in every later state a type
keyword of another depth is rejected (with the types of the first depth as the
expectation when that depth is at most 4, the depths for which the source
defines it), a number in a coordinates array above that depth is rejected, and
so is a closing bracket of a coordinates array at or below that depth. -/
theorem C37_deduced_depth_is_frozen_on_delivered_events {ν : Type} (x0 : ν) (doc : JSON ν)
    (es1 es2 rest : List (Event ν)) (hdoc : doc.events = es1 ++ (es2 ++ rest))
    (h : ((GeoJSONReader.init x0).feed es1).2.deducedGeometryDepth ≠ 0) :
    0 < ((GeoJSONReader.init x0).feed es1).2.deducedGeometryDepth ∧
    ((GeoJSONReader.init x0).feed (es1 ++ es2)).2.deducedGeometryDepth =
      ((GeoJSONReader.init x0).feed es1).2.deducedGeometryDepth ∧
    (∀ e, (((GeoJSONReader.init x0).feed (es1 ++ es2)).2.handle e).2.deducedGeometryDepth =
      ((GeoJSONReader.init x0).feed es1).2.deducedGeometryDepth) ∧
    (∀ t : GeometryType, t.isGeometry = true →
      GeoJSONReader.getExpectedGeometryDepth t ≠
        ((GeoJSONReader.init x0).feed es1).2.deducedGeometryDepth →
      top ((GeoJSONReader.init x0).feed (es1 ++ es2)).2.expect = Expected.Type_ ∨
        top ((GeoJSONReader.init x0).feed (es1 ++ es2)).2.expect = Expected.GeometryType →
      (((GeoJSONReader.init x0).feed (es1 ++ es2)).2.handle (Event.string t.keyword)).1 = false ∧
      (((GeoJSONReader.init x0).feed es1).2.deducedGeometryDepth ≤ 4 →
        (((GeoJSONReader.init x0).feed (es1 ++ es2)).2.handle (Event.string t.keyword)).2.error =
          (GeoJSONReader.getExpectedGeometryDepthInt
              ((GeoJSONReader.init x0).feed es1).2.deducedGeometryDepth,
            GeoJSONReader.getActualGeometryType t))) ∧
    (∀ n : ν,
      top ((GeoJSONReader.init x0).feed (es1 ++ es2)).2.expect = Expected.GeometryCoordinates →
      ((GeoJSONReader.init x0).feed (es1 ++ es2)).2.geometryDepth <
        ((GeoJSONReader.init x0).feed es1).2.deducedGeometryDepth →
      (((GeoJSONReader.init x0).feed (es1 ++ es2)).2.handle (Event.number n)).1 = false ∧
      (((GeoJSONReader.init x0).feed (es1 ++ es2)).2.handle (Event.number n)).2.error =
        (Expected.GeometryCoordinates, Actual.Number)) ∧
    (top ((GeoJSONReader.init x0).feed (es1 ++ es2)).2.expect = Expected.GeometryCoordinates →
      ((GeoJSONReader.init x0).feed es1).2.deducedGeometryDepth ≤
        ((GeoJSONReader.init x0).feed (es1 ++ es2)).2.geometryDepth →
      (((GeoJSONReader.init x0).feed (es1 ++ es2)).2.handle Event.endArray).1 = false ∧
      (((GeoJSONReader.init x0).feed (es1 ++ es2)).2.handle Event.endArray).2.error =
        (Expected.FirstGeometryCoordinate, Actual.ArrayEnded)) := by
  have hrun : grammarRun [Frame.root] (es1 ++ (es2 ++ rest)) = some [Frame.done] := by
    rw [← hdoc]
    exact grammarRun_document doc
  obtain ⟨c1, hc1⟩ := grammarRun_initial es1 (es2 ++ rest) _ _ hrun
  have hnn := GeoJSONReader.deduced_nonneg_feed es1 _ _ _ (GeoJSONReader.tracks_init x0) hc1
  have h1 : 0 < ((GeoJSONReader.init x0).feed es1).2.deducedGeometryDepth := by omega
  have hd : ((GeoJSONReader.init x0).feed (es1 ++ es2)).2.deducedGeometryDepth =
      ((GeoJSONReader.init x0).feed es1).2.deducedGeometryDepth := by
    rw [GeoJSONReader.feed_append]
    split
    · exact GeoJSONReader.deduced_of_feed es2 _ h1
    · rfl
  have hpos : 0 < ((GeoJSONReader.init x0).feed (es1 ++ es2)).2.deducedGeometryDepth := by
    rw [hd]
    exact h1
  generalize ((GeoJSONReader.init x0).feed es1).2.deducedGeometryDepth = d at h1 hd ⊢
  generalize ((GeoJSONReader.init x0).feed (es1 ++ es2)).2 = s1 at hd hpos ⊢
  refine ⟨h1, hd, fun e => ?_, ?_, ?_, ?_⟩
  · rw [GeoJSONReader.deduced_of_handle s1 e hpos, hd]
  · intro t ht hne htop
    rw [← hd] at hne ⊢
    have hm := GeoJSONReader.setGeometryType_mismatch s1 t hpos hne
    have hm2 := GeoJSONReader.setGeometryType_mismatch
      ({ s1 with rootType := t.toRootType } : GeoJSONReader ν) t hpos hne
    rcases htop with htop | htop
    · simp only [GeoJSONReader.handle, GeoJSONReader.String_, htop,
        GeoJSONReader.rootTypeString_keyword s1 t ht, GeoJSONReader.setRootAndGeometryType,
        GeoJSONReader.setRootType, if_true, hm2]
      exact ⟨trivial, fun _ => trivial⟩
    · simp only [GeoJSONReader.handle, GeoJSONReader.String_, htop,
        GeoJSONReader.geometryTypeString_keyword s1 t ht, hm]
      exact ⟨trivial, fun _ => trivial⟩
  · intro n htop hlt
    rw [← hd] at hlt
    have h0 : s1.deducedGeometryDepth ≠ 0 := by omega
    simp [GeoJSONReader.handle, GeoJSONReader.handleNumber, htop, h0, hlt, GeoJSONReader.fail]
  · intro htop hle
    rw [← hd] at hle
    simp [GeoJSONReader.handle, GeoJSONReader.EndArray, htop, GeoJSONReader.endCoordinatesArray,
      hle, GeoJSONReader.fail]

/-- C37, witness: in the document
`{"coordinates": [1, 2], "coordinates": [[3, 4]]}` the depth is 1 after the first
number; it is still 1 after the inner array of the second coordinates value,
whose outer closing bracket is then rejected. -/
theorem C37_witness_second_coordinates_value_of_a_document :
    ((GeoJSONReader.init (0 : Int)).feed ([Event.startObject, .key "coordinates", .startArray,
      .number 1] ++ [.number 2, .endArray, .key "coordinates", .startArray, .startArray,
      .number 3, .number 4, .endArray])).2.deducedGeometryDepth = 1 ∧
    (((GeoJSONReader.init (0 : Int)).feed ([Event.startObject, .key "coordinates", .startArray,
      .number 1] ++ [.number 2, .endArray, .key "coordinates", .startArray, .startArray,
      .number 3, .number 4, .endArray])).2.handle Event.endArray).2.error =
      (Expected.FirstGeometryCoordinate, Actual.ArrayEnded) :=
  ⟨(C37_deduced_depth_is_frozen_on_delivered_events (0 : Int)
      (.obj [("coordinates", .arr [.num 1, .num 2]),
        ("coordinates", .arr [.arr [.num 3, .num 4]])])
      [Event.startObject, .key "coordinates", .startArray, .number 1]
      [.number 2, .endArray, .key "coordinates", .startArray, .startArray, .number 3, .number 4,
        .endArray]
      [.endArray, .endObject] (by decide) (by decide)).2.1,
    ((C37_deduced_depth_is_frozen_on_delivered_events (0 : Int)
      (.obj [("coordinates", .arr [.num 1, .num 2]),
        ("coordinates", .arr [.arr [.num 3, .num 4]])])
      [Event.startObject, .key "coordinates", .startArray, .number 1]
      [.number 2, .endArray, .key "coordinates", .startArray, .startArray, .number 3, .number 4,
        .endArray]
      [.endArray, .endObject] (by decide) (by decide)).2.2.2.2.2 (by decide) (by decide)).2⟩

end Mapbox
